import Mathlib

/-! das-schiff-network-operator: the traffic-control programs of
`bpf/nwop-bpf.c`.

A shallow embedding of `tc_redir` (the forwarding engine) and
`handle_neighbor_reply_tc` (the neighbor binding extractor).  The `tc_redir`
of `bpf/router.c` differs only in the flags handed to `bpf_fib_lookup`, which
the FIB oracle below absorbs, so the embedding covers both files.

Modelling conventions.

* The packet is the list of octets between `skb->data` and `skb->data_end`
  (the packet is linear, so this is all of it); a pointer into the packet is
  its offset from `skb->data`.
* Every direct packet access goes through `load8`, `load` or `store`, which
  return `none` when the access is not inside the buffer.  The programs are
  therefore `Option`-valued and `none` means "a packet access was out of
  bounds"; the explicit `> data_end` tests of the source are ordinary
  conditionals in front of those accesses.
* Kernel helpers (`bpf_fib_lookup`, `bpf_skb_store_bytes`, `bpf_redirect`,
  `bpf_redirect_neigh`, `bpf_ringbuf_reserve`, `bpf_map_lookup_elem`) are not
  part of the repository.  Their visible effect is kept in `World`; what the
  kernel decides on its own is the oracle `Kernel`.
* Unsigned counters wrap at their C width.
-/

namespace NwopBpf

/-! ## Bytes and packet memory -/

/-- One octet. -/
abbrev Byte := Fin 256

/-- A C array `__u8 x[n]`: exactly `n` octets. -/
abbrev Bytes (n : Nat) := { l : List Byte // l.length = n }

/-- The array `__u8 x[n] = {}`. -/
def Bytes.zero (n : Nat) : Bytes n := ⟨List.replicate n 0, by simp⟩

/-- Writing the `m` octets `src` at the start of an `n`-octet object (a store
to the first member of a union, or `memcpy(dst, src, m)`), the rest of the
object keeping its value. -/
def Bytes.poke {n m : Nat} (dst : Bytes n) (src : Bytes m) : Bytes n :=
  ⟨(src.val ++ dst.val.drop m).take n, by
    have h1 := src.property
    have h2 := dst.property
    simp only [List.length_take, List.length_append, List.length_drop]
    omega⟩

/-- Read of one packet octet at offset `off`; `none` when out of bounds. -/
def load8 (d : List Byte) (off : Nat) : Option Byte := d[off]?

/-- Read of `n` packet octets starting at offset `off`; `none` unless all of
them are inside the buffer. -/
def load (d : List Byte) (off n : Nat) : Option (Bytes n) :=
  if h : off + n ≤ d.length then
    some ⟨(d.drop off).take n, by
      simp only [List.length_take, List.length_drop]
      omega⟩
  else none

/-- Read of a `__be16` field followed by `bpf_ntohs`: the big-endian value of
the two octets at `off`. -/
def load16be (d : List Byte) (off : Nat) : Option Nat := do
  let hi ← load8 d off
  let lo ← load8 d (off + 1)
  pure (hi.val * 256 + lo.val)

/-- Write of the octets `src` into the packet at offset `off`; `none` unless
the whole destination range is inside the buffer. -/
def store (d : List Byte) (off : Nat) (src : List Byte) : Option (List Byte) :=
  if off + src.length ≤ d.length then
    some (d.take off ++ src ++ d.drop (off + src.length))
  else none

/-! ## Constants -/

def EBPF_ROUTE : Nat := 0
def EBPF_ROUTENN : Nat := 1
def EBPF_ERPARSHDR : Nat := 2
def EBPF_NOT_FWD : Nat := 3
def EBPF_ERSTORMAC : Nat := 4
def EBPF_SIZE_EXC : Nat := 5
def EBPF_LAST_EXIT : Nat := 6
def EBPF_RES_MAX : Nat := 7

/-- Kernel UAPI values of the `bpf_fib_lookup` result enumeration used here. -/
def BPF_FIB_LKUP_RET_SUCCESS : Int := 0
def BPF_FIB_LKUP_RET_NOT_FWDED : Int := 4
def BPF_FIB_LKUP_RET_NO_NEIGH : Int := 7
def BPF_FIB_LKUP_RET_FRAG_NEEDED : Nat := 8
def BPF_FIB_LKUP_RET_MAX : Nat := BPF_FIB_LKUP_RET_FRAG_NEEDED + 1

def AF_INET : Nat := 2
def AF_INET6 : Nat := 10

def ETH_ALEN : Nat := 6
/-- The size of `struct ethhdr`. -/
def ETH_HLEN : Nat := 14
def ETH_P_IP : Nat := 0x0800
def ETH_P_IPV6 : Nat := 0x86DD
def ETH_P_ARP : Nat := 0x0806
def ETH_P_8021Q : Nat := 0x8100
def ETH_P_8021AD : Nat := 0x88A8
def IPPROTO_ICMPV6 : Nat := 58

def TC_ACT_OK : Int := 0
def TC_ACT_SHOT : Int := 2
def TC_ACT_REDIRECT : Int := 7

/-- Max number of ICMPv6 NA options to scan to find TLLA. -/
def NA_MAX_OPTS : Nat := 6

/-- The macro `__bpf_constant_htons` on a little-endian host: the 16-bit value
whose memory image is `x` in network byte order. -/
def bpf_constant_htons (x : Nat) : Nat := (x % 256) * 256 + (x / 256) % 256

/-! ## Data model -/

/-- The program's view of the packet (`struct __sk_buff`): the octets between
`data` and `data_end` and the metadata fields the programs read. -/
structure sk_buff where
  data : List Byte
  protocol : Nat
  ingress_ifindex : Nat
  ifindex : Nat
deriving DecidableEq, Repr

/-- Counter record of the statistics maps. -/
structure datarec where
  rx_packets : Nat
  rx_bytes : Nat
deriving DecidableEq, Repr

/-- One processor's copy of a `BPF_MAP_TYPE_PERCPU_ARRAY` with `max_entries`
equal to `n`: a record for each index below `n`. -/
abbrev StatsMap (n : Nat) := { m : List datarec // m.length = n }

/-- The kernel's `struct bpf_fib_lookup`.  The unions are kept as their memory
image: `flowinfo` is the 4 octets shared by `tos`, `flowinfo` and `rt_metric`;
`ipv6_src` / `ipv6_dst` are the 16 octets shared with `ipv4_src` / `ipv4_dst`
(which occupy the first 4). -/
structure bpf_fib_lookup where
  family : Nat
  l4_protocol : Nat
  sport : Nat
  dport : Nat
  tot_len : Nat
  ifindex : Nat
  flowinfo : Bytes 4
  ipv6_src : Bytes 16
  ipv6_dst : Bytes 16
  h_vlan_proto : Nat
  h_vlan_TCI : Nat
  smac : Bytes 6
  dmac : Bytes 6
deriving DecidableEq, Repr

/-- The value of `struct bpf_fib_lookup fib_params = {}`. -/
def bpf_fib_lookup.zero : bpf_fib_lookup :=
  { family := 0, l4_protocol := 0, sport := 0, dport := 0, tot_len := 0,
    ifindex := 0, flowinfo := Bytes.zero 4, ipv6_src := Bytes.zero 16,
    ipv6_dst := Bytes.zero 16, h_vlan_proto := 0, h_vlan_TCI := 0,
    smac := Bytes.zero 6, dmac := Bytes.zero 6 }

/-- The kernel's `struct bpf_redir_neigh`; `ipv6_nh` is the 16-octet image of
the union with `ipv4_nh`. -/
structure bpf_redir_neigh where
  nh_family : Nat
  ipv6_nh : Bytes 16
deriving DecidableEq, Repr

/-- The record written to the ring buffer. -/
structure neighbor_event where
  ifindex : Nat
  family : Nat
  mac : Bytes 6
  ip : Bytes 16
deriving DecidableEq, Repr

/-- The ring buffer `neighbor_ringbuf`: how many more records can be reserved
and the records submitted so far, oldest first. -/
structure Ringbuf where
  free : Nat
  records : List neighbor_event
deriving DecidableEq, Repr

/-- The redirect registered by `bpf_redirect` / `bpf_redirect_neigh`. -/
inductive Redirect where
  | dev (ifindex : Nat)
  | neigh (ifindex : Nat) (nh : bpf_redir_neigh)
deriving DecidableEq, Repr

/-- Kernel-side state that the programs read or change: the three maps, the
ring buffer, the redirect registered for the current packet, and the list of
queries handed to `bpf_fib_lookup` so far. -/
structure World where
  lookup_port : List (Nat × Nat)
  ebpf_ret_stats_map : StatsMap EBPF_RES_MAX
  ebpf_fib_lkup_stats_map : StatsMap BPF_FIB_LKUP_RET_MAX
  neighbor_ringbuf : Ringbuf
  redirect : Option Redirect
  fib_queries : List bpf_fib_lookup
deriving DecidableEq, Repr

/-- What the kernel decides on its own: the answer of the FIB to a query (the
return code and the parameter block as the helper leaves it, the block being
handed over by pointer), and whether the packet can be made writable for
`bpf_skb_store_bytes`. -/
structure Kernel where
  fib : bpf_fib_lookup → Int × bpf_fib_lookup
  make_writable : Bool

/-- What a program invocation leaves behind: the kernel-side state, the
packet, and the returned action code. -/
structure Exit where
  world : World
  skb : sk_buff
  ret : Int
deriving DecidableEq, Repr

/-! ## Kernel helpers -/

/-- The update `rec->rx_packets++; rec->rx_bytes += len` on `__u64` fields. -/
def datarec.count (r : datarec) (len : Nat) : datarec :=
  { rx_packets := (r.rx_packets + 1) % 2 ^ 64,
    rx_bytes := (r.rx_bytes + len) % 2 ^ 64 }

/-- The common tail of the two recording functions: the array-map lookup
`bpf_map_lookup_elem(&map, &key)` (`none` is the NULL pointer, after which
nothing is written) followed by the counter update through the pointer. -/
def StatsMap.record {n : Nat} (m : StatsMap n) (key len : Nat) : StatsMap n :=
  match m.val[key]? with
  | none => m
  | some r => ⟨m.val.set key (r.count len), by simp [m.property]⟩

/-- The helper `bpf_skb_store_bytes(skb, offset, from, len, 0)`.  The kernel
first makes the range writable, which fails when the range is not inside the
packet and can also fail for reasons of its own (no memory to unshare a
cloned packet); the helper then returns a negative code (`-EFAULT`) and the
packet is untouched.  Otherwise it writes the octets and returns 0.  The
packet length never changes. -/
def bpf_skb_store_bytes (k : Kernel) (skb : sk_buff) (offset : Nat)
    (src : List Byte) : Int × sk_buff :=
  if k.make_writable = true ∧ offset + src.length ≤ skb.data.length then
    (0, { skb with data :=
      skb.data.take offset ++ src ++ skb.data.drop (offset + src.length) })
  else (-14, skb)

/-- The helper `bpf_fib_lookup(skb, &params, sizeof(params), flags)`: the
query is appended to the log, the kernel's answer is the return code together
with the parameter block as the helper leaves it. -/
def Kernel.bpf_fib_lookup (k : Kernel) (w : World) (params : bpf_fib_lookup) :
    World × Int × bpf_fib_lookup :=
  ({ w with fib_queries := w.fib_queries ++ [params] }, k.fib params)

/-- The helper `bpf_redirect(ifindex, 0)`: registers the target and returns
`TC_ACT_REDIRECT` (with flags 0 it cannot fail). -/
def bpf_redirect (w : World) (ifindex : Nat) : World × Int :=
  ({ w with redirect := some (Redirect.dev ifindex) }, TC_ACT_REDIRECT)

/-- The helper `bpf_redirect_neigh(ifindex, &nh, sizeof(nh), 0)`: registers
the target and next hop and returns `TC_ACT_REDIRECT`. -/
def bpf_redirect_neigh (w : World) (ifindex : Nat) (nh : bpf_redir_neigh) :
    World × Int :=
  ({ w with redirect := some (Redirect.neigh ifindex nh) }, TC_ACT_REDIRECT)

/-! ## The forwarding engine -/

/-- Source function `ebpf_record_ret_stats`. -/
def ebpf_record_ret_stats (w : World) (skb : sk_buff) (record : Nat)
    (tc_action : Int) : World × Int :=
  if record ≥ EBPF_RES_MAX then (w, tc_action)
  else
    ({ w with ebpf_ret_stats_map :=
        w.ebpf_ret_stats_map.record record skb.data.length }, tc_action)

/-- Source function `ebpf_record_fib_lkup`; `result` is the `__u32` argument. -/
def ebpf_record_fib_lkup (w : World) (skb : sk_buff) (result : Nat) : World :=
  if result ≥ BPF_FIB_LKUP_RET_MAX then w
  else
    { w with ebpf_fib_lkup_stats_map :=
        w.ebpf_fib_lkup_stats_map.record result skb.data.length }

/-- Source function `bpf_get_interface`: the hash-map lookup in `lookup_port`. -/
def bpf_get_interface (w : World) (ifin : Nat) : Nat :=
  match w.lookup_port.lookup ifin with
  | some lookup_index => lookup_index
  | none => ifin

/-- Source function `fill_fib_params_v4`.  The IPv4 header starts at offset
`ETH_HLEN`; `tos` is its octet 1, `protocol` octet 9, `saddr` octets 12..15,
`daddr` octets 16..19. -/
def fill_fib_params_v4 (skb : sk_buff) (fib_params : bpf_fib_lookup) :
    Option (Int × bpf_fib_lookup) :=
  if ETH_HLEN > skb.data.length then some (-1, fib_params)
  else if ETH_HLEN + 20 > skb.data.length then some (-1, fib_params)
  else do
    let tos ← load skb.data (ETH_HLEN + 1) 1
    let protocol ← load8 skb.data (ETH_HLEN + 9)
    let saddr ← load skb.data (ETH_HLEN + 12) 4
    let daddr ← load skb.data (ETH_HLEN + 16) 4
    pure (0, { fib_params with
      family := AF_INET
      flowinfo := fib_params.flowinfo.poke tos
      l4_protocol := protocol.val
      sport := 0
      dport := 0
      tot_len := 0
      ipv6_src := fib_params.ipv6_src.poke saddr
      ipv6_dst := fib_params.ipv6_dst.poke daddr })

/-- Source function `fill_fib_params_v6`.  The IPv6 header starts at offset
`ETH_HLEN`; `nexthdr` is its octet 6, `saddr` octets 8..23, `daddr` octets
24..39. -/
def fill_fib_params_v6 (skb : sk_buff) (fib_params : bpf_fib_lookup) :
    Option (Int × bpf_fib_lookup) :=
  if ETH_HLEN > skb.data.length then some (-1, fib_params)
  else if ETH_HLEN + 40 > skb.data.length then some (-1, fib_params)
  else do
    let nexthdr ← load8 skb.data (ETH_HLEN + 6)
    let saddr ← load skb.data (ETH_HLEN + 8) 16
    let daddr ← load skb.data (ETH_HLEN + 24) 16
    pure (0, { fib_params with
      family := AF_INET6
      flowinfo := Bytes.zero 4
      l4_protocol := nexthdr.val
      sport := 0
      dport := 0
      tot_len := 0
      ipv6_src := saddr
      ipv6_dst := daddr })

/-- The `switch (skb->protocol)` at the head of `tc_redir`, with `ret`
starting at -1. -/
def tc_redir_parse (skb : sk_buff) (fib_params : bpf_fib_lookup) :
    Option (Int × bpf_fib_lookup) :=
  if skb.protocol = bpf_constant_htons ETH_P_IP then
    fill_fib_params_v4 skb fib_params
  else if skb.protocol = bpf_constant_htons ETH_P_IPV6 then
    fill_fib_params_v6 skb fib_params
  else some (-1, fib_params)

/-- The part of `tc_redir` after the clearing store succeeded: the dispatch
on the lookup result `ret`. -/
def tc_redir_dispatch (w : World) (skb : sk_buff) (ret : Int)
    (fib_params : bpf_fib_lookup) : Option Exit :=
  if ret = BPF_FIB_LKUP_RET_SUCCESS then
    if ETH_HLEN > skb.data.length then
      let (w, r) := ebpf_record_ret_stats w skb EBPF_SIZE_EXC TC_ACT_SHOT
      some ⟨w, skb, r⟩
    else do
      let d ← store skb.data 0 fib_params.dmac.val
      let d ← store d ETH_ALEN fib_params.smac.val
      let skb := { skb with data := d }
      let (w, _) := ebpf_record_ret_stats w skb EBPF_ROUTE 0
      let (w, r) := bpf_redirect w fib_params.ifindex
      pure ⟨w, skb, r⟩
  else if ret = BPF_FIB_LKUP_RET_NO_NEIGH then
    let nh_params : bpf_redir_neigh :=
      { nh_family := fib_params.family, ipv6_nh := fib_params.ipv6_dst }
    let (w, _) := ebpf_record_ret_stats w skb EBPF_ROUTENN 0
    let (w, r) := bpf_redirect_neigh w fib_params.ifindex nh_params
    some ⟨w, skb, r⟩
  else
    let (w, r) := ebpf_record_ret_stats w skb EBPF_LAST_EXIT TC_ACT_SHOT
    some ⟨w, skb, r⟩

/-- Source function `tc_redir`.  The result is `none` only if a direct packet
access is out of bounds. -/
def tc_redir (k : Kernel) (w : World) (skb : sk_buff) : Option Exit := do
  let (ret, fib_params) ← tc_redir_parse skb bpf_fib_lookup.zero
  if ret ≠ 0 then
    let (w, r) := ebpf_record_ret_stats w skb EBPF_ERPARSHDR TC_ACT_OK
    pure ⟨w, skb, r⟩
  else
    let fib_params :=
      { fib_params with ifindex := bpf_get_interface w skb.ingress_ifindex }
    let (w, ret, fib_params) := k.bpf_fib_lookup w fib_params
    let w := ebpf_record_fib_lkup w skb (ret % 2 ^ 32).toNat
    if ret = BPF_FIB_LKUP_RET_NOT_FWDED ∨ ret < 0 then
      let (w, r) := ebpf_record_ret_stats w skb EBPF_NOT_FWD TC_ACT_OK
      pure ⟨w, skb, r⟩
    else
      let zero : Bytes (ETH_ALEN * 2) := Bytes.zero (ETH_ALEN * 2)
      let (rc, skb) := bpf_skb_store_bytes k skb 0 zero.val
      if rc < 0 then
        let (w, r) := ebpf_record_ret_stats w skb EBPF_ERSTORMAC TC_ACT_SHOT
        pure ⟨w, skb, r⟩
      else tc_redir_dispatch w skb ret fib_params

/-- The query `tc_redir` hands to the FIB: defined exactly when the header
parse returns 0, and then the filled parameter block with the remapped
ingress interface. -/
def fib_query (w : World) (skb : sk_buff) : Option bpf_fib_lookup :=
  match tc_redir_parse skb bpf_fib_lookup.zero with
  | some (ret, fib_params) =>
    if ret = 0 then
      some { fib_params with
        ifindex := bpf_get_interface w skb.ingress_ifindex }
    else none
  | none => none

/-- The header condition under which `tc_redir` gives up before the lookup,
read from the packet alone: the protocol is neither IPv4 nor IPv6, or the
buffer is shorter than the Ethernet header plus the fixed L3 header. -/
def header_rejected (skb : sk_buff) : Prop :=
  (skb.protocol ≠ bpf_constant_htons ETH_P_IP ∧
    skb.protocol ≠ bpf_constant_htons ETH_P_IPV6) ∨
  (skb.protocol = bpf_constant_htons ETH_P_IP ∧ skb.data.length < 14 + 20) ∨
  (skb.protocol = bpf_constant_htons ETH_P_IPV6 ∧ skb.data.length < 14 + 40)

/-! ## The neighbor binding extractor -/

/-- Source function `parse_eth_tc`.  `proto` and `off` are the caller's
variables behind the out-pointers; the result is the return code with their
values after the call. -/
def parse_eth_tc (skb : sk_buff) (proto off : Nat) : Option (Int × Nat × Nat) :=
  if ETH_HLEN > skb.data.length then some (-1, proto, off)
  else do
    let proto ← load16be skb.data 12
    let off := ETH_HLEN
    if proto = ETH_P_8021Q ∨ proto = ETH_P_8021AD then
      if off + 4 > skb.data.length then some (-1, proto, off)
      else do
        let proto ← load16be skb.data (off + 2)
        pure (0, proto, off + 4)
    else pure (0, proto, off)

/-- Source function `emit_event`: `bpf_ringbuf_reserve` returns NULL when the
ring buffer has no room, otherwise the record is filled and submitted. -/
def emit_event (w : World) (ifindex family : Nat) (mac : Bytes 6)
    (ip : Bytes 16) : World :=
  if w.neighbor_ringbuf.free = 0 then w
  else
    { w with neighbor_ringbuf :=
      { free := w.neighbor_ringbuf.free - 1,
        records := w.neighbor_ringbuf.records ++
          [{ ifindex := ifindex, family := family, mac := mac, ip := ip }] } }

/-- The comparison loop over the 4 octets of `spa_bytes` and `tpa_bytes`:
`is_gratuitous` stays 1 unless some position differs. -/
def is_gratuitous (spa_bytes tpa_bytes : Bytes 4) : Bool :=
  (List.zip spa_bytes.val tpa_bytes.val).all fun p => p.1 == p.2

/-- The ARP branch of `handle_neighbor_reply_tc`; `off` is the offset of the
`struct arp_eth_ipv4` (`hlen` at 4, `plen` at 5, `oper` at 6, `sha` at 8,
`spa` at 14, `tha` at 18, `tpa` at 24; 28 octets). -/
def handle_arp (w : World) (skb : sk_buff) (off : Nat) : Option World :=
  if off + 28 > skb.data.length then some w
  else do
    let hlen ← load8 skb.data (off + 4)
    let plen ← load8 skb.data (off + 5)
    if hlen ≠ 6 ∨ plen ≠ 4 then pure w
    else do
      let oper ← load16be skb.data (off + 6)
      if oper ≠ 1 ∧ oper ≠ 2 then pure w
      else do
        let spa_bytes ← load skb.data (off + 14) 4
        let tpa_bytes ← load skb.data (off + 24) 4
        if is_gratuitous spa_bytes tpa_bytes = true then do
          let mac ←
            if oper = 1 then load skb.data (off + 8) 6
            else load skb.data (off + 18) 6
          let spa ← load skb.data (off + 14) 4
          let ip := (Bytes.zero 16).poke spa
          pure (emit_event w skb.ifindex 4 mac ip)
        else if oper = 2 then do
          let mac ← load skb.data (off + 8) 6
          let spa ← load skb.data (off + 14) 4
          let ip := (Bytes.zero 16).poke spa
          pure (emit_event w skb.ifindex 4 mac ip)
        else pure w

/-- The option loop of the Neighbor Advertisement branch, `n` iterations
left, `pos` the offset of the next option.  A `break` ends the loop with the
current state; the only assignment `emitted = 1` is followed by `break`. -/
def na_options (skb : sk_buff) (ip : Bytes 16) :
    Nat → World → Nat → Bool → Option World
  | 0, w, _, _ => some w
  | n + 1, w, pos, emitted =>
    if emitted = true then some w
    else if pos + 2 > skb.data.length then some w
    else do
      let opt_type ← load8 skb.data pos
      let opt_len_units ← load8 skb.data (pos + 1)
      if opt_len_units.val = 0 then pure w
      else if opt_len_units.val > 32 then pure w
      else
        let opt_len := opt_len_units.val * 8
        if pos + opt_len > skb.data.length then pure w
        else if opt_type.val = 2 then
          if opt_len ≥ 8 ∧ pos + 8 ≤ skb.data.length then do
            let mac6 ← load skb.data (pos + 2) 6
            pure (emit_event w skb.ifindex 6 mac6 ip)
          else pure w
        else na_options skb ip n w (pos + opt_len) emitted

/-- The IPv6 branch of `handle_neighbor_reply_tc`; `off` is the offset of the
IPv6 header (`nexthdr` at 6; 40 octets), followed by the 8-octet
`struct icmp6hdr` whose first octet is `icmp6_type`. -/
def handle_na (w : World) (skb : sk_buff) (off : Nat) : Option World :=
  if off + 40 > skb.data.length then some w
  else do
    let nexthdr ← load8 skb.data (off + 6)
    if nexthdr.val ≠ IPPROTO_ICMPV6 then pure w
    else
      let off2 := off + 40
      if off2 + 8 > skb.data.length then pure w
      else do
        let icmp6_type ← load8 skb.data off2
        if icmp6_type.val ≠ 136 then pure w
        else
          let pos := off2 + 8
          if pos + 16 > skb.data.length then pure w
          else do
            let ip ← load skb.data pos 16
            na_options skb ip NA_MAX_OPTS w (pos + 16) false

/-- Source function `handle_neighbor_reply_tc`.  The result is `none` only if
a direct packet access is out of bounds. -/
def handle_neighbor_reply_tc (w : World) (skb : sk_buff) : Option Exit := do
  let (rc, proto, off) ← parse_eth_tc skb 0 0
  if rc < 0 then pure ⟨w, skb, TC_ACT_OK⟩
  else if proto = ETH_P_ARP then do
    let w ← handle_arp w skb off
    pure ⟨w, skb, TC_ACT_OK⟩
  else if proto = ETH_P_IPV6 then do
    let w ← handle_na w skb off
    pure ⟨w, skb, TC_ACT_OK⟩
  else pure ⟨w, skb, TC_ACT_OK⟩

/-- Frame layout read from the octets alone: the EtherType of the frame, taken
behind one 802.1Q / 802.1AD tag when the frame carries one, is `proto`, and
the payload starts at offset `off`. -/
def eth_payload (d : List Byte) (proto off : Nat) : Prop :=
  (load16be d 12 = some proto ∧ proto ≠ ETH_P_8021Q ∧ proto ≠ ETH_P_8021AD ∧
    off = 14) ∨
  ((load16be d 12 = some ETH_P_8021Q ∨ load16be d 12 = some ETH_P_8021AD) ∧
    load16be d 16 = some proto ∧ off = 18)

/-! ## Concrete inputs -/

/-- Kernel state of the examples: interface 3 is remapped to 9, every counter
is 0, the ring buffer has room for two records. -/
def ex_world : World :=
  { lookup_port := [(3, 9)],
    ebpf_ret_stats_map := ⟨List.replicate 7 ⟨0, 0⟩, rfl⟩,
    ebpf_fib_lkup_stats_map := ⟨List.replicate 9 ⟨0, 0⟩, rfl⟩,
    neighbor_ringbuf := ⟨2, []⟩, redirect := none, fib_queries := [] }

/-- A 34-octet IPv4 frame received on interface 3: ToS 0x10, UDP, from
192.168.0.1 to 10.0.0.7. -/
def ex_ipv4 : sk_buff :=
  { data := [1, 2, 3, 4, 5, 6, 7, 8, 9, 10, 11, 12, 0x08, 0x00,
      0x45, 0x10, 0, 20, 0, 0, 0, 0, 64, 17, 0, 0, 192, 168, 0, 1, 10, 0, 0, 7],
    protocol := 0x0008, ingress_ifindex := 3, ifindex := 3 }

/-- The query built for `ex_ipv4` in `ex_world`. -/
def ex_query4 : bpf_fib_lookup :=
  { bpf_fib_lookup.zero with
    family := 2, l4_protocol := 17, ifindex := 9,
    flowinfo := ⟨[0x10, 0, 0, 0], rfl⟩,
    ipv6_src := ⟨[192, 168, 0, 1, 0, 0, 0, 0, 0, 0, 0, 0, 0, 0, 0, 0], rfl⟩,
    ipv6_dst := ⟨[10, 0, 0, 7, 0, 0, 0, 0, 0, 0, 0, 0, 0, 0, 0, 0], rfl⟩ }

/-- The parameter block the example FIB hands back: egress interface 5,
source address 02:00:00:00:00:05, destination address 02:00:00:00:00:99. -/
def ex_reply : bpf_fib_lookup :=
  { ex_query4 with
    ifindex := 5,
    smac := ⟨[2, 0, 0, 0, 0, 5], rfl⟩,
    dmac := ⟨[2, 0, 0, 0, 0, 0x99], rfl⟩ }

/-- A kernel whose FIB answers every query with `code` and `ex_reply`, and
which can make the packet writable iff `writable`. -/
def ex_kernel (code : Int) (writable : Bool) : Kernel :=
  { fib := fun _ => (code, ex_reply), make_writable := writable }


/-- A gratuitous ARP reply received on interface 3: sender 02:00:00:00:00:01,
sender and target protocol address 10.0.0.5, target hardware address
aa:bb:cc:dd:ee:ff. -/
def ex_arp_gratuitous : sk_buff :=
  { data := [0xff, 0xff, 0xff, 0xff, 0xff, 0xff, 2, 0, 0, 0, 0, 1, 0x08, 0x06,
      0, 1, 0x08, 0x00, 6, 4, 0, 2,
      2, 0, 0, 0, 0, 1, 10, 0, 0, 5,
      0xaa, 0xbb, 0xcc, 0xdd, 0xee, 0xff, 10, 0, 0, 5],
    protocol := 0x0608, ingress_ifindex := 3, ifindex := 3 }

/-- An ordinary ARP reply received on interface 3: sender 10.0.0.9 at
11:22:33:44:55:66 answering 10.0.0.1 at 02:00:00:00:00:01. -/
def ex_arp_reply : sk_buff :=
  { data := [2, 0, 0, 0, 0, 1, 0x11, 0x22, 0x33, 0x44, 0x55, 0x66, 0x08, 0x06,
      0, 1, 0x08, 0x00, 6, 4, 0, 2,
      0x11, 0x22, 0x33, 0x44, 0x55, 0x66, 10, 0, 0, 9,
      2, 0, 0, 0, 0, 1, 10, 0, 0, 1],
    protocol := 0x0608, ingress_ifindex := 3, ifindex := 3 }

/-- An ordinary ARP request received on interface 3: 10.0.0.9 at
11:22:33:44:55:66 asking for 10.0.0.1. -/
def ex_arp_request : sk_buff :=
  { data := [0xff, 0xff, 0xff, 0xff, 0xff, 0xff, 0x11, 0x22, 0x33, 0x44, 0x55, 0x66,
      0x08, 0x06,
      0, 1, 0x08, 0x00, 6, 4, 0, 1,
      0x11, 0x22, 0x33, 0x44, 0x55, 0x66, 10, 0, 0, 9,
      0, 0, 0, 0, 0, 0, 10, 0, 0, 1],
    protocol := 0x0608, ingress_ifindex := 3, ifindex := 3 }

/-- The address fe80::1. -/
def ex_fe80_1 : Bytes 16 :=
  ⟨[0xfe, 0x80, 0, 0, 0, 0, 0, 0, 0, 0, 0, 0, 0, 0, 0, 1], rfl⟩

/-- A Neighbor Advertisement received on interface 3: target fe80::1, one
Target Link-Layer Address option (type 2, length unit 1) carrying
aa:aa:aa:aa:aa:aa. -/
def ex_na : sk_buff :=
  { data := [0x33, 0x33, 0, 0, 0, 1, 0xaa, 0xaa, 0xaa, 0xaa, 0xaa, 0xaa, 0x86, 0xdd,
      0x60, 0, 0, 0, 0, 32, 58, 255,
      0xfe, 0x80, 0, 0, 0, 0, 0, 0, 0, 0, 0, 0, 0, 0, 0, 1,
      0xff, 0x02, 0, 0, 0, 0, 0, 0, 0, 0, 0, 0, 0, 0, 0, 1,
      136, 0, 0, 0, 0x20, 0, 0, 0,
      0xfe, 0x80, 0, 0, 0, 0, 0, 0, 0, 0, 0, 0, 0, 0, 0, 1,
      2, 1, 0xaa, 0xaa, 0xaa, 0xaa, 0xaa, 0xaa],
    protocol := 0xdd86, ingress_ifindex := 3, ifindex := 3 }


/-! ## Option chains, VLAN tags and flow information read from the octets -/

/-- The offset reached after `n` consecutive well-formed options of types
other than 2 starting at `pos`: each has a readable 2-octet header, a length
unit between 1 and 32 and lies entirely inside the buffer.  `none` when the
first `n` options are not all of that kind. -/
def skip_options (d : List Byte) : Nat → Nat → Option Nat
  | 0, pos => some pos
  | n + 1, pos =>
    match load8 d pos, load8 d (pos + 1) with
    | some ty, some u =>
      if ty.val ≠ 2 ∧ 1 ≤ u.val ∧ u.val ≤ 32 ∧ pos + u.val * 8 ≤ d.length then
        skip_options d n (pos + u.val * 8)
      else none
    | _, _ => none

/-- The frame `d` with the 4-octet VLAN tag `t0 t1 c0 c1` (TPID, TCI)
inserted after the two MAC addresses. -/
def insert_vlan_tag (d : List Byte) (t0 t1 c0 c1 : Byte) : List Byte :=
  d.take 12 ++ [t0, t1, c0, c1] ++ d.drop 12

/-- The flow information carried by the IPv6 header at offset `ETH_HLEN`,
read from the octets alone: the first 4 octets of the header with the version
nibble cleared (traffic class and flow label, the kernel's
`IPV6_FLOWINFO_MASK`). -/
def ip6_flowinfo (d : List Byte) : Option (Bytes 4) :=
  match load8 d 14, load8 d 15, load8 d 16, load8 d 17 with
  | some b0, some b1, some b2, some b3 => some ⟨[b0 % 16, b1, b2, b3], rfl⟩
  | _, _, _, _ => none

/-! ## Further concrete inputs -/

/-- The first 78 octets of a Neighbor Advertisement for fe80::1 received
untagged: Ethernet header, IPv6 header with next header 58, ICMPv6 header of
type 136, target address. -/
def ex_na_head : List Byte :=
  [0x33, 0x33, 0, 0, 0, 1, 0xaa, 0xaa, 0xaa, 0xaa, 0xaa, 0xaa, 0x86, 0xdd,
    0x60, 0, 0, 0, 0, 32, 58, 255,
    0xfe, 0x80, 0, 0, 0, 0, 0, 0, 0, 0, 0, 0, 0, 0, 0, 1,
    0xff, 0x02, 0, 0, 0, 0, 0, 0, 0, 0, 0, 0, 0, 0, 0, 1,
    136, 0, 0, 0, 0x20, 0, 0, 0,
    0xfe, 0x80, 0, 0, 0, 0, 0, 0, 0, 0, 0, 0, 0, 0, 0, 1]

/-- A well-formed 8-octet option of type 1 (source link-layer address). -/
def ex_opt_other : List Byte := [1, 1, 0xbb, 0xbb, 0xbb, 0xbb, 0xbb, 0xbb]

/-- A well-formed Target Link-Layer Address option carrying
aa:aa:aa:aa:aa:aa. -/
def ex_opt_tlla : List Byte := [2, 1, 0xaa, 0xaa, 0xaa, 0xaa, 0xaa, 0xaa]

/-- The packet with octets `d` received on interface 3 with EtherType IPv6. -/
def ex_skb6 (d : List Byte) : sk_buff :=
  { data := d, protocol := 0xdd86, ingress_ifindex := 3, ifindex := 3 }

/-- An advertisement whose first option has length unit 0, followed by the
octets of a valid Target Link-Layer Address option. -/
def ex_na_zero_unit : sk_buff :=
  ex_skb6 (ex_na_head ++ [1, 0, 0, 0, 0, 0, 0, 0] ++ ex_opt_tlla)

/-- An advertisement whose second option, of type 2, declares 3 units (24
octets) with only 8 octets left in the buffer. -/
def ex_na_overlong : sk_buff :=
  ex_skb6 (ex_na_head ++ ex_opt_other ++ [2, 3, 0xaa, 0xaa, 0xaa, 0xaa, 0xaa, 0xaa])

/-- An advertisement with six options of type 1 followed by a valid Target
Link-Layer Address option as the seventh. -/
def ex_na_seventh : sk_buff :=
  ex_skb6 (ex_na_head ++ ex_opt_other ++ ex_opt_other ++ ex_opt_other ++
    ex_opt_other ++ ex_opt_other ++ ex_opt_other ++ ex_opt_tlla)

/-- An advertisement with five options of type 1 followed by a valid Target
Link-Layer Address option as the sixth. -/
def ex_na_sixth : sk_buff :=
  ex_skb6 (ex_na_head ++ ex_opt_other ++ ex_opt_other ++ ex_opt_other ++
    ex_opt_other ++ ex_opt_other ++ ex_opt_tlla)

/-- The gratuitous ARP reply `ex_arp_gratuitous` behind two stacked VLAN tags
(802.1AD outside, 802.1Q inside). -/
def ex_arp_double_tagged : sk_buff :=
  { ex_arp_gratuitous with
    data := insert_vlan_tag
      (insert_vlan_tag ex_arp_gratuitous.data 0x81 0x00 0x00 0x64) 0x88 0xA8 0x00 0x0a }

/-- A 10-octet runt received on interface 3 with protocol IPv4. -/
def ex_runt : sk_buff :=
  { data := [1, 2, 3, 4, 5, 6, 7, 8, 9, 10],
    protocol := 0x0008, ingress_ifindex := 3, ifindex := 3 }

/-- A 16-octet frame that ends inside its 802.1Q tag. -/
def ex_vlan_cut : sk_buff :=
  { data := [1, 2, 3, 4, 5, 6, 7, 8, 9, 10, 11, 12, 0x81, 0x00, 0x00, 0x64],
    protocol := 0x0081, ingress_ifindex := 3, ifindex := 3 }

/-- The gratuitous ARP reply cut one octet before the end of its payload. -/
def ex_arp_cut : sk_buff :=
  { ex_arp_gratuitous with data := ex_arp_gratuitous.data.take 41 }

/-- A Neighbor Advertisement cut one octet before the end of its target
address. -/
def ex_na_cut : sk_buff := ex_skb6 (ex_na_head.take 77)

/-- An ARP reply as `ex_arp_reply` but with operation code 3. -/
def ex_arp_oper3 : sk_buff :=
  { data := [2, 0, 0, 0, 0, 1, 0x11, 0x22, 0x33, 0x44, 0x55, 0x66, 0x08, 0x06,
      0, 1, 0x08, 0x00, 6, 4, 0, 3,
      0x11, 0x22, 0x33, 0x44, 0x55, 0x66, 10, 0, 0, 9,
      2, 0, 0, 0, 0, 1, 10, 0, 0, 1],
    protocol := 0x0608, ingress_ifindex := 3, ifindex := 3 }

/-- A 54-octet IPv6 frame received on interface 3: flow label 0xabcde, UDP,
from fe80::2 to fe80::1. -/
def ex_ipv6 : sk_buff :=
  ex_skb6 [1, 2, 3, 4, 5, 6, 7, 8, 9, 10, 11, 12, 0x86, 0xdd,
    0x60, 0x0a, 0xbc, 0xde, 0, 0, 17, 64,
    0xfe, 0x80, 0, 0, 0, 0, 0, 0, 0, 0, 0, 0, 0, 0, 0, 2,
    0xfe, 0x80, 0, 0, 0, 0, 0, 0, 0, 0, 0, 0, 0, 0, 0, 1]

/-- The query built for `ex_ipv6` in `ex_world`. -/
def ex_query6 : bpf_fib_lookup :=
  { bpf_fib_lookup.zero with
    family := 10, l4_protocol := 17, ifindex := 9,
    ipv6_src := ⟨[0xfe, 0x80, 0, 0, 0, 0, 0, 0, 0, 0, 0, 0, 0, 0, 0, 2], rfl⟩,
    ipv6_dst := ex_fe80_1 }

/-- The example IPv4 frame received on interface 4, which the remap table of
`ex_world` does not list. -/
def ex_ipv4_if4 : sk_buff := { ex_ipv4 with ingress_ifindex := 4 }

/-- The parameter block a FIB hands back for a route through an IPv6 gateway:
the family is `AF_INET6`, the destination field holds the gateway fe80::1,
the egress interface is 5. -/
def ex_reply_gw : bpf_fib_lookup :=
  { ex_query4 with ifindex := 5, family := 10, ipv6_dst := ex_fe80_1 }

/-- A kernel whose FIB answers every query with NoNeighbor and `ex_reply_gw`,
and which can make the packet writable. -/
def ex_kernel_gw : Kernel :=
  { fib := fun _ => (7, ex_reply_gw), make_writable := true }

/-! ## Lemmas -/

theorem load8_some (d : List Byte) (off : Nat) (h : off < d.length) :
    ∃ b, load8 d off = some b := by
  unfold load8
  exact ⟨d[off], List.getElem?_eq_getElem h⟩

theorem load_some (d : List Byte) (off n : Nat) (h : off + n ≤ d.length) :
    ∃ b : Bytes n, load d off n = some b ∧ b.val = (d.drop off).take n := by
  unfold load
  rw [dif_pos h]
  exact ⟨_, rfl, rfl⟩

theorem load16be_some (d : List Byte) (off : Nat) (h : off + 2 ≤ d.length) :
    ∃ v, load16be d off = some v := by
  obtain ⟨a, ha⟩ := load8_some d (off) (by omega)
  obtain ⟨b, hb⟩ := load8_some d (off + 1) (by omega)
  exact ⟨a.val * 256 + b.val, by simp [load16be, ha, hb]⟩

/-- Header parse of an IPv4 packet: -1 when short, otherwise 0 with the
fields copied from the header. -/
theorem fill_fib_params_v4_spec (skb : sk_buff) (fp : bpf_fib_lookup) :
    (skb.data.length < ETH_HLEN + 20 ∧ fill_fib_params_v4 skb fp = some (-1, fp)) ∨
    (ETH_HLEN + 20 ≤ skb.data.length ∧
      ∃ (tos : Bytes 1) (pr : Byte) (sa da : Bytes 4),
        tos.val = (skb.data.drop 15).take 1 ∧ skb.data[23]? = some pr ∧
        sa.val = (skb.data.drop 26).take 4 ∧ da.val = (skb.data.drop 30).take 4 ∧
        fill_fib_params_v4 skb fp = some (0, { fp with
          family := AF_INET, flowinfo := fp.flowinfo.poke tos, l4_protocol := pr.val,
          sport := 0, dport := 0, tot_len := 0,
          ipv6_src := fp.ipv6_src.poke sa, ipv6_dst := fp.ipv6_dst.poke da })) := by
  unfold fill_fib_params_v4
  simp only [ETH_HLEN]
  by_cases h1 : 14 > skb.data.length
  · left; exact ⟨by omega, by simp [h1]⟩
  · by_cases h2 : 14 + 20 > skb.data.length
    · left; exact ⟨by omega, by simp [h1, h2]⟩
    · right
      refine ⟨by omega, ?_⟩
      obtain ⟨tos, htos, htos'⟩ := load_some skb.data (14 + 1) 1 (by omega)
      obtain ⟨pr, hpr⟩ := load8_some skb.data (14 + 9) (by omega)
      obtain ⟨sa, hsa, hsa'⟩ := load_some skb.data (14 + 12) 4 (by omega)
      obtain ⟨da, hda, hda'⟩ := load_some skb.data (14 + 16) 4 (by omega)
      rw [if_neg h1, if_neg h2]
      simp only [htos, hpr, hsa, hda, Option.bind_eq_bind, Option.some_bind, Option.pure_def]
      exact ⟨tos, pr, sa, da, htos', hpr, hsa', hda', rfl⟩

/-- Header parse of an IPv6 packet: -1 when short, otherwise 0 with the
fields copied from the header and the flow information cleared. -/
theorem fill_fib_params_v6_spec (skb : sk_buff) (fp : bpf_fib_lookup) :
    (skb.data.length < ETH_HLEN + 40 ∧ fill_fib_params_v6 skb fp = some (-1, fp)) ∨
    (ETH_HLEN + 40 ≤ skb.data.length ∧
      ∃ (pr : Byte) (sa da : Bytes 16),
        skb.data[20]? = some pr ∧
        sa.val = (skb.data.drop 22).take 16 ∧ da.val = (skb.data.drop 38).take 16 ∧
        fill_fib_params_v6 skb fp = some (0, { fp with
          family := AF_INET6, flowinfo := Bytes.zero 4, l4_protocol := pr.val,
          sport := 0, dport := 0, tot_len := 0, ipv6_src := sa, ipv6_dst := da })) := by
  unfold fill_fib_params_v6
  simp only [ETH_HLEN]
  by_cases h1 : 14 > skb.data.length
  · left; exact ⟨by omega, by simp [h1]⟩
  · by_cases h2 : 14 + 40 > skb.data.length
    · left; exact ⟨by omega, by simp [h1, h2]⟩
    · right
      refine ⟨by omega, ?_⟩
      obtain ⟨pr, hpr⟩ := load8_some skb.data (14 + 6) (by omega)
      obtain ⟨sa, hsa, hsa'⟩ := load_some skb.data (14 + 8) 16 (by omega)
      obtain ⟨da, hda, hda'⟩ := load_some skb.data (14 + 24) 16 (by omega)
      rw [if_neg h1, if_neg h2]
      simp only [hpr, hsa, hda, Option.bind_eq_bind, Option.some_bind, Option.pure_def]
      exact ⟨pr, sa, da, hpr, hsa', hda', rfl⟩

/-- The header is accepted: IPv4 with 34 octets or IPv6 with 54 octets. -/
theorem tc_redir_parse_spec (skb : sk_buff) (fp : bpf_fib_lookup) :
    (¬ ((skb.protocol = bpf_constant_htons ETH_P_IP ∧ ETH_HLEN + 20 ≤ skb.data.length) ∨
        (skb.protocol = bpf_constant_htons ETH_P_IPV6 ∧ ETH_HLEN + 40 ≤ skb.data.length)) ∧
      tc_redir_parse skb fp = some (-1, fp)) ∨
    (((skb.protocol = bpf_constant_htons ETH_P_IP ∧ ETH_HLEN + 20 ≤ skb.data.length) ∨
        (skb.protocol = bpf_constant_htons ETH_P_IPV6 ∧ ETH_HLEN + 40 ≤ skb.data.length)) ∧
      ∃ fp', tc_redir_parse skb fp = some (0, fp')) := by
  have hne : bpf_constant_htons ETH_P_IP ≠ bpf_constant_htons ETH_P_IPV6 := by decide
  unfold tc_redir_parse
  by_cases h4 : skb.protocol = bpf_constant_htons ETH_P_IP
  · rw [if_pos h4]
    have h6 : skb.protocol ≠ bpf_constant_htons ETH_P_IPV6 := fun h => hne (h4 ▸ h)
    rcases fill_fib_params_v4_spec skb fp with ⟨hl, he⟩ | ⟨hl, _, _, _, _, _, _, _, _, he⟩
    · left; exact ⟨by rintro (⟨-, h⟩ | ⟨h, -⟩); omega; exact h6 h, he⟩
    · right; exact ⟨Or.inl ⟨h4, hl⟩, _, he⟩
  · rw [if_neg h4]
    by_cases h6 : skb.protocol = bpf_constant_htons ETH_P_IPV6
    · rw [if_pos h6]
      rcases fill_fib_params_v6_spec skb fp with ⟨hl, he⟩ | ⟨hl, _, _, _, _, _, _, he⟩
      · left; exact ⟨by rintro (⟨h, -⟩ | ⟨-, h⟩); exact h4 h; omega, he⟩
      · right; exact ⟨Or.inr ⟨h6, hl⟩, _, he⟩
    · rw [if_neg h6]
      left; exact ⟨by rintro (⟨h, -⟩ | ⟨h, -⟩); exact h4 h; exact h6 h, rfl⟩

theorem fib_query_spec (w : World) (skb : sk_buff) :
    (¬ ((skb.protocol = bpf_constant_htons ETH_P_IP ∧ ETH_HLEN + 20 ≤ skb.data.length) ∨
        (skb.protocol = bpf_constant_htons ETH_P_IPV6 ∧ ETH_HLEN + 40 ≤ skb.data.length)) ∧
      fib_query w skb = none) ∨
    (((skb.protocol = bpf_constant_htons ETH_P_IP ∧ ETH_HLEN + 20 ≤ skb.data.length) ∨
        (skb.protocol = bpf_constant_htons ETH_P_IPV6 ∧ ETH_HLEN + 40 ≤ skb.data.length)) ∧
      ∃ q, fib_query w skb = some q) := by
  rcases tc_redir_parse_spec skb bpf_fib_lookup.zero with ⟨hc, he⟩ | ⟨hc, fp, he⟩
  · left; exact ⟨hc, by simp [fib_query, he]⟩
  · right; exact ⟨hc, { fp with ifindex := bpf_get_interface w skb.ingress_ifindex }, by simp [fib_query, he]⟩

/-- Without a query the run ends at the header-parse exit. -/
theorem tc_redir_no_query (k : Kernel) (w : World) (skb : sk_buff)
    (h : fib_query w skb = none) :
    tc_redir k w skb =
      some ⟨(ebpf_record_ret_stats w skb EBPF_ERPARSHDR TC_ACT_OK).1, skb, TC_ACT_OK⟩ := by
  rcases tc_redir_parse_spec skb bpf_fib_lookup.zero with ⟨-, he⟩ | ⟨-, fp, he⟩
  · simp [tc_redir, he, ebpf_record_ret_stats, EBPF_ERPARSHDR, EBPF_RES_MAX]
  · simp [fib_query, he] at h

/-- With a query the run continues with the lookup. -/
theorem tc_redir_query (k : Kernel) (w : World) (skb : sk_buff) (q : bpf_fib_lookup)
    (h : fib_query w skb = some q) :
    tc_redir k w skb =
      (let w1 := ebpf_record_fib_lkup (k.bpf_fib_lookup w q).1 skb
          ((k.fib q).1 % 2 ^ 32).toNat
       if (k.fib q).1 = BPF_FIB_LKUP_RET_NOT_FWDED ∨ (k.fib q).1 < 0 then
         some ⟨(ebpf_record_ret_stats w1 skb EBPF_NOT_FWD TC_ACT_OK).1, skb, TC_ACT_OK⟩
       else if (bpf_skb_store_bytes k skb 0 (Bytes.zero (ETH_ALEN * 2)).val).1 < 0 then
         some ⟨(ebpf_record_ret_stats w1
            (bpf_skb_store_bytes k skb 0 (Bytes.zero (ETH_ALEN * 2)).val).2
            EBPF_ERSTORMAC TC_ACT_SHOT).1,
            (bpf_skb_store_bytes k skb 0 (Bytes.zero (ETH_ALEN * 2)).val).2, TC_ACT_SHOT⟩
       else tc_redir_dispatch w1
         (bpf_skb_store_bytes k skb 0 (Bytes.zero (ETH_ALEN * 2)).val).2
         (k.fib q).1 (k.fib q).2) := by
  rcases tc_redir_parse_spec skb bpf_fib_lookup.zero with ⟨-, he⟩ | ⟨-, fp, he⟩
  · simp [fib_query, he] at h
  · simp only [fib_query, he, if_true, Option.some.injEq] at h
    subst h
    simp only [tc_redir, he, Option.bind_eq_bind, Option.some_bind, ne_eq, not_true_eq_false,
      if_false, Kernel.bpf_fib_lookup, Option.pure_def]
    split <;> [rfl; (split <;> rfl)]

theorem store_zero_spec (k : Kernel) (skb : sk_buff) (hw : k.make_writable = true)
    (hl : 12 ≤ skb.data.length) :
    bpf_skb_store_bytes k skb 0 (Bytes.zero (ETH_ALEN * 2)).val =
      (0, { skb with data := List.replicate 12 0 ++ skb.data.drop 12 }) := by
  simp [bpf_skb_store_bytes, Bytes.zero, ETH_ALEN, hw, hl]

theorem store_zero_fail (k : Kernel) (skb : sk_buff) (hw : k.make_writable = false) :
    bpf_skb_store_bytes k skb 0 (Bytes.zero (ETH_ALEN * 2)).val = (-14, skb) := by
  simp [bpf_skb_store_bytes, hw]

theorem cleared_length (d : List Byte) (h : 12 ≤ d.length) :
    (List.replicate 12 (0 : Byte) ++ d.drop 12).length = d.length := by
  rw [List.length_append, List.length_replicate, List.length_drop]
  omega

theorem rewrite_macs (d : List Byte) (dm sm : Bytes 6) :
    (store (List.replicate 12 0 ++ d.drop 12) 0 dm.val).bind
        (fun d1 => store d1 ETH_ALEN sm.val) =
      some (dm.val ++ sm.val ++ d.drop 12) := by
  obtain ⟨dm, hdm⟩ := dm
  obtain ⟨sm, hsm⟩ := sm
  have e1 : store (List.replicate 12 0 ++ d.drop 12) 0 dm =
      some (dm ++ (List.replicate 6 0 ++ d.drop 12)) := by
    unfold store
    rw [if_pos (by simp; omega)]
    have : List.drop (0 + dm.length) (List.replicate 12 (0 : Byte) ++ List.drop 12 d) =
        List.replicate 6 0 ++ d.drop 12 := by
      rw [hdm, List.drop_append_of_le_length (by simp)]
      simp
    rw [this]; simp
  simp only [e1, Option.some_bind, ETH_ALEN]
  unfold store
  rw [if_pos (by simp; omega)]
  congr 1
  have t : List.take 6 (dm ++ (List.replicate 6 0 ++ List.drop 12 d)) = dm := by
    rw [List.take_append_of_le_length (by omega)]
    exact List.take_of_length_le (by omega)
  have u : List.drop (6 + sm.length) (dm ++ (List.replicate 6 0 ++ List.drop 12 d)) =
      List.drop 12 d := by
    rw [hsm, ← List.append_assoc, List.drop_append_of_le_length (by simp; omega)]
    rw [List.drop_of_length_le (by simp; omega)]
    simp
  rw [t, u]

theorem ebpf_record_fib_lkup_eq (w : World) (skb : sk_buff) (n : Nat) :
    ebpf_record_fib_lkup w skb n =
      { w with ebpf_fib_lkup_stats_map :=
          if n ≥ BPF_FIB_LKUP_RET_MAX then w.ebpf_fib_lkup_stats_map
          else w.ebpf_fib_lkup_stats_map.record n skb.data.length } := by
  unfold ebpf_record_fib_lkup
  split <;> rfl

theorem ebpf_record_ret_stats_eq (w : World) (skb : sk_buff) (record : Nat) (a : Int)
    (h : record < EBPF_RES_MAX) :
    ebpf_record_ret_stats w skb record a =
      ({ w with ebpf_ret_stats_map :=
          w.ebpf_ret_stats_map.record record skb.data.length }, a) := by
  unfold ebpf_record_ret_stats
  rw [if_neg (by omega)]

theorem fib_query_length (w : World) (skb : sk_buff) (q : bpf_fib_lookup)
    (h : fib_query w skb = some q) : ETH_HLEN + 20 ≤ skb.data.length := by
  rcases fib_query_spec w skb with ⟨-, he⟩ | ⟨hc, -⟩
  · rw [he] at h; cases h
  · rcases hc with ⟨-, hl⟩ | ⟨-, hl⟩ <;> omega

theorem datarec_count_ne (r : datarec) (len : Nat) : r.count len ≠ r := by
  intro h
  have := congrArg datarec.rx_packets h
  simp only [datarec.count] at this
  omega

theorem StatsMap.record_get {n : Nat} (m : StatsMap n) (a len i : Nat) :
    (m.record a len).val[i]? =
      if i = a then (m.val[i]?).map (fun r => r.count len) else m.val[i]? := by
  unfold StatsMap.record
  by_cases hia : i = a
  · subst hia
    rcases h : m.val[i]? with _ | r
    · simp [h]
    · have hi : i < m.val.length := by
        rcases Nat.lt_or_ge i m.val.length with hlt | hge
        · exact hlt
        · rw [List.getElem?_eq_none hge] at h; cases h
      simp only [Option.map_some']
      rw [List.getElem?_set_self hi]
      simp
  · rw [if_neg hia]
    rcases h : m.val[a]? with _ | r
    · simp
    · simp only
      rw [List.getElem?_set_ne (fun e => hia e.symm)]

theorem StatsMap.record_inj {n : Nat} (m : StatsMap n) (a b len : Nat)
    (ha : a < n) (h : m.record a len = m.record b len) : a = b := by
  by_contra hne
  have h1 := StatsMap.record_get m a len a
  have h2 := StatsMap.record_get m b len a
  rw [h, h2, if_neg hne, if_pos rfl] at h1
  have hlt : a < m.val.length := by rw [m.property]; exact ha
  rw [List.getElem?_eq_getElem hlt] at h1
  simp only [Option.map_some', Option.some.injEq] at h1
  exact datarec_count_ne _ _ h1.symm

theorem poke_zero_val {m : Nat} (src : Bytes m) (h : m ≤ 16) :
    ((Bytes.zero 16).poke src).val = src.val ++ List.replicate (16 - m) 0 := by
  have hs := src.property
  simp only [Bytes.poke, Bytes.zero, List.drop_replicate]
  exact List.take_of_length_le (by simp; omega)

/-- The query of an IPv4 packet: family `AF_INET`, destination field the 4
address octets followed by zeros. -/
theorem fib_query_v4 (w : World) (skb : sk_buff) (q : bpf_fib_lookup)
    (hproto : skb.protocol = bpf_constant_htons ETH_P_IP)
    (hq : fib_query w skb = some q) :
    q.family = AF_INET ∧
      q.ipv6_dst.val = (skb.data.drop 30).take 4 ++ List.replicate 12 0 := by
  unfold fib_query tc_redir_parse at hq
  rw [if_pos hproto] at hq
  rcases fill_fib_params_v4_spec skb bpf_fib_lookup.zero with
    ⟨-, he⟩ | ⟨-, tos, pr, sa, da, -, -, -, hda, he⟩
  · rw [he] at hq; simp at hq
  · rw [he] at hq
    simp only [if_true, Option.some.injEq] at hq
    subst hq
    refine ⟨rfl, ?_⟩
    show ((Bytes.zero 16).poke da).val = _
    rw [poke_zero_val da (by omega), hda]

/-- The query of an IPv6 packet: family `AF_INET6`, destination field the 16
address octets. -/
theorem fib_query_v6 (w : World) (skb : sk_buff) (q : bpf_fib_lookup)
    (hproto : skb.protocol = bpf_constant_htons ETH_P_IPV6)
    (hq : fib_query w skb = some q) :
    q.family = AF_INET6 ∧ q.ipv6_dst.val = (skb.data.drop 38).take 16 := by
  have hne : bpf_constant_htons ETH_P_IPV6 ≠ bpf_constant_htons ETH_P_IP := by decide
  unfold fib_query tc_redir_parse at hq
  rw [if_neg (by rw [hproto]; exact hne), if_pos hproto] at hq
  rcases fill_fib_params_v6_spec skb bpf_fib_lookup.zero with
    ⟨-, he⟩ | ⟨-, pr, sa, da, -, -, hda, he⟩
  · rw [he] at hq; simp at hq
  · rw [he] at hq
    simp only [if_true, Option.some.injEq] at hq
    subst hq
    exact ⟨rfl, hda⟩

/-- Closed form of `tc_redir` on a packet that parses: the five exits after
the lookup. -/
theorem tc_redir_closed (k : Kernel) (w : World) (skb : sk_buff) (q : bpf_fib_lookup)
    (hq : fib_query w skb = some q) :
    tc_redir k w skb = some
      (let w1 : World := { w with
          fib_queries := w.fib_queries ++ [q]
          ebpf_fib_lkup_stats_map :=
            if ((k.fib q).1 % 2 ^ 32).toNat ≥ BPF_FIB_LKUP_RET_MAX then
              w.ebpf_fib_lkup_stats_map
            else w.ebpf_fib_lkup_stats_map.record ((k.fib q).1 % 2 ^ 32).toNat
              skb.data.length }
       let cleared : sk_buff :=
         { skb with data := List.replicate 12 0 ++ skb.data.drop 12 }
       if (k.fib q).1 = BPF_FIB_LKUP_RET_NOT_FWDED ∨ (k.fib q).1 < 0 then
         ⟨{ w1 with ebpf_ret_stats_map :=
              w.ebpf_ret_stats_map.record EBPF_NOT_FWD skb.data.length }, skb, TC_ACT_OK⟩
       else if k.make_writable = false then
         ⟨{ w1 with ebpf_ret_stats_map :=
              w.ebpf_ret_stats_map.record EBPF_ERSTORMAC skb.data.length }, skb, TC_ACT_SHOT⟩
       else if (k.fib q).1 = BPF_FIB_LKUP_RET_SUCCESS then
         ⟨{ w1 with
              ebpf_ret_stats_map :=
                w.ebpf_ret_stats_map.record EBPF_ROUTE skb.data.length
              redirect := some (Redirect.dev (k.fib q).2.ifindex) },
           { skb with data :=
              (k.fib q).2.dmac.val ++ (k.fib q).2.smac.val ++ skb.data.drop 12 },
           TC_ACT_REDIRECT⟩
       else if (k.fib q).1 = BPF_FIB_LKUP_RET_NO_NEIGH then
         ⟨{ w1 with
              ebpf_ret_stats_map :=
                w.ebpf_ret_stats_map.record EBPF_ROUTENN skb.data.length
              redirect := some (Redirect.neigh (k.fib q).2.ifindex
                { nh_family := (k.fib q).2.family, ipv6_nh := (k.fib q).2.ipv6_dst }) },
           cleared, TC_ACT_REDIRECT⟩
       else
         ⟨{ w1 with ebpf_ret_stats_map :=
              w.ebpf_ret_stats_map.record EBPF_LAST_EXIT skb.data.length },
           cleared, TC_ACT_SHOT⟩) := by
  have hlen := fib_query_length w skb q hq
  have hl : 12 ≤ skb.data.length := by simp only [ETH_HLEN] at hlen; omega
  have hl14 : ¬ ETH_HLEN > (List.replicate 12 (0 : Byte) ++ skb.data.drop 12).length := by
    rw [cleared_length _ hl]; simp only [ETH_HLEN] at hlen ⊢; omega
  rw [tc_redir_query k w skb q hq]
  by_cases h1 : (k.fib q).1 = BPF_FIB_LKUP_RET_NOT_FWDED ∨ (k.fib q).1 < 0
  · simp only [if_pos h1]
    simp only [ebpf_record_ret_stats_eq _ _ _ _ (by decide : EBPF_NOT_FWD < EBPF_RES_MAX),
      ebpf_record_fib_lkup_eq, Kernel.bpf_fib_lookup]
  · simp only [if_neg h1]
    rcases hw : k.make_writable with _ | _
    · rw [store_zero_fail k skb hw]
      simp only [show ((-14 : Int) < 0) from by decide, if_true]
      simp only [ebpf_record_ret_stats_eq _ _ _ _ (by decide : EBPF_ERSTORMAC < EBPF_RES_MAX),
        ebpf_record_fib_lkup_eq, Kernel.bpf_fib_lookup]
    · rw [store_zero_spec k skb hw hl]
      simp only [show ¬ ((0 : Int) < 0) from by decide, if_false, tc_redir_dispatch,
        Bool.true_eq_false]
      by_cases hs : (k.fib q).1 = BPF_FIB_LKUP_RET_SUCCESS
      · simp only [if_pos hs, if_neg hl14]
        have hmac := rewrite_macs skb.data (k.fib q).2.dmac (k.fib q).2.smac
        rcases hst : store (List.replicate 12 0 ++ List.drop 12 skb.data) 0
            (k.fib q).2.dmac.val with _ | d1
        · rw [hst] at hmac; cases hmac
        · rw [hst] at hmac
          simp only [Option.some_bind] at hmac
          have h1 := (k.fib q).2.dmac.property
          have h2 := (k.fib q).2.smac.property
          have h3 : ((k.fib q).2.dmac.val ++ (k.fib q).2.smac.val ++
              skb.data.drop 12).length = skb.data.length := by
            simp only [List.length_append, List.length_drop, h1, h2]; omega
          simp only [Option.bind_eq_bind, Option.some_bind, hmac, Option.pure_def]
          simp only [ebpf_record_ret_stats_eq _ _ _ _ (by decide : EBPF_ROUTE < EBPF_RES_MAX),
            ebpf_record_fib_lkup_eq, Kernel.bpf_fib_lookup, bpf_redirect, h3]
      · simp only [if_neg hs]
        by_cases hn : (k.fib q).1 = BPF_FIB_LKUP_RET_NO_NEIGH
        · simp only [if_pos hn]
          simp only [ebpf_record_ret_stats_eq _ _ _ _ (by decide : EBPF_ROUTENN < EBPF_RES_MAX),
            ebpf_record_fib_lkup_eq, Kernel.bpf_fib_lookup, bpf_redirect_neigh,
            cleared_length _ hl]
        · simp only [if_neg hn]
          simp only [ebpf_record_ret_stats_eq _ _ _ _ (by decide : EBPF_LAST_EXIT < EBPF_RES_MAX),
            ebpf_record_fib_lkup_eq, Kernel.bpf_fib_lookup, cleared_length _ hl]


theorem load8_length {d : List Byte} {off : Nat} {b : Byte}
    (h : load8 d off = some b) : off < d.length := by
  unfold load8 at h
  rcases Nat.lt_or_ge off d.length with hlt | hge
  · exact hlt
  · rw [List.getElem?_eq_none hge] at h; cases h

theorem load16be_length {d : List Byte} {off v : Nat}
    (h : load16be d off = some v) : off + 2 ≤ d.length := by
  unfold load16be at h
  rcases h1 : load8 d (off + 1) with _ | b
  · rcases h0 : load8 d off with _ | a
    · simp [h0] at h
    · simp [h0, h1] at h
  · have := load8_length h1
    omega

/-- On a frame laid out as `eth_payload` describes, `parse_eth_tc` succeeds
with that protocol and offset. -/
theorem parse_eth_tc_of_payload (skb : sk_buff) (proto off p0 o0 : Nat)
    (h : eth_payload skb.data proto off) :
    parse_eth_tc skb p0 o0 = some (0, proto, off) := by
  unfold parse_eth_tc
  rcases h with ⟨h12, hq, had, ho⟩ | ⟨h12, h16, ho⟩
  · have hl := load16be_length h12
    rw [if_neg (by simp only [ETH_HLEN]; omega)]
    simp only [h12, Option.bind_eq_bind, Option.some_bind]
    rw [if_neg (by rintro (h | h); exact hq h; exact had h)]
    rw [ho]; rfl
  · have hl := load16be_length h16
    rw [if_neg (by simp only [ETH_HLEN]; omega)]
    rcases h12 with h12 | h12
    · simp only [h12, Option.bind_eq_bind, Option.some_bind, ETH_HLEN, true_or, if_true]
      rw [if_neg (by omega)]
      simp only [h16, Option.some_bind, ho]; rfl
    · simp only [h12, Option.bind_eq_bind, Option.some_bind, ETH_HLEN, or_true, if_true]
      rw [if_neg (by omega)]
      simp only [h16, Option.some_bind, ho]; rfl

theorem is_gratuitous_iff (spa tpa : Bytes 4) :
    is_gratuitous spa tpa = true ↔ spa = tpa := by
  obtain ⟨a, ha⟩ := spa
  obtain ⟨b, hb⟩ := tpa
  match a, ha, b, hb with
  | [a0, a1, a2, a3], _, [b0, b1, b2, b3], _ =>
    simp [is_gratuitous, Subtype.ext_iff, and_assoc]


/-- The ARP branch never faults, and its effect is no emission or one
emission of an IPv4 binding. -/
theorem handle_arp_total (w : World) (skb : sk_buff) (off : Nat) :
    ∃ w', handle_arp w skb off = some w' ∧
      (w' = w ∨ ∃ mac ip, w' = emit_event w skb.ifindex 4 mac ip) := by
  unfold handle_arp
  by_cases hl : off + 28 > skb.data.length
  · rw [if_pos hl]; exact ⟨w, rfl, Or.inl rfl⟩
  · rw [if_neg hl]
    obtain ⟨hlen, hhlen⟩ := load8_some skb.data (off + 4) (by omega)
    obtain ⟨plen, hplen⟩ := load8_some skb.data (off + 5) (by omega)
    obtain ⟨oper, hoper⟩ := load16be_some skb.data (off + 6) (by omega)
    obtain ⟨sha, hsha, -⟩ := load_some skb.data (off + 8) 6 (by omega)
    obtain ⟨spa, hspa, -⟩ := load_some skb.data (off + 14) 4 (by omega)
    obtain ⟨tha, htha, -⟩ := load_some skb.data (off + 18) 6 (by omega)
    obtain ⟨tpa, htpa, -⟩ := load_some skb.data (off + 24) 4 (by omega)
    simp only [hhlen, hplen, hoper, hsha, hspa, htha, htpa, Option.bind_eq_bind,
      Option.some_bind, Option.pure_def]
    split_ifs
    all_goals first
      | exact ⟨w, rfl, Or.inl rfl⟩
      | exact ⟨_, rfl, Or.inr ⟨_, _, rfl⟩⟩

/-- The option loop never faults, and its effect is no emission or one
emission of an IPv6 binding for `ip`. -/
theorem na_options_total (skb : sk_buff) (ip : Bytes 16) (n : Nat) :
    ∀ (w : World) (pos : Nat) (emitted : Bool),
      ∃ w', na_options skb ip n w pos emitted = some w' ∧
        (w' = w ∨ ∃ mac, w' = emit_event w skb.ifindex 6 mac ip) := by
  induction n with
  | zero => intro w pos emitted; exact ⟨w, rfl, Or.inl rfl⟩
  | succ n ih =>
    intro w pos emitted
    unfold na_options
    by_cases he : emitted = true
    · rw [if_pos he]; exact ⟨w, rfl, Or.inl rfl⟩
    · rw [if_neg he]
      by_cases hl : pos + 2 > skb.data.length
      · rw [if_pos hl]; exact ⟨w, rfl, Or.inl rfl⟩
      · rw [if_neg hl]
        obtain ⟨ty, hty⟩ := load8_some skb.data (pos) (by omega)
        obtain ⟨un, hun⟩ := load8_some skb.data (pos + 1) (by omega)
        simp only [hty, hun, Option.bind_eq_bind, Option.some_bind, Option.pure_def]
        by_cases h0 : un.val = 0
        · rw [if_pos h0]; exact ⟨w, rfl, Or.inl rfl⟩
        · rw [if_neg h0]
          by_cases h32 : un.val > 32
          · rw [if_pos h32]; exact ⟨w, rfl, Or.inl rfl⟩
          · rw [if_neg h32]
            by_cases hb : pos + un.val * 8 > skb.data.length
            · rw [if_pos hb]; exact ⟨w, rfl, Or.inl rfl⟩
            · rw [if_neg hb]
              by_cases h2 : ty.val = 2
              · rw [if_pos h2]
                by_cases h8 : un.val * 8 ≥ 8 ∧ pos + 8 ≤ skb.data.length
                · rw [if_pos h8]
                  obtain ⟨mac, hmac, -⟩ :=
                    load_some skb.data (pos + 2) 6 (by omega)
                  simp only [hmac, Option.some_bind]
                  exact ⟨_, rfl, Or.inr ⟨mac, rfl⟩⟩
                · rw [if_neg h8]; exact ⟨w, rfl, Or.inl rfl⟩
              · rw [if_neg h2]
                exact ih w (pos + un.val * 8) emitted

/-- The IPv6 branch never faults, and its effect is no emission or one
emission of an IPv6 binding. -/
theorem handle_na_total (w : World) (skb : sk_buff) (off : Nat) :
    ∃ w', handle_na w skb off = some w' ∧
      (w' = w ∨ ∃ mac ip, w' = emit_event w skb.ifindex 6 mac ip) := by
  unfold handle_na
  by_cases hl : off + 40 > skb.data.length
  · rw [if_pos hl]; exact ⟨w, rfl, Or.inl rfl⟩
  · rw [if_neg hl]
    obtain ⟨nh, hnh⟩ := load8_some skb.data (off + 6) (by omega)
    simp only [hnh, Option.bind_eq_bind, Option.some_bind, Option.pure_def]
    by_cases h58 : nh.val ≠ IPPROTO_ICMPV6
    · rw [if_pos h58]; exact ⟨w, rfl, Or.inl rfl⟩
    · rw [if_neg h58]
      by_cases hl2 : off + 40 + 8 > skb.data.length
      · rw [if_pos hl2]; exact ⟨w, rfl, Or.inl rfl⟩
      · rw [if_neg hl2]
        obtain ⟨ty, hty⟩ := load8_some skb.data (off + 40) (by omega)
        simp only [hty, Option.some_bind]
        by_cases h136 : ty.val ≠ 136
        · rw [if_pos h136]; exact ⟨w, rfl, Or.inl rfl⟩
        · rw [if_neg h136]
          by_cases hl3 : off + 40 + 8 + 16 > skb.data.length
          · rw [if_pos hl3]; exact ⟨w, rfl, Or.inl rfl⟩
          · rw [if_neg hl3]
            obtain ⟨ip, hip, -⟩ :=
              load_some skb.data (off + 40 + 8) 16 (by omega)
            simp only [hip, Option.some_bind]
            obtain ⟨w', hw', hcase⟩ :=
              na_options_total skb ip NA_MAX_OPTS w (off + 40 + 8 + 16) false
            refine ⟨w', hw', ?_⟩
            rcases hcase with h | ⟨mac, h⟩
            · exact Or.inl h
            · exact Or.inr ⟨mac, ip, h⟩

/-- Function `parse_eth_tc` never faults. -/
theorem parse_eth_tc_total (skb : sk_buff) (p0 o0 : Nat) :
    ∃ res, parse_eth_tc skb p0 o0 = some res := by
  unfold parse_eth_tc
  by_cases hl : ETH_HLEN > skb.data.length
  · rw [if_pos hl]; exact ⟨_, rfl⟩
  · rw [if_neg hl]
    simp only [ETH_HLEN] at hl ⊢
    obtain ⟨p, hp⟩ := load16be_some skb.data (12) (by omega)
    simp only [hp, Option.bind_eq_bind, Option.some_bind, Option.pure_def]
    by_cases hv : p = ETH_P_8021Q ∨ p = ETH_P_8021AD
    · rw [if_pos hv]
      by_cases hl2 : 14 + 4 > skb.data.length
      · rw [if_pos hl2]; exact ⟨_, rfl⟩
      · rw [if_neg hl2]
        obtain ⟨p2, hp2⟩ := load16be_some skb.data (14 + 2) (by omega)
        simp only [hp2, Option.some_bind]
        exact ⟨_, rfl⟩
    · rw [if_neg hv]; exact ⟨_, rfl⟩

/-- The extractor never faults, returns `TC_ACT_OK`, keeps the packet, and
its effect on the kernel state is no emission or one emission. -/
theorem handle_neighbor_reply_tc_total (w : World) (skb : sk_buff) :
    ∃ w', handle_neighbor_reply_tc w skb = some ⟨w', skb, TC_ACT_OK⟩ ∧
      (w' = w ∨ ∃ fam mac ip, w' = emit_event w skb.ifindex fam mac ip) := by
  unfold handle_neighbor_reply_tc
  obtain ⟨⟨rc, proto, off⟩, hp⟩ := parse_eth_tc_total skb 0 0
  simp only [hp, Option.bind_eq_bind, Option.some_bind, Option.pure_def]
  by_cases hrc : rc < 0
  · rw [if_pos hrc]; exact ⟨w, rfl, Or.inl rfl⟩
  · rw [if_neg hrc]
    by_cases harp : proto = ETH_P_ARP
    · rw [if_pos harp]
      obtain ⟨w', hw', hcase⟩ := handle_arp_total w skb off
      simp only [hw', Option.some_bind]
      refine ⟨w', rfl, ?_⟩
      rcases hcase with h | ⟨mac, ip, h⟩
      · exact Or.inl h
      · exact Or.inr ⟨4, mac, ip, h⟩
    · rw [if_neg harp]
      by_cases h6 : proto = ETH_P_IPV6
      · rw [if_pos h6]
        obtain ⟨w', hw', hcase⟩ := handle_na_total w skb off
        simp only [hw', Option.some_bind]
        refine ⟨w', rfl, ?_⟩
        rcases hcase with h | ⟨mac, ip, h⟩
        · exact Or.inl h
        · exact Or.inr ⟨6, mac, ip, h⟩
      · rw [if_neg h6]; exact ⟨w, rfl, Or.inl rfl⟩


/-- Closed form of the ARP branch on a complete ARP payload with the named
field values. -/
theorem handle_arp_closed (w : World) (skb : sk_buff) (off oper : Nat)
    (hl pl : Byte) (sha tha : Bytes 6) (spa tpa : Bytes 4)
    (hhlen : load8 skb.data (off + 4) = some hl)
    (hplen : load8 skb.data (off + 5) = some pl)
    (hoper : load16be skb.data (off + 6) = some oper)
    (hsha : load skb.data (off + 8) 6 = some sha)
    (hspa : load skb.data (off + 14) 4 = some spa)
    (htha : load skb.data (off + 18) 6 = some tha)
    (htpa : load skb.data (off + 24) 4 = some tpa) :
    handle_arp w skb off = some
      (if hl ≠ 6 ∨ pl ≠ 4 then w
       else if oper ≠ 1 ∧ oper ≠ 2 then w
       else if spa = tpa then
         emit_event w skb.ifindex 4 (if oper = 1 then sha else tha)
           ((Bytes.zero 16).poke spa)
       else if oper = 2 then
         emit_event w skb.ifindex 4 sha ((Bytes.zero 16).poke spa)
       else w) := by
  have hlen : ¬ off + 28 > skb.data.length := by
    unfold load at htpa
    split at htpa
    · omega
    · cases htpa
  unfold handle_arp
  rw [if_neg hlen]
  simp only [hhlen, hplen, hoper, hsha, hspa, htha, htpa, Option.bind_eq_bind,
    Option.some_bind, Option.pure_def, is_gratuitous_iff]
  split_ifs <;> simp_all

theorem load_length {d : List Byte} {off n : Nat} {b : Bytes n}
    (h : load d off n = some b) : off + n ≤ d.length := by
  unfold load at h
  split at h
  · assumption
  · cases h

/-- One iteration of the option loop on a well-formed option of `u` units:
a Target Link-Layer Address option ends the loop with an emission, any other
type moves on to the next option. -/
theorem na_options_step (skb : sk_buff) (ip : Bytes 16) (n : Nat) (w : World)
    (pos : Nat) (ty u : Byte)
    (hty : load8 skb.data pos = some ty)
    (hun : load8 skb.data (pos + 1) = some u)
    (hu1 : 1 ≤ u.val) (hu32 : u.val ≤ 32)
    (hin : pos + u.val * 8 ≤ skb.data.length) :
    na_options skb ip (n + 1) w pos false =
      if ty.val = 2 then
        (load skb.data (pos + 2) 6).bind
          (fun mac6 => some (emit_event w skb.ifindex 6 mac6 ip))
      else na_options skb ip n w (pos + u.val * 8) false := by
  have hl := load8_length hun
  rw [na_options]
  rw [if_neg (by decide), if_neg (by omega)]
  simp only [hty, hun, Option.bind_eq_bind, Option.some_bind, Option.pure_def]
  rw [if_neg (by omega), if_neg (by omega), if_neg (by omega)]
  by_cases h2 : ty.val = 2
  · rw [if_pos h2, if_pos h2, if_pos ⟨by omega, by omega⟩]
  · rw [if_neg h2, if_neg h2]

/-- Closed form of the IPv6 branch on a Neighbor Advertisement that holds the
target address: the option loop is entered right behind the address. -/
theorem handle_na_closed (w : World) (skb : sk_buff) (off : Nat) (ip : Bytes 16)
    (hnext : load8 skb.data (off + 6) = some 58)
    (htype : load8 skb.data (off + 40) = some 136)
    (hip : load skb.data (off + 48) 16 = some ip) :
    handle_na w skb off = na_options skb ip NA_MAX_OPTS w (off + 64) false := by
  have hl := load_length hip
  unfold handle_na
  rw [if_neg (by omega)]
  simp only [hnext, htype, Option.bind_eq_bind, Option.some_bind, Option.pure_def]
  rw [if_neg (by decide), if_neg (by omega), if_neg (by decide), if_neg (by omega)]
  simp only [hip, Option.some_bind]

/-- On a frame laid out as `eth_payload` describes, the extractor dispatches
on the protocol. -/
theorem handle_neighbor_reply_tc_closed (w : World) (skb : sk_buff) (proto off : Nat)
    (h : eth_payload skb.data proto off) :
    handle_neighbor_reply_tc w skb =
      if proto = ETH_P_ARP then
        (handle_arp w skb off).bind (fun w' => some ⟨w', skb, TC_ACT_OK⟩)
      else if proto = ETH_P_IPV6 then
        (handle_na w skb off).bind (fun w' => some ⟨w', skb, TC_ACT_OK⟩)
      else some ⟨w, skb, TC_ACT_OK⟩ := by
  unfold handle_neighbor_reply_tc
  rw [parse_eth_tc_of_payload skb proto off 0 0 h]
  simp only [Option.bind_eq_bind, Option.some_bind, Option.pure_def,
    show ¬ ((0 : Int) < 0) from by decide, if_false]

theorem emit_event_records (w : World) (ifindex family : Nat) (mac : Bytes 6)
    (ip : Bytes 16) (h : w.neighbor_ringbuf.free ≠ 0) :
    (emit_event w ifindex family mac ip).neighbor_ringbuf.records =
      w.neighbor_ringbuf.records ++
        [{ ifindex := ifindex, family := family, mac := mac, ip := ip }] := by
  unfold emit_event
  rw [if_neg h]


/-! ## The forwarding engine: theorems -/

/-- C1 (amended): for every IPv4 packet (protocol IPv4, buffer holding the
Ethernet header and the full 20-octet IPv4 header) for which the FIB lookup
returns Success with parameter block `fp` and for which the clearing store of
the 12 address octets succeeds, `tc_redir` leaves octets 0..5 equal to
`fp.dmac` and octets 6..11 equal to `fp.smac` (all later octets as received),
records outcome Route, and returns a redirect to exactly `fp.ifindex`. -/
theorem tc_redir_success_route (k : Kernel) (w : World) (skb : sk_buff)
    (fp : bpf_fib_lookup)
    (hproto : skb.protocol = bpf_constant_htons ETH_P_IP)
    (hlen : ETH_HLEN + 20 ≤ skb.data.length)
    (hfib : ∀ q, fib_query w skb = some q → k.fib q = (BPF_FIB_LKUP_RET_SUCCESS, fp))
    (hstore : k.make_writable = true) :
    ∃ q r, fib_query w skb = some q ∧ tc_redir k w skb = some r ∧
      r.skb.data.take 6 = fp.dmac.val ∧
      (r.skb.data.drop 6).take 6 = fp.smac.val ∧
      r.skb = { skb with data := fp.dmac.val ++ fp.smac.val ++ skb.data.drop 12 } ∧
      r.world.ebpf_ret_stats_map =
        w.ebpf_ret_stats_map.record EBPF_ROUTE skb.data.length ∧
      r.ret = TC_ACT_REDIRECT ∧
      r.world.redirect = some (Redirect.dev fp.ifindex) := by
  rcases fib_query_spec w skb with ⟨hc, -⟩ | ⟨-, q, hq⟩
  · exact absurd (Or.inl ⟨hproto, hlen⟩) hc
  · have hf := hfib q hq
    have h1 := fp.dmac.property
    have h2 := fp.smac.property
    have hr := tc_redir_closed k w skb q hq
    simp only [hf, hstore, BPF_FIB_LKUP_RET_SUCCESS, BPF_FIB_LKUP_RET_NOT_FWDED] at hr
    refine ⟨q, _, hq, hr, ?_, ?_, rfl, rfl, rfl, rfl⟩
    · show List.take 6 (fp.dmac.val ++ fp.smac.val ++ skb.data.drop 12) = _
      rw [List.append_assoc, List.take_append_of_le_length (by omega)]
      exact List.take_of_length_le (by omega)
    · show List.take 6 (List.drop 6 (fp.dmac.val ++ fp.smac.val ++ skb.data.drop 12)) = _
      rw [List.append_assoc, List.drop_append_of_le_length (by omega),
        List.drop_of_length_le (by omega), List.nil_append,
        List.take_append_of_le_length (by omega)]
      exact List.take_of_length_le (by omega)

/-- Concrete instance: the example IPv4 frame, the FIB answering Success,
the clearing store succeeding. -/
theorem tc_redir_success_route_witness :
    ex_ipv4.protocol = bpf_constant_htons ETH_P_IP ∧
    ETH_HLEN + 20 ≤ ex_ipv4.data.length ∧
    (∀ q, fib_query ex_world ex_ipv4 = some q →
      (ex_kernel 0 true).fib q = (BPF_FIB_LKUP_RET_SUCCESS, ex_reply)) ∧
    (ex_kernel 0 true).make_writable = true ∧
    ∃ q r, fib_query ex_world ex_ipv4 = some q ∧
      tc_redir (ex_kernel 0 true) ex_world ex_ipv4 = some r ∧
      r.skb.data.take 6 = ex_reply.dmac.val ∧
      (r.skb.data.drop 6).take 6 = ex_reply.smac.val ∧
      r.skb = { ex_ipv4 with data :=
        ex_reply.dmac.val ++ ex_reply.smac.val ++ ex_ipv4.data.drop 12 } ∧
      r.world.ebpf_ret_stats_map =
        ex_world.ebpf_ret_stats_map.record EBPF_ROUTE ex_ipv4.data.length ∧
      r.ret = TC_ACT_REDIRECT ∧
      r.world.redirect = some (Redirect.dev ex_reply.ifindex) :=
  ⟨by decide, by decide, fun _ _ => rfl, rfl,
    tc_redir_success_route (ex_kernel 0 true) ex_world ex_ipv4 ex_reply
      (by decide) (by decide) (fun _ _ => rfl) rfl⟩

/-- Without the store succeeding the rewrite does not happen: on the example
IPv4 frame with the FIB answering Success, when the kernel cannot make the
packet writable the clearing store fails and `tc_redir` drops the packet
unchanged, recording StoreMacError and registering no redirect. -/
theorem tc_redir_success_store_failure :
    ex_ipv4.protocol = bpf_constant_htons ETH_P_IP ∧
    ETH_HLEN + 20 ≤ ex_ipv4.data.length ∧
    fib_query ex_world ex_ipv4 = some ex_query4 ∧
    (ex_kernel 0 false).fib ex_query4 = (BPF_FIB_LKUP_RET_SUCCESS, ex_reply) ∧
    ∃ r, tc_redir (ex_kernel 0 false) ex_world ex_ipv4 = some r ∧
      r.ret = TC_ACT_SHOT ∧ r.ret ≠ TC_ACT_REDIRECT ∧
      r.world.redirect = none ∧
      r.skb = ex_ipv4 ∧
      r.skb.data.take 6 ≠ ex_reply.dmac.val ∧
      r.world.ebpf_ret_stats_map =
        ex_world.ebpf_ret_stats_map.record EBPF_ERSTORMAC ex_ipv4.data.length ∧
      r.world.ebpf_ret_stats_map ≠
        ex_world.ebpf_ret_stats_map.record EBPF_ROUTE ex_ipv4.data.length := by
  refine ⟨by decide, by decide, by decide, rfl, _, rfl, ?_⟩
  decide

/-- C2 (amended): for every IPv4 or IPv6 packet that parses (query `q`), for
which the FIB lookup returns NoNeighbor leaving the parameter block `fp`, and
for which the clearing store succeeds, `tc_redir` leaves the packet equal to
the input except that its first 12 octets are zero, records outcome
RouteNoNeighbor, and returns a neighbor-redirect to `fp.ifindex` whose request
carries the address family and the 16-octet destination address field of the
parameter block as the lookup left it; when the lookup left these two fields
as submitted, they are the family and the destination field of the query.
The query built from an IPv4 packet has family `AF_INET` and as destination
field the 4 address octets followed by zeros; the one built from an IPv6
packet has family `AF_INET6` and the 16 address octets. -/
theorem tc_redir_no_neigh (k : Kernel) (w : World) (skb : sk_buff)
    (q fp : bpf_fib_lookup)
    (hq : fib_query w skb = some q)
    (hfib : k.fib q = (BPF_FIB_LKUP_RET_NO_NEIGH, fp))
    (hstore : k.make_writable = true) :
    ∃ r, tc_redir k w skb = some r ∧
      r.skb = { skb with data := List.replicate 12 0 ++ skb.data.drop 12 } ∧
      r.world.ebpf_ret_stats_map =
        w.ebpf_ret_stats_map.record EBPF_ROUTENN skb.data.length ∧
      r.ret = TC_ACT_REDIRECT ∧
      r.world.redirect = some (Redirect.neigh fp.ifindex
        { nh_family := fp.family, ipv6_nh := fp.ipv6_dst }) ∧
      (fp.family = q.family → fp.ipv6_dst = q.ipv6_dst →
        r.world.redirect = some (Redirect.neigh fp.ifindex
          { nh_family := q.family, ipv6_nh := q.ipv6_dst })) ∧
      ((skb.protocol = bpf_constant_htons ETH_P_IP ∧ q.family = AF_INET ∧
          q.ipv6_dst.val = (skb.data.drop 30).take 4 ++ List.replicate 12 0) ∨
       (skb.protocol = bpf_constant_htons ETH_P_IPV6 ∧ q.family = AF_INET6 ∧
          q.ipv6_dst.val = (skb.data.drop 38).take 16)) := by
  have hfam : (skb.protocol = bpf_constant_htons ETH_P_IP ∧ q.family = AF_INET ∧
          q.ipv6_dst.val = (skb.data.drop 30).take 4 ++ List.replicate 12 0) ∨
       (skb.protocol = bpf_constant_htons ETH_P_IPV6 ∧ q.family = AF_INET6 ∧
          q.ipv6_dst.val = (skb.data.drop 38).take 16) := by
    rcases fib_query_spec w skb with ⟨-, he⟩ | ⟨hc, -⟩
    · rw [he] at hq; cases hq
    · rcases hc with ⟨hp, -⟩ | ⟨hp, -⟩
      · exact Or.inl ⟨hp, fib_query_v4 w skb q hp hq⟩
      · exact Or.inr ⟨hp, fib_query_v6 w skb q hp hq⟩
  have hr := tc_redir_closed k w skb q hq
  simp only [hfib, hstore, BPF_FIB_LKUP_RET_SUCCESS, BPF_FIB_LKUP_RET_NOT_FWDED,
    BPF_FIB_LKUP_RET_NO_NEIGH] at hr
  exact ⟨_, hr, rfl, rfl, rfl, rfl, fun hf hd => by rw [← hf, ← hd]; rfl, hfam⟩

/-- Concrete instance: the example IPv4 frame, the FIB answering NoNeighbor,
the clearing store succeeding. -/
theorem tc_redir_no_neigh_witness :
    fib_query ex_world ex_ipv4 = some ex_query4 ∧
    (ex_kernel 7 true).fib ex_query4 = (BPF_FIB_LKUP_RET_NO_NEIGH, ex_reply) ∧
    (ex_kernel 7 true).make_writable = true ∧
    ∃ r, tc_redir (ex_kernel 7 true) ex_world ex_ipv4 = some r ∧
      r.skb = { ex_ipv4 with data := List.replicate 12 0 ++ ex_ipv4.data.drop 12 } ∧
      r.world.ebpf_ret_stats_map =
        ex_world.ebpf_ret_stats_map.record EBPF_ROUTENN ex_ipv4.data.length ∧
      r.ret = TC_ACT_REDIRECT ∧
      r.world.redirect = some (Redirect.neigh ex_reply.ifindex
        { nh_family := ex_reply.family, ipv6_nh := ex_reply.ipv6_dst }) ∧
      (ex_reply.family = ex_query4.family → ex_reply.ipv6_dst = ex_query4.ipv6_dst →
        r.world.redirect = some (Redirect.neigh ex_reply.ifindex
          { nh_family := ex_query4.family, ipv6_nh := ex_query4.ipv6_dst })) ∧
      ((ex_ipv4.protocol = bpf_constant_htons ETH_P_IP ∧ ex_query4.family = AF_INET ∧
          ex_query4.ipv6_dst.val =
            (ex_ipv4.data.drop 30).take 4 ++ List.replicate 12 0) ∨
       (ex_ipv4.protocol = bpf_constant_htons ETH_P_IPV6 ∧
          ex_query4.family = AF_INET6 ∧
          ex_query4.ipv6_dst.val = (ex_ipv4.data.drop 38).take 16)) :=
  ⟨by decide, rfl, rfl,
    tc_redir_no_neigh (ex_kernel 7 true) ex_world ex_ipv4 ex_query4 ex_reply
      (by decide) rfl rfl⟩

/-- The claim as first stated fails in two ways, shown on the example IPv4
frame with the FIB answering NoNeighbor.  First, without the store succeeding
there is no neighbor-redirect: when the kernel cannot make the packet
writable the clearing store fails and `tc_redir` drops the packet unchanged
(its first 12 octets are not zero), recording StoreMacError and registering
no redirect.  Second, with the store succeeding, the request carries what the
parameter block holds after the lookup, not what the query held: when the FIB
hands back family `AF_INET6` and the gateway fe80::1 in the destination
field, the request has that family and that address, while the query had
family `AF_INET` and the 4 address octets 10.0.0.7 followed by zeros. -/
theorem tc_redir_no_neigh_divergence :
    (fib_query ex_world ex_ipv4 = some ex_query4 ∧
      (ex_kernel 7 false).fib ex_query4 = (BPF_FIB_LKUP_RET_NO_NEIGH, ex_reply) ∧
      ∃ r, tc_redir (ex_kernel 7 false) ex_world ex_ipv4 = some r ∧
        r.ret = TC_ACT_SHOT ∧ r.ret ≠ TC_ACT_REDIRECT ∧
        r.world.redirect = none ∧
        r.skb = ex_ipv4 ∧
        r.skb.data.take 12 ≠ List.replicate 12 0 ∧
        r.world.ebpf_ret_stats_map =
          ex_world.ebpf_ret_stats_map.record EBPF_ERSTORMAC ex_ipv4.data.length ∧
        r.world.ebpf_ret_stats_map ≠
          ex_world.ebpf_ret_stats_map.record EBPF_ROUTENN ex_ipv4.data.length) ∧
    (ex_ipv4.protocol = bpf_constant_htons ETH_P_IP ∧
      fib_query ex_world ex_ipv4 = some ex_query4 ∧
      ex_kernel_gw.fib ex_query4 = (BPF_FIB_LKUP_RET_NO_NEIGH, ex_reply_gw) ∧
      ex_kernel_gw.make_writable = true ∧
      ex_query4.family = AF_INET ∧
      ex_query4.ipv6_dst.val = [10, 0, 0, 7] ++ List.replicate 12 0 ∧
      ∃ r, tc_redir ex_kernel_gw ex_world ex_ipv4 = some r ∧
        r.ret = TC_ACT_REDIRECT ∧
        r.skb = { ex_ipv4 with data := List.replicate 12 0 ++ ex_ipv4.data.drop 12 } ∧
        r.world.ebpf_ret_stats_map =
          ex_world.ebpf_ret_stats_map.record EBPF_ROUTENN ex_ipv4.data.length ∧
        r.world.redirect = some (Redirect.neigh 5
          { nh_family := AF_INET6, ipv6_nh := ex_fe80_1 }) ∧
        r.world.redirect ≠ some (Redirect.neigh 5
          { nh_family := ex_query4.family, ipv6_nh := ex_query4.ipv6_dst })) := by
  refine ⟨⟨by decide, rfl, _, rfl, ?_⟩, by decide, by decide, rfl, rfl, by decide,
    by decide, _, rfl, ?_⟩
  · decide
  · decide

/-- C3: for every packet that parses (query `q`) and for which the FIB lookup
returns NotForwarded or a negative code, `tc_redir` returns `TC_ACT_OK`,
records outcome NotForwarded, registers no redirect, and leaves the packet
identical to the input. -/
theorem tc_redir_not_forwarded (k : Kernel) (w : World) (skb : sk_buff)
    (q : bpf_fib_lookup)
    (hq : fib_query w skb = some q)
    (hret : (k.fib q).1 = BPF_FIB_LKUP_RET_NOT_FWDED ∨ (k.fib q).1 < 0) :
    ∃ r, tc_redir k w skb = some r ∧
      r.ret = TC_ACT_OK ∧
      r.world.ebpf_ret_stats_map =
        w.ebpf_ret_stats_map.record EBPF_NOT_FWD skb.data.length ∧
      r.world.redirect = w.redirect ∧
      r.skb = skb := by
  have hr := tc_redir_closed k w skb q hq
  simp only [if_pos hret] at hr
  exact ⟨_, hr, rfl, rfl, rfl, rfl⟩

/-- Concrete instances: the example IPv4 frame with the FIB answering
NotForwarded (4) and with the FIB answering the negative code -22. -/
theorem tc_redir_not_forwarded_witness :
    (fib_query ex_world ex_ipv4 = some ex_query4 ∧
      ((ex_kernel 4 true).fib ex_query4).1 = BPF_FIB_LKUP_RET_NOT_FWDED ∧
      ∃ r, tc_redir (ex_kernel 4 true) ex_world ex_ipv4 = some r ∧
        r.ret = TC_ACT_OK ∧
        r.world.ebpf_ret_stats_map =
          ex_world.ebpf_ret_stats_map.record EBPF_NOT_FWD ex_ipv4.data.length ∧
        r.world.redirect = ex_world.redirect ∧
        r.skb = ex_ipv4) ∧
    (((ex_kernel (-22) true).fib ex_query4).1 < 0 ∧
      ∃ r, tc_redir (ex_kernel (-22) true) ex_world ex_ipv4 = some r ∧
        r.ret = TC_ACT_OK ∧
        r.world.ebpf_ret_stats_map =
          ex_world.ebpf_ret_stats_map.record EBPF_NOT_FWD ex_ipv4.data.length ∧
        r.world.redirect = ex_world.redirect ∧
        r.skb = ex_ipv4) :=
  ⟨⟨by decide, rfl,
      tc_redir_not_forwarded (ex_kernel 4 true) ex_world ex_ipv4 ex_query4
        (by decide) (Or.inl rfl)⟩,
    ⟨by decide,
      tc_redir_not_forwarded (ex_kernel (-22) true) ex_world ex_ipv4 ex_query4
        (by decide) (Or.inr (by decide))⟩⟩

/-- C4: `tc_redir` records outcome HeaderParseError exactly when the packet's
protocol is neither IPv4 nor IPv6 or the buffer is shorter than the Ethernet
header plus the fixed L3 header (14+20 octets for IPv4, 14+40 for IPv6); in
that case it returns `TC_ACT_OK`, leaves the packet unchanged and submits no
query to the FIB, and in every other case exactly one query is submitted. -/
theorem tc_redir_header_parse_error (k : Kernel) (w : World) (skb : sk_buff) :
    ∃ r, tc_redir k w skb = some r ∧
      (r.world.ebpf_ret_stats_map =
          w.ebpf_ret_stats_map.record EBPF_ERPARSHDR skb.data.length ↔
        header_rejected skb) ∧
      (header_rejected skb →
        r.ret = TC_ACT_OK ∧ r.skb = skb ∧ r.world.fib_queries = w.fib_queries) ∧
      (¬ header_rejected skb →
        ∃ q, fib_query w skb = some q ∧
          r.world.fib_queries = w.fib_queries ++ [q]) := by
  have hne : bpf_constant_htons ETH_P_IP ≠ bpf_constant_htons ETH_P_IPV6 := by decide
  rcases fib_query_spec w skb with ⟨hc, hq⟩ | ⟨hc, q, hq⟩
  · have hrej : header_rejected skb := by
      unfold header_rejected
      simp only [ETH_HLEN] at hc
      by_cases h4 : skb.protocol = bpf_constant_htons ETH_P_IP
      · right; left
        refine ⟨h4, ?_⟩
        by_contra hl
        exact hc (Or.inl ⟨h4, by omega⟩)
      · by_cases h6 : skb.protocol = bpf_constant_htons ETH_P_IPV6
        · right; right
          refine ⟨h6, ?_⟩
          by_contra hl
          exact hc (Or.inr ⟨h6, by omega⟩)
        · left; exact ⟨h4, h6⟩
    refine ⟨_, tc_redir_no_query k w skb hq, ?_⟩
    have hrec : (ebpf_record_ret_stats w skb EBPF_ERPARSHDR TC_ACT_OK).1.ebpf_ret_stats_map =
        w.ebpf_ret_stats_map.record EBPF_ERPARSHDR skb.data.length := by
      rw [ebpf_record_ret_stats_eq _ _ _ _ (by decide : EBPF_ERPARSHDR < EBPF_RES_MAX)]
    have hfq : (ebpf_record_ret_stats w skb EBPF_ERPARSHDR TC_ACT_OK).1.fib_queries =
        w.fib_queries := by
      rw [ebpf_record_ret_stats_eq _ _ _ _ (by decide : EBPF_ERPARSHDR < EBPF_RES_MAX)]
    exact ⟨⟨fun _ => hrej, fun _ => hrec⟩, fun _ => ⟨rfl, rfl, hfq⟩,
      fun h => absurd hrej h⟩
  · have hno : ¬ header_rejected skb := by
      unfold header_rejected
      simp only [ETH_HLEN] at hc
      rcases hc with ⟨hp, hl⟩ | ⟨hp, hl⟩
      · rintro (⟨h, -⟩ | ⟨-, h⟩ | ⟨h, -⟩)
        · exact h hp
        · omega
        · exact hne (hp.symm.trans h)
      · rintro (⟨-, h⟩ | ⟨h, -⟩ | ⟨-, h⟩)
        · exact h hp
        · exact hne (h.symm.trans hp)
        · omega
    have key : ∀ e : Exit, (∃ x, x ≠ EBPF_ERPARSHDR ∧ x < EBPF_RES_MAX ∧
          e.world.ebpf_ret_stats_map = w.ebpf_ret_stats_map.record x skb.data.length) →
        e.world.fib_queries = w.fib_queries ++ [q] →
        (e.world.ebpf_ret_stats_map =
            w.ebpf_ret_stats_map.record EBPF_ERPARSHDR skb.data.length ↔
          header_rejected skb) ∧
        (header_rejected skb →
          e.ret = TC_ACT_OK ∧ e.skb = skb ∧ e.world.fib_queries = w.fib_queries) ∧
        (¬ header_rejected skb →
          ∃ q, fib_query w skb = some q ∧
            e.world.fib_queries = w.fib_queries ++ [q]) := by
      rintro e ⟨x, hx, hlt, hex⟩ hfq
      have hne' : e.world.ebpf_ret_stats_map ≠
          w.ebpf_ret_stats_map.record EBPF_ERPARSHDR skb.data.length := by
        rw [hex]
        exact fun h => hx (StatsMap.record_inj _ _ _ _ hlt h)
      exact ⟨⟨fun h => absurd h hne', fun h => absurd h hno⟩,
        fun h => absurd h hno, fun _ => ⟨q, hq, hfq⟩⟩
    refine ⟨_, tc_redir_closed k w skb q hq, ?_⟩
    apply key
    · simp only []
      split_ifs
      all_goals first
        | exact ⟨EBPF_NOT_FWD, by decide, by decide, rfl⟩
        | exact ⟨EBPF_ERSTORMAC, by decide, by decide, rfl⟩
        | exact ⟨EBPF_ROUTE, by decide, by decide, rfl⟩
        | exact ⟨EBPF_ROUTENN, by decide, by decide, rfl⟩
        | exact ⟨EBPF_LAST_EXIT, by decide, by decide, rfl⟩
    · simp only []
      split_ifs <;> rfl

/-- C5: for every packet that parses (query `q`) and for which the FIB lookup
returns a non-negative code other than NotForwarded, `tc_redir` returns
`TC_ACT_SHOT` and registers no redirect in these two cases: when the clearing
store of the 12 address octets fails it records StoreMacError (whatever the
code), and when the store succeeds and the code is none of Success and
NoNeighbor it records LastExit. -/
theorem tc_redir_drop (k : Kernel) (w : World) (skb : sk_buff)
    (q : bpf_fib_lookup)
    (hq : fib_query w skb = some q)
    (hnn : 0 ≤ (k.fib q).1)
    (hnf : (k.fib q).1 ≠ BPF_FIB_LKUP_RET_NOT_FWDED)
    (hcase : k.make_writable = false ∨
      ((k.fib q).1 ≠ BPF_FIB_LKUP_RET_SUCCESS ∧
        (k.fib q).1 ≠ BPF_FIB_LKUP_RET_NO_NEIGH)) :
    ∃ r, tc_redir k w skb = some r ∧
      r.ret = TC_ACT_SHOT ∧
      r.world.redirect = w.redirect ∧
      r.world.ebpf_ret_stats_map =
        w.ebpf_ret_stats_map.record
          (if k.make_writable = true then EBPF_LAST_EXIT else EBPF_ERSTORMAC)
          skb.data.length := by
  have h1 : ¬ ((k.fib q).1 = BPF_FIB_LKUP_RET_NOT_FWDED ∨ (k.fib q).1 < 0) := by
    rintro (h | h)
    · exact hnf h
    · omega
  have hr := tc_redir_closed k w skb q hq
  simp only [if_neg h1] at hr
  rcases hw : k.make_writable with _ | _
  · simp only [hw, if_true] at hr
    exact ⟨_, hr, rfl, rfl, rfl⟩
  · rw [hw] at hcase
    rcases hcase with h | ⟨hs, hn⟩
    · cases h
    · simp only [hw, Bool.true_eq_false, if_false, if_neg hs, if_neg hn] at hr
      exact ⟨_, hr, rfl, rfl, rfl⟩

/-- Concrete instances: the example IPv4 frame with the FIB answering code 1
(store succeeding: LastExit) and with the FIB answering Success while the
store fails (StoreMacError). -/
theorem tc_redir_drop_witness :
    (fib_query ex_world ex_ipv4 = some ex_query4 ∧
      ∃ r, tc_redir (ex_kernel 1 true) ex_world ex_ipv4 = some r ∧
        r.ret = TC_ACT_SHOT ∧
        r.world.redirect = ex_world.redirect ∧
        r.world.ebpf_ret_stats_map =
          ex_world.ebpf_ret_stats_map.record
            (if (ex_kernel 1 true).make_writable = true then EBPF_LAST_EXIT
              else EBPF_ERSTORMAC)
            ex_ipv4.data.length) ∧
    (∃ r, tc_redir (ex_kernel 0 false) ex_world ex_ipv4 = some r ∧
        r.ret = TC_ACT_SHOT ∧
        r.world.redirect = ex_world.redirect ∧
        r.world.ebpf_ret_stats_map =
          ex_world.ebpf_ret_stats_map.record
            (if (ex_kernel 0 false).make_writable = true then EBPF_LAST_EXIT
              else EBPF_ERSTORMAC)
            ex_ipv4.data.length) :=
  ⟨⟨by decide,
      tc_redir_drop (ex_kernel 1 true) ex_world ex_ipv4 ex_query4
        (by decide) (by decide) (by decide) (Or.inr ⟨by decide, by decide⟩)⟩,
    tc_redir_drop (ex_kernel 0 false) ex_world ex_ipv4 ex_query4
      (by decide) (by decide) (by decide) (Or.inl rfl)⟩


/-! ## Bounds safety and the neighbor binding extractor: theorems -/

/-- C6: for every packet buffer of every length and content, every kernel
oracle and every kernel state, no packet read or write of `tc_redir` or of
`handle_neighbor_reply_tc` is out of bounds: both programs return a result,
never the out-of-bounds value `none`. -/
theorem packet_access_in_bounds (k : Kernel) (w : World) (skb : sk_buff) :
    (∃ r, tc_redir k w skb = some r) ∧
    (∃ r, handle_neighbor_reply_tc w skb = some r) := by
  constructor
  · rcases hq : fib_query w skb with _ | q
    · exact ⟨_, tc_redir_no_query k w skb hq⟩
    · exact ⟨_, tc_redir_closed k w skb q hq⟩
  · obtain ⟨w', hw', -⟩ := handle_neighbor_reply_tc_total w skb
    exact ⟨_, hw'⟩

/-- C7: for every packet and every state of the ring buffer,
`handle_neighbor_reply_tc` returns `TC_ACT_OK`, leaves the packet unchanged,
and appends at most one record to the ring buffer; when the ring buffer is
full (the reservation fails) the kernel state is unchanged; in every case the
state is the old one or the old one after a single `emit_event`. -/
theorem handle_neighbor_reply_tc_passive (w : World) (skb : sk_buff) :
    ∃ r, handle_neighbor_reply_tc w skb = some r ∧
      r.ret = TC_ACT_OK ∧
      r.skb = skb ∧
      (∃ evs : List neighbor_event, evs.length ≤ 1 ∧
        r.world.neighbor_ringbuf.records = w.neighbor_ringbuf.records ++ evs) ∧
      (w.neighbor_ringbuf.free = 0 → r.world = w) ∧
      (r.world = w ∨
        ∃ fam mac ip, r.world = emit_event w skb.ifindex fam mac ip) := by
  obtain ⟨w', hw', hcase⟩ := handle_neighbor_reply_tc_total w skb
  refine ⟨_, hw', rfl, rfl, ?_, ?_, hcase⟩
  · rcases hcase with h | ⟨fam, mac, ip, h⟩
    · exact ⟨[], by simp, by simp [h]⟩
    · show ∃ evs : List neighbor_event, evs.length ≤ 1 ∧
        w'.neighbor_ringbuf.records = w.neighbor_ringbuf.records ++ evs
      rw [h]
      unfold emit_event
      by_cases hf : w.neighbor_ringbuf.free = 0
      · rw [if_pos hf]; exact ⟨[], by simp, by simp⟩
      · rw [if_neg hf]; exact ⟨[_], by simp, rfl⟩
  · intro hf
    show w' = w
    rcases hcase with h | ⟨fam, mac, ip, h⟩
    · exact h
    · rw [h]; unfold emit_event; rw [if_pos hf]


/-- C8: for every complete ARP packet (EtherType ARP, possibly behind one
VLAN tag, payload at `off`) with hardware length 6, protocol length 4,
operation request (1) or reply (2), and sender protocol address equal to
target protocol address, `handle_neighbor_reply_tc` performs exactly one
`emit_event`, with family 4, the packet's interface id, ip = the 4 sender
protocol address octets followed by 12 zero octets, and mac = the target
hardware address for a reply, the sender hardware address for a request;
when the ring buffer has room exactly that record is appended. -/
theorem handle_arp_gratuitous (w : World) (skb : sk_buff) (off oper : Nat)
    (sha tha : Bytes 6) (spa tpa : Bytes 4)
    (hframe : eth_payload skb.data ETH_P_ARP off)
    (hhlen : load8 skb.data (off + 4) = some 6)
    (hplen : load8 skb.data (off + 5) = some 4)
    (hoper : load16be skb.data (off + 6) = some oper)
    (hop : oper = 1 ∨ oper = 2)
    (hsha : load skb.data (off + 8) 6 = some sha)
    (hspa : load skb.data (off + 14) 4 = some spa)
    (htha : load skb.data (off + 18) 6 = some tha)
    (htpa : load skb.data (off + 24) 4 = some tpa)
    (hgrat : spa = tpa) :
    ∃ (r : Exit) (ip : Bytes 16),
      handle_neighbor_reply_tc w skb = some r ∧
      ip.val = spa.val ++ List.replicate 12 0 ∧
      r.world = emit_event w skb.ifindex 4 (if oper = 2 then tha else sha) ip ∧
      (w.neighbor_ringbuf.free ≠ 0 →
        r.world.neighbor_ringbuf.records = w.neighbor_ringbuf.records ++
          [{ ifindex := skb.ifindex, family := 4,
             mac := if oper = 2 then tha else sha, ip := ip }]) := by
  have hmac : (if oper = 1 then sha else tha) = (if oper = 2 then tha else sha) := by
    rcases hop with h | h <;> subst h <;> rfl
  have hr := handle_neighbor_reply_tc_closed w skb ETH_P_ARP off hframe
  rw [if_pos rfl, handle_arp_closed w skb off oper 6 4 sha tha spa tpa hhlen hplen hoper
    hsha hspa htha htpa] at hr
  rw [if_neg (by decide), if_neg (by omega), if_pos hgrat, hmac] at hr
  exact ⟨_, (Bytes.zero 16).poke spa, hr, poke_zero_val spa (by omega), rfl,
    fun hf => emit_event_records w _ _ _ _ hf⟩

/-- Concrete instance: the gratuitous reply for 10.0.0.5 with target hardware
address aa:bb:cc:dd:ee:ff emits the binding family 4, ip 10.0.0.5, mac
aa:bb:cc:dd:ee:ff. -/
theorem handle_arp_gratuitous_witness :
    eth_payload ex_arp_gratuitous.data ETH_P_ARP 14 ∧
    load8 ex_arp_gratuitous.data (14 + 4) = some 6 ∧
    load8 ex_arp_gratuitous.data (14 + 5) = some 4 ∧
    load16be ex_arp_gratuitous.data (14 + 6) = some 2 ∧
    load ex_arp_gratuitous.data (14 + 8) 6 = some ⟨[2, 0, 0, 0, 0, 1], rfl⟩ ∧
    load ex_arp_gratuitous.data (14 + 14) 4 = some ⟨[10, 0, 0, 5], rfl⟩ ∧
    load ex_arp_gratuitous.data (14 + 18) 6 =
      some ⟨[0xaa, 0xbb, 0xcc, 0xdd, 0xee, 0xff], rfl⟩ ∧
    load ex_arp_gratuitous.data (14 + 24) 4 = some ⟨[10, 0, 0, 5], rfl⟩ ∧
    (∃ (r : Exit) (ip : Bytes 16),
      handle_neighbor_reply_tc ex_world ex_arp_gratuitous = some r ∧
      ip.val = [10, 0, 0, 5] ++ List.replicate 12 0 ∧
      r.world = emit_event ex_world ex_arp_gratuitous.ifindex 4
        (if 2 = 2 then ⟨[0xaa, 0xbb, 0xcc, 0xdd, 0xee, 0xff], rfl⟩
          else ⟨[2, 0, 0, 0, 0, 1], rfl⟩) ip ∧
      (ex_world.neighbor_ringbuf.free ≠ 0 →
        r.world.neighbor_ringbuf.records = ex_world.neighbor_ringbuf.records ++
          [{ ifindex := ex_arp_gratuitous.ifindex, family := 4,
             mac := if 2 = 2 then ⟨[0xaa, 0xbb, 0xcc, 0xdd, 0xee, 0xff], rfl⟩
               else ⟨[2, 0, 0, 0, 0, 1], rfl⟩,
             ip := ip }])) ∧
    (handle_neighbor_reply_tc ex_world ex_arp_gratuitous).map
        (fun r => r.world.neighbor_ringbuf.records) =
      some [{ ifindex := 3, family := 4,
              mac := ⟨[0xaa, 0xbb, 0xcc, 0xdd, 0xee, 0xff], rfl⟩,
              ip := ⟨[10, 0, 0, 5, 0, 0, 0, 0, 0, 0, 0, 0, 0, 0, 0, 0], rfl⟩ }] :=
  ⟨Or.inl (by decide), by decide, by decide, by decide, by decide, by decide,
    by decide, by decide,
    handle_arp_gratuitous ex_world ex_arp_gratuitous 14 2
      ⟨[2, 0, 0, 0, 0, 1], rfl⟩ ⟨[0xaa, 0xbb, 0xcc, 0xdd, 0xee, 0xff], rfl⟩
      ⟨[10, 0, 0, 5], rfl⟩ ⟨[10, 0, 0, 5], rfl⟩
      (Or.inl (by decide)) (by decide) (by decide) (by decide) (Or.inr rfl)
      (by decide) (by decide) (by decide) (by decide) rfl,
    by decide⟩

/-- C9: for every complete ARP packet (EtherType ARP, possibly behind one
VLAN tag, payload at `off`) with hardware length 6, protocol length 4 and
sender protocol address different from target protocol address,
`handle_neighbor_reply_tc` emits if and only if the operation is reply (2):
for a reply it performs exactly one `emit_event` with family 4, mac = sender
hardware address and ip = sender protocol address followed by 12 zero octets;
for a request (1), and any other operation, the kernel state is unchanged. -/
theorem handle_arp_ordinary (w : World) (skb : sk_buff) (off oper : Nat)
    (sha tha : Bytes 6) (spa tpa : Bytes 4)
    (hframe : eth_payload skb.data ETH_P_ARP off)
    (hhlen : load8 skb.data (off + 4) = some 6)
    (hplen : load8 skb.data (off + 5) = some 4)
    (hoper : load16be skb.data (off + 6) = some oper)
    (hsha : load skb.data (off + 8) 6 = some sha)
    (hspa : load skb.data (off + 14) 4 = some spa)
    (htha : load skb.data (off + 18) 6 = some tha)
    (htpa : load skb.data (off + 24) 4 = some tpa)
    (hne : spa ≠ tpa) :
    ∃ (r : Exit) (ip : Bytes 16),
      handle_neighbor_reply_tc w skb = some r ∧
      ip.val = spa.val ++ List.replicate 12 0 ∧
      r.world = (if oper = 2 then emit_event w skb.ifindex 4 sha ip else w) ∧
      (w.neighbor_ringbuf.free ≠ 0 →
        (r.world.neighbor_ringbuf.records ≠ w.neighbor_ringbuf.records ↔ oper = 2) ∧
        (oper = 2 →
          r.world.neighbor_ringbuf.records = w.neighbor_ringbuf.records ++
            [{ ifindex := skb.ifindex, family := 4, mac := sha, ip := ip }])) := by
  have hr := handle_neighbor_reply_tc_closed w skb ETH_P_ARP off hframe
  rw [if_pos rfl, handle_arp_closed w skb off oper 6 4 sha tha spa tpa hhlen hplen hoper
    hsha hspa htha htpa] at hr
  rw [if_neg (by decide), if_neg hne] at hr
  by_cases h2 : oper = 2
  · rw [if_neg (by omega), if_pos h2] at hr
    refine ⟨_, (Bytes.zero 16).poke spa, hr, poke_zero_val spa (by omega), ?_, ?_⟩
    · rw [if_pos h2]
    · intro hf
      have hrec := emit_event_records w skb.ifindex 4 sha ((Bytes.zero 16).poke spa) hf
      refine ⟨⟨fun _ => h2, fun _ => ?_⟩, fun _ => hrec⟩
      show (emit_event w skb.ifindex 4 sha ((Bytes.zero 16).poke spa)).neighbor_ringbuf.records
        ≠ w.neighbor_ringbuf.records
      rw [hrec]
      intro h
      have := congrArg List.length h
      simp at this
  · have hw : (if oper ≠ 1 ∧ oper ≠ 2 then w
        else if oper = 2 then emit_event w skb.ifindex 4 sha ((Bytes.zero 16).poke spa)
        else w) = w := by
      split_ifs <;> rfl
    rw [hw] at hr
    refine ⟨_, (Bytes.zero 16).poke spa, hr, poke_zero_val spa (by omega), ?_, ?_⟩
    · rw [if_neg h2]
    · intro _
      exact ⟨⟨fun h => absurd rfl h, fun h => absurd h h2⟩, fun h => absurd h h2⟩


/-- Concrete instances: the reply with sender 10.0.0.9 at 11:22:33:44:55:66
emits the binding family 4, ip 10.0.0.9, mac 11:22:33:44:55:66; the matching
request emits nothing. -/
theorem handle_arp_ordinary_witness :
    (eth_payload ex_arp_reply.data ETH_P_ARP 14 ∧
      load8 ex_arp_reply.data (14 + 4) = some 6 ∧
      load8 ex_arp_reply.data (14 + 5) = some 4 ∧
      load16be ex_arp_reply.data (14 + 6) = some 2 ∧
      load ex_arp_reply.data (14 + 8) 6 =
        some ⟨[0x11, 0x22, 0x33, 0x44, 0x55, 0x66], rfl⟩ ∧
      load ex_arp_reply.data (14 + 14) 4 = some ⟨[10, 0, 0, 9], rfl⟩ ∧
      load ex_arp_reply.data (14 + 18) 6 = some ⟨[2, 0, 0, 0, 0, 1], rfl⟩ ∧
      load ex_arp_reply.data (14 + 24) 4 = some ⟨[10, 0, 0, 1], rfl⟩ ∧
      ((⟨[10, 0, 0, 9], rfl⟩ : Bytes 4) ≠ ⟨[10, 0, 0, 1], rfl⟩) ∧
      (∃ (r : Exit) (ip : Bytes 16),
        handle_neighbor_reply_tc ex_world ex_arp_reply = some r ∧
        ip.val = [10, 0, 0, 9] ++ List.replicate 12 0 ∧
        r.world = (if 2 = 2 then
            emit_event ex_world ex_arp_reply.ifindex 4
              ⟨[0x11, 0x22, 0x33, 0x44, 0x55, 0x66], rfl⟩ ip
          else ex_world) ∧
        (ex_world.neighbor_ringbuf.free ≠ 0 →
          (r.world.neighbor_ringbuf.records ≠ ex_world.neighbor_ringbuf.records ↔
            2 = 2) ∧
          (2 = 2 →
            r.world.neighbor_ringbuf.records = ex_world.neighbor_ringbuf.records ++
              [{ ifindex := ex_arp_reply.ifindex, family := 4,
                 mac := ⟨[0x11, 0x22, 0x33, 0x44, 0x55, 0x66], rfl⟩, ip := ip }]))) ∧
      (handle_neighbor_reply_tc ex_world ex_arp_reply).map
          (fun r => r.world.neighbor_ringbuf.records) =
        some [{ ifindex := 3, family := 4,
                mac := ⟨[0x11, 0x22, 0x33, 0x44, 0x55, 0x66], rfl⟩,
                ip := ⟨[10, 0, 0, 9, 0, 0, 0, 0, 0, 0, 0, 0, 0, 0, 0, 0], rfl⟩ }]) ∧
    (load16be ex_arp_request.data (14 + 6) = some 1 ∧
      (∃ (r : Exit) (ip : Bytes 16),
        handle_neighbor_reply_tc ex_world ex_arp_request = some r ∧
        ip.val = [10, 0, 0, 9] ++ List.replicate 12 0 ∧
        r.world = (if 1 = 2 then
            emit_event ex_world ex_arp_request.ifindex 4
              ⟨[0x11, 0x22, 0x33, 0x44, 0x55, 0x66], rfl⟩ ip
          else ex_world) ∧
        (ex_world.neighbor_ringbuf.free ≠ 0 →
          (r.world.neighbor_ringbuf.records ≠ ex_world.neighbor_ringbuf.records ↔
            1 = 2) ∧
          (1 = 2 →
            r.world.neighbor_ringbuf.records = ex_world.neighbor_ringbuf.records ++
              [{ ifindex := ex_arp_request.ifindex, family := 4,
                 mac := ⟨[0x11, 0x22, 0x33, 0x44, 0x55, 0x66], rfl⟩, ip := ip }]))) ∧
      (handle_neighbor_reply_tc ex_world ex_arp_request).map
          (fun r => r.world.neighbor_ringbuf.records) = some []) :=
  ⟨⟨Or.inl (by decide), by decide, by decide, by decide, by decide, by decide,
      by decide, by decide, by decide,
      handle_arp_ordinary ex_world ex_arp_reply 14 2
        ⟨[0x11, 0x22, 0x33, 0x44, 0x55, 0x66], rfl⟩ ⟨[2, 0, 0, 0, 0, 1], rfl⟩
        ⟨[10, 0, 0, 9], rfl⟩ ⟨[10, 0, 0, 1], rfl⟩
        (Or.inl (by decide)) (by decide) (by decide) (by decide)
        (by decide) (by decide) (by decide) (by decide) (by decide),
      by decide⟩,
    ⟨by decide,
      handle_arp_ordinary ex_world ex_arp_request 14 1
        ⟨[0x11, 0x22, 0x33, 0x44, 0x55, 0x66], rfl⟩ ⟨[0, 0, 0, 0, 0, 0], rfl⟩
        ⟨[10, 0, 0, 9], rfl⟩ ⟨[10, 0, 0, 1], rfl⟩
        (Or.inl (by decide)) (by decide) (by decide) (by decide)
        (by decide) (by decide) (by decide) (by decide) (by decide),
      by decide⟩⟩

/-- C10: for every IPv6 packet (EtherType IPv6, possibly behind one VLAN tag,
header at `off`) with next-header ICMPv6 and ICMPv6 type 136 whose first
option after the 16-octet target address is a Target Link-Layer Address
option (type 2) with length unit between 1 and 32 lying entirely inside the
buffer, `handle_neighbor_reply_tc` performs exactly one `emit_event`, with
family 6, the packet's interface id, ip = the 16-octet target address and
mac = the 6 octets following the 2-octet option header; when the ring buffer
has room exactly that record is appended. -/
theorem handle_na_first_tlla (w : World) (skb : sk_buff) (off : Nat)
    (ip : Bytes 16) (u : Byte) (mac : Bytes 6)
    (hframe : eth_payload skb.data ETH_P_IPV6 off)
    (hnext : load8 skb.data (off + 6) = some 58)
    (htype : load8 skb.data (off + 40) = some 136)
    (hip : load skb.data (off + 48) 16 = some ip)
    (hopt : load8 skb.data (off + 64) = some 2)
    (hunit : load8 skb.data (off + 65) = some u)
    (hu1 : 1 ≤ u.val) (hu32 : u.val ≤ 32)
    (hin : off + 64 + u.val * 8 ≤ skb.data.length)
    (hmac : load skb.data (off + 66) 6 = some mac) :
    ∃ r : Exit,
      handle_neighbor_reply_tc w skb = some r ∧
      r.ret = TC_ACT_OK ∧
      r.world = emit_event w skb.ifindex 6 mac ip ∧
      (w.neighbor_ringbuf.free ≠ 0 →
        r.world.neighbor_ringbuf.records = w.neighbor_ringbuf.records ++
          [{ ifindex := skb.ifindex, family := 6, mac := mac, ip := ip }]) := by
  have hr := handle_neighbor_reply_tc_closed w skb ETH_P_IPV6 off hframe
  rw [if_neg (by decide), if_pos rfl, handle_na_closed w skb off ip hnext htype hip] at hr
  have hstep := na_options_step skb ip 5 w (off + 64) 2 u hopt hunit hu1 hu32 hin
  rw [if_pos (by decide), hmac] at hstep
  rw [show NA_MAX_OPTS = 5 + 1 from rfl, hstep] at hr
  exact ⟨_, hr, rfl, rfl, fun hf => emit_event_records w _ _ _ _ hf⟩

/-- Concrete instance: the advertisement for fe80::1 with one Target
Link-Layer Address option (type 2, length unit 1) carrying aa:aa:aa:aa:aa:aa
emits the binding family 6, ip fe80::1, mac aa:aa:aa:aa:aa:aa. -/
theorem handle_na_first_tlla_witness :
    eth_payload ex_na.data ETH_P_IPV6 14 ∧
    load8 ex_na.data (14 + 6) = some 58 ∧
    load8 ex_na.data (14 + 40) = some 136 ∧
    load ex_na.data (14 + 48) 16 = some ex_fe80_1 ∧
    load8 ex_na.data (14 + 64) = some 2 ∧
    load8 ex_na.data (14 + 65) = some 1 ∧
    14 + 64 + (1 : Byte).val * 8 ≤ ex_na.data.length ∧
    load ex_na.data (14 + 66) 6 = some ⟨[0xaa, 0xaa, 0xaa, 0xaa, 0xaa, 0xaa], rfl⟩ ∧
    (∃ r : Exit,
      handle_neighbor_reply_tc ex_world ex_na = some r ∧
      r.ret = TC_ACT_OK ∧
      r.world = emit_event ex_world ex_na.ifindex 6
        ⟨[0xaa, 0xaa, 0xaa, 0xaa, 0xaa, 0xaa], rfl⟩ ex_fe80_1 ∧
      (ex_world.neighbor_ringbuf.free ≠ 0 →
        r.world.neighbor_ringbuf.records = ex_world.neighbor_ringbuf.records ++
          [{ ifindex := ex_na.ifindex, family := 6,
             mac := ⟨[0xaa, 0xaa, 0xaa, 0xaa, 0xaa, 0xaa], rfl⟩, ip := ex_fe80_1 }])) ∧
    (handle_neighbor_reply_tc ex_world ex_na).map
        (fun r => r.world.neighbor_ringbuf.records) =
      some [{ ifindex := 3, family := 6,
              mac := ⟨[0xaa, 0xaa, 0xaa, 0xaa, 0xaa, 0xaa], rfl⟩,
              ip := ex_fe80_1 }] :=
  ⟨Or.inl (by decide), by decide, by decide, by decide, by decide, by decide,
    by decide, by decide,
    handle_na_first_tlla ex_world ex_na 14 ex_fe80_1 1
      ⟨[0xaa, 0xaa, 0xaa, 0xaa, 0xaa, 0xaa], rfl⟩
      (Or.inl (by decide)) (by decide) (by decide) (by decide) (by decide) (by decide)
      (by decide) (by decide) (by decide) (by decide),
    by decide⟩

/-! ## Option scanning -/

/-- Skipping `j` well-formed options of other types uses up `j` iterations
of the option loop. -/
theorem na_options_skip (skb : sk_buff) (ip : Bytes 16) (w : World) (m : Nat) :
    ∀ (j pos pos' : Nat), skip_options skb.data j pos = some pos' →
      na_options skb ip (j + m) w pos false = na_options skb ip m w pos' false := by
  intro j
  induction j with
  | zero =>
    intro pos pos' h
    simp only [skip_options, Option.some.injEq] at h
    subst h
    simp
  | succ j ih =>
    intro pos pos' h
    rw [skip_options] at h
    rcases hty : load8 skb.data pos with _ | ty
    · simp [hty] at h
    · rcases hun : load8 skb.data (pos + 1) with _ | u
      · simp [hty, hun] at h
      · simp only [hty, hun] at h
        by_cases hc : ty.val ≠ 2 ∧ 1 ≤ u.val ∧ u.val ≤ 32 ∧
            pos + u.val * 8 ≤ skb.data.length
        · rw [if_pos hc] at h
          obtain ⟨h2, hu1, hu32, hin⟩ := hc
          rw [show j + 1 + m = (j + m) + 1 from by omega,
            na_options_step skb ip (j + m) w pos ty u hty hun hu1 hu32 hin, if_neg h2]
          exact ih _ _ h
        · rw [if_neg hc] at h
          cases h

/-- The option loop stops without emission at an option whose length unit is
0 or above 32 or whose declared length passes the end of the buffer. -/
theorem na_options_bad (skb : sk_buff) (ip : Bytes 16) (w : World) (n pos : Nat)
    (u : Byte) (hun : load8 skb.data (pos + 1) = some u)
    (hbad : u.val = 0 ∨ 32 < u.val ∨ skb.data.length < pos + u.val * 8) :
    na_options skb ip n w pos false = some w := by
  cases n with
  | zero => rfl
  | succ n =>
    have hl := load8_length hun
    obtain ⟨ty, hty⟩ := load8_some skb.data pos (by omega)
    rw [na_options]
    rw [if_neg (by decide), if_neg (by omega)]
    simp only [hty, hun, Option.bind_eq_bind, Option.some_bind, Option.pure_def]
    by_cases h0 : u.val = 0
    · rw [if_pos h0]
    · rw [if_neg h0]
      by_cases h32 : u.val > 32
      · rw [if_pos h32]
      · rw [if_neg h32, if_pos (by omega)]

theorem skip_options_prefix (d : List Byte) (b : Nat) :
    ∀ (a pos p : Nat), skip_options d (a + b) pos = some p →
      ∃ p', skip_options d a pos = some p' := by
  intro a
  induction a with
  | zero => intro pos p _; exact ⟨pos, rfl⟩
  | succ a ih =>
    intro pos p h
    rw [show a + 1 + b = (a + b) + 1 from by omega, skip_options] at h
    rw [skip_options]
    rcases hty : load8 d pos with _ | ty
    · simp [hty] at h
    · rcases hun : load8 d (pos + 1) with _ | u
      · simp [hty, hun] at h
      · simp only [hty, hun] at h ⊢
        by_cases hc : ty.val ≠ 2 ∧ 1 ≤ u.val ∧ u.val ≤ 32 ∧ pos + u.val * 8 ≤ d.length
        · rw [if_pos hc] at h ⊢
          exact ih _ _ h
        · rw [if_neg hc] at h
          cases h

/-- C11: for every ICMPv6 Neighbor Advertisement (EtherType IPv6, possibly
behind one VLAN tag, header at `off`) in which the scanner, after `j` (fewer
than 6) well-formed options of types other than 2, meets an option whose
length unit is 0, or exceeds 32, or whose declared length (unit * 8) extends
past the end of the buffer, `handle_neighbor_reply_tc` emits no event: the
kernel state is unchanged, whatever the type of that option and whatever
octets follow it. -/
theorem handle_na_malformed_option (w : World) (skb : sk_buff) (off : Nat)
    (ip : Bytes 16) (j pos : Nat) (u : Byte)
    (hframe : eth_payload skb.data ETH_P_IPV6 off)
    (hnext : load8 skb.data (off + 6) = some 58)
    (htype : load8 skb.data (off + 40) = some 136)
    (hip : load skb.data (off + 48) 16 = some ip)
    (hj : j < NA_MAX_OPTS)
    (hskip : skip_options skb.data j (off + 64) = some pos)
    (hunit : load8 skb.data (pos + 1) = some u)
    (hbad : u.val = 0 ∨ 32 < u.val ∨ skb.data.length < pos + u.val * 8) :
    handle_neighbor_reply_tc w skb = some ⟨w, skb, TC_ACT_OK⟩ := by
  have hr := handle_neighbor_reply_tc_closed w skb ETH_P_IPV6 off hframe
  rw [if_neg (by decide), if_pos rfl, handle_na_closed w skb off ip hnext htype hip] at hr
  have hn : NA_MAX_OPTS = j + (NA_MAX_OPTS - j) := by omega
  rw [hn, na_options_skip skb ip w (NA_MAX_OPTS - j) j (off + 64) pos hskip,
    na_options_bad skb ip w (NA_MAX_OPTS - j) pos u hunit hbad] at hr
  exact hr

/-- Concrete instances: an advertisement whose first option has length unit
0 and is followed by the octets of a valid Target Link-Layer Address option,
and one whose second option (of type 2) runs past the end of the buffer. -/
theorem handle_na_malformed_option_witness :
    (eth_payload ex_na_zero_unit.data ETH_P_IPV6 14 ∧
      load8 ex_na_zero_unit.data (14 + 6) = some 58 ∧
      load8 ex_na_zero_unit.data (14 + 40) = some 136 ∧
      load ex_na_zero_unit.data (14 + 48) 16 = some ex_fe80_1 ∧
      skip_options ex_na_zero_unit.data 0 (14 + 64) = some 78 ∧
      load8 ex_na_zero_unit.data (78 + 1) = some 0 ∧
      load8 ex_na_zero_unit.data (78 + 8) = some 2 ∧
      handle_neighbor_reply_tc ex_world ex_na_zero_unit =
        some ⟨ex_world, ex_na_zero_unit, TC_ACT_OK⟩) ∧
    (skip_options ex_na_overlong.data 1 (14 + 64) = some 86 ∧
      load8 ex_na_overlong.data 86 = some 2 ∧
      load8 ex_na_overlong.data (86 + 1) = some 3 ∧
      ex_na_overlong.data.length < 86 + (3 : Byte).val * 8 ∧
      handle_neighbor_reply_tc ex_world ex_na_overlong =
        some ⟨ex_world, ex_na_overlong, TC_ACT_OK⟩) :=
  ⟨⟨Or.inl (by decide), by decide, by decide, by decide, by decide, by decide,
      by decide,
      handle_na_malformed_option ex_world ex_na_zero_unit 14 ex_fe80_1 0 78 0
        (Or.inl (by decide)) (by decide) (by decide) (by decide) (by decide)
        (by decide) (by decide) (Or.inl (by decide))⟩,
    ⟨by decide, by decide, by decide, by decide,
      handle_na_malformed_option ex_world ex_na_overlong 14 ex_fe80_1 1 86 3
        (Or.inl (by decide)) (by decide) (by decide) (by decide) (by decide)
        (by decide) (by decide) (Or.inr (Or.inr (by decide)))⟩⟩

/-! ## One VLAN tag -/

theorem insert_vlan_tag_length (d : List Byte) (t0 t1 c0 c1 : Byte)
    (h : 12 ≤ d.length) : (insert_vlan_tag d t0 t1 c0 c1).length = d.length + 4 := by
  simp only [insert_vlan_tag, List.length_append, List.length_take, List.length_drop,
    List.length_cons, List.length_nil]
  omega

theorem insert_vlan_tag_drop (d : List Byte) (t0 t1 c0 c1 : Byte)
    (h : 12 ≤ d.length) (x : Nat) (hx : 12 ≤ x) :
    (insert_vlan_tag d t0 t1 c0 c1).drop (x + 4) = d.drop x := by
  have h16 : (d.take 12 ++ [t0, t1, c0, c1]).length = 16 := by
    simp only [List.length_append, List.length_take, List.length_cons, List.length_nil]
    omega
  unfold insert_vlan_tag
  rw [show x + 4 = (d.take 12 ++ [t0, t1, c0, c1]).length + (x - 12) from by omega,
    List.drop_append, List.drop_drop]
  congr 1
  omega

theorem load8_shift (d d' : List Byte)
    (hdrop : ∀ x, 12 ≤ x → d'.drop (x + 4) = d.drop x) (x : Nat) (hx : 12 ≤ x) :
    load8 d' (x + 4) = load8 d x := by
  unfold load8
  have h1 : d'[x + 4]? = (d'.drop (x + 4))[0]? := by simp
  have h2 : d[x]? = (d.drop x)[0]? := by simp
  rw [h1, h2, hdrop x hx]

theorem load_shift (d d' : List Byte) (hlen : d'.length = d.length + 4)
    (hdrop : ∀ x, 12 ≤ x → d'.drop (x + 4) = d.drop x) (x n : Nat) (hx : 12 ≤ x) :
    load d' (x + 4) n = load d x n := by
  unfold load
  by_cases h : x + n ≤ d.length
  · rw [dif_pos h, dif_pos (by omega)]
    simp only [hdrop x hx]
  · rw [dif_neg h, dif_neg (by omega)]

theorem load16be_shift (d d' : List Byte)
    (hdrop : ∀ x, 12 ≤ x → d'.drop (x + 4) = d.drop x) (x : Nat) (hx : 12 ≤ x) :
    load16be d' (x + 4) = load16be d x := by
  unfold load16be
  rw [load8_shift d d' hdrop x hx, show x + 4 + 1 = (x + 1) + 4 from by omega,
    load8_shift d d' hdrop (x + 1) (by omega)]

/-- The ARP branch reads the packet only from `off` on: moving the payload 4
octets up does not change its effect. -/
theorem handle_arp_shift (w : World) (skb : sk_buff) (d' : List Byte)
    (hlen : d'.length = skb.data.length + 4)
    (hdrop : ∀ x, 12 ≤ x → d'.drop (x + 4) = skb.data.drop x)
    (off : Nat) (hoff : 12 ≤ off) :
    handle_arp w { skb with data := d' } (off + 4) = handle_arp w skb off := by
  have e4 := load8_shift skb.data d' hdrop (off + 4) (by omega)
  have e5 := load8_shift skb.data d' hdrop (off + 5) (by omega)
  have e6 := load16be_shift skb.data d' hdrop (off + 6) (by omega)
  have e8 := load_shift skb.data d' hlen hdrop (off + 8) 6 (by omega)
  have e14 := load_shift skb.data d' hlen hdrop (off + 14) 4 (by omega)
  have e18 := load_shift skb.data d' hlen hdrop (off + 18) 6 (by omega)
  have e24 := load_shift skb.data d' hlen hdrop (off + 24) 4 (by omega)
  have hc : (off + 4 + 28 > skb.data.length + 4) = (off + 28 > skb.data.length) :=
    propext (by omega)
  unfold handle_arp
  simp only [hlen, hc,
    show off + 4 + 4 = (off + 4) + 4 from rfl,
    show off + 4 + 5 = (off + 5) + 4 from by omega,
    show off + 4 + 6 = (off + 6) + 4 from by omega,
    show off + 4 + 8 = (off + 8) + 4 from by omega,
    show off + 4 + 14 = (off + 14) + 4 from by omega,
    show off + 4 + 18 = (off + 18) + 4 from by omega,
    show off + 4 + 24 = (off + 24) + 4 from by omega,
    e4, e5, e6, e8, e14, e18, e24]

/-- The option loop reads the packet only from `pos` on. -/
theorem na_options_shift (skb : sk_buff) (d' : List Byte) (ip : Bytes 16)
    (hlen : d'.length = skb.data.length + 4)
    (hdrop : ∀ x, 12 ≤ x → d'.drop (x + 4) = skb.data.drop x) (n : Nat) :
    ∀ (w : World) (pos : Nat) (emitted : Bool), 12 ≤ pos →
      na_options { skb with data := d' } ip n w (pos + 4) emitted =
        na_options skb ip n w pos emitted := by
  induction n with
  | zero => intro w pos emitted _; rfl
  | succ n ih =>
    intro w pos emitted hpos
    have e0 := load8_shift skb.data d' hdrop pos hpos
    have e1 := load8_shift skb.data d' hdrop (pos + 1) (by omega)
    have e2 := load_shift skb.data d' hlen hdrop (pos + 2) 6 (by omega)
    have hc2 : (pos + 4 + 2 > skb.data.length + 4) = (pos + 2 > skb.data.length) :=
      propext (by omega)
    have hc8 : (pos + 4 + 8 ≤ skb.data.length + 4) = (pos + 8 ≤ skb.data.length) :=
      propext (by omega)
    have hcu : ∀ u : Nat, (pos + 4 + u > skb.data.length + 4) =
        (pos + u > skb.data.length) := fun u => propext (by omega)
    have hrec : ∀ u : Nat, na_options { skb with data := d' } ip n w (pos + 4 + u) emitted =
        na_options skb ip n w (pos + u) emitted := by
      intro u
      rw [show pos + 4 + u = (pos + u) + 4 from by omega]
      exact ih w (pos + u) emitted (by omega)
    rw [na_options, na_options]
    simp only [hlen, hc2, hc8, hcu, hrec,
      show pos + 4 + 1 = (pos + 1) + 4 from by omega,
      show pos + 4 + 2 = (pos + 2) + 4 from by omega,
      e0, e1, e2]

/-- The IPv6 branch reads the packet only from `off` on. -/
theorem handle_na_shift (w : World) (skb : sk_buff) (d' : List Byte)
    (hlen : d'.length = skb.data.length + 4)
    (hdrop : ∀ x, 12 ≤ x → d'.drop (x + 4) = skb.data.drop x)
    (off : Nat) (hoff : 12 ≤ off) :
    handle_na w { skb with data := d' } (off + 4) = handle_na w skb off := by
  have e6 := load8_shift skb.data d' hdrop (off + 6) (by omega)
  have e40 := load8_shift skb.data d' hdrop (off + 40) (by omega)
  have e48 := load_shift skb.data d' hlen hdrop (off + 40 + 8) 16 (by omega)
  have hc40 : (off + 4 + 40 > skb.data.length + 4) = (off + 40 > skb.data.length) :=
    propext (by omega)
  have hc48 : (off + 4 + 40 + 8 > skb.data.length + 4) =
      (off + 40 + 8 > skb.data.length) := propext (by omega)
  have hc64 : (off + 4 + 40 + 8 + 16 > skb.data.length + 4) =
      (off + 40 + 8 + 16 > skb.data.length) := propext (by omega)
  have hrec : ∀ (ip : Bytes 16),
      na_options { skb with data := d' } ip NA_MAX_OPTS w (off + 4 + 40 + 8 + 16) false =
        na_options skb ip NA_MAX_OPTS w (off + 40 + 8 + 16) false := by
    intro ip
    rw [show off + 4 + 40 + 8 + 16 = (off + 40 + 8 + 16) + 4 from by omega]
    exact na_options_shift skb d' ip hlen hdrop NA_MAX_OPTS w _ false (by omega)
  unfold handle_na
  simp only [hlen, hc40, hc48, hc64, hrec,
    show off + 4 + 6 = (off + 6) + 4 from by omega,
    show off + 4 + 40 = (off + 40) + 4 from by omega,
    show off + 40 + 4 + 8 = (off + 40 + 8) + 4 from by omega,
    e6, e40, e48]

theorem insert_vlan_tag_tpid (d : List Byte) (t0 t1 c0 c1 : Byte)
    (h : 12 ≤ d.length) :
    load16be (insert_vlan_tag d t0 t1 c0 c1) 12 = some (t0.val * 256 + t1.val) := by
  have hd : (insert_vlan_tag d t0 t1 c0 c1).drop 12 = [t0, t1, c0, c1] ++ d.drop 12 := by
    unfold insert_vlan_tag
    rw [List.append_assoc, List.drop_append_of_le_length (by simp; omega),
      List.drop_of_length_le (by simp)]
    simp
  have h0 : load8 (insert_vlan_tag d t0 t1 c0 c1) 12 = some t0 := by
    unfold load8
    have : (insert_vlan_tag d t0 t1 c0 c1)[12]? =
        ((insert_vlan_tag d t0 t1 c0 c1).drop 12)[0]? := by simp
    rw [this, hd]; rfl
  have h1 : load8 (insert_vlan_tag d t0 t1 c0 c1) (12 + 1) = some t1 := by
    unfold load8
    have : (insert_vlan_tag d t0 t1 c0 c1)[12 + 1]? =
        ((insert_vlan_tag d t0 t1 c0 c1).drop 12)[1]? := by simp
    rw [this, hd]; rfl
  simp [load16be, h0, h1]

theorem exit_map_bind (o : Option World) (skb : sk_buff) (c : Int) :
    (o.bind (fun w' => some (Exit.mk w' skb c))).map (fun r => (r.world, r.ret)) =
      o.map (fun w' => (w', c)) := by
  cases o <;> rfl

/-- C12: the extractor unwraps exactly one VLAN tag.  For every untagged frame
(at least the two MAC addresses, EtherType not a VLAN one) and every frame
obtained from it by inserting one 4-octet 802.1Q (0x8100) or 802.1AD (0x88A8)
tag after the two MAC addresses, `handle_neighbor_reply_tc` leaves the same
kernel state (the same emission or none) and returns the same code for both;
and for every frame carrying two stacked VLAN tags it emits no event, the
protocol after one unwrap being again a VLAN EtherType. -/
theorem vlan_single_unwrap (w : World) :
    (∀ (skb : sk_buff) (t0 t1 c0 c1 : Byte),
      12 ≤ skb.data.length →
      load16be skb.data 12 ≠ some ETH_P_8021Q →
      load16be skb.data 12 ≠ some ETH_P_8021AD →
      ((t0 = 0x81 ∧ t1 = 0x00) ∨ (t0 = 0x88 ∧ t1 = 0xA8)) →
      (handle_neighbor_reply_tc w
          { skb with data := insert_vlan_tag skb.data t0 t1 c0 c1 }).map
          (fun r => (r.world, r.ret)) =
        (handle_neighbor_reply_tc w skb).map (fun r => (r.world, r.ret))) ∧
    (∀ (skb : sk_buff),
      (load16be skb.data 12 = some ETH_P_8021Q ∨
        load16be skb.data 12 = some ETH_P_8021AD) →
      (load16be skb.data 16 = some ETH_P_8021Q ∨
        load16be skb.data 16 = some ETH_P_8021AD) →
      handle_neighbor_reply_tc w skb = some ⟨w, skb, TC_ACT_OK⟩) := by
  constructor
  · intro skb t0 t1 c0 c1 h12 hq had htag
    have hlen := insert_vlan_tag_length skb.data t0 t1 c0 c1 h12
    have hdrop := insert_vlan_tag_drop skb.data t0 t1 c0 c1 h12
    have htp := insert_vlan_tag_tpid skb.data t0 t1 c0 c1 h12
    have hvl : load16be (insert_vlan_tag skb.data t0 t1 c0 c1) 12 = some ETH_P_8021Q ∨
        load16be (insert_vlan_tag skb.data t0 t1 c0 c1) 12 = some ETH_P_8021AD := by
      rcases htag with ⟨h0, h1⟩ | ⟨h0, h1⟩
      · left; rw [htp, h0, h1]; rfl
      · right; rw [htp, h0, h1]; rfl
    by_cases h14 : 14 ≤ skb.data.length
    · obtain ⟨p, hp⟩ := load16be_some skb.data 12 (by omega)
      have hpq : p ≠ ETH_P_8021Q := fun h => hq (by rw [hp, h])
      have hpad : p ≠ ETH_P_8021AD := fun h => had (by rw [hp, h])
      have hp' : load16be (insert_vlan_tag skb.data t0 t1 c0 c1) 16 = some p := by
        have := load16be_shift skb.data _ hdrop 12 (by omega)
        rw [← hp, ← this]
      have hf : eth_payload skb.data p 14 := Or.inl ⟨hp, hpq, hpad, rfl⟩
      have hf' : eth_payload
          ({ skb with data := insert_vlan_tag skb.data t0 t1 c0 c1 } : sk_buff).data p 18 :=
        Or.inr ⟨hvl, hp', rfl⟩
      have ha := handle_arp_shift w skb _ hlen hdrop 14 (by omega)
      have hn := handle_na_shift w skb _ hlen hdrop 14 (by omega)
      rw [handle_neighbor_reply_tc_closed w skb p 14 hf,
        handle_neighbor_reply_tc_closed w _ p 18 hf']
      by_cases harp : p = ETH_P_ARP
      · rw [if_pos harp, if_pos harp, exit_map_bind, exit_map_bind, ← ha]
      · rw [if_neg harp, if_neg harp]
        by_cases h6 : p = ETH_P_IPV6
        · rw [if_pos h6, if_pos h6, exit_map_bind, exit_map_bind, ← hn]
        · rw [if_neg h6, if_neg h6]; rfl
    · have hshort : handle_neighbor_reply_tc w skb = some ⟨w, skb, TC_ACT_OK⟩ := by
        unfold handle_neighbor_reply_tc parse_eth_tc
        rw [if_pos (by simp only [ETH_HLEN]; omega)]
        simp only [Option.bind_eq_bind, Option.some_bind, Option.pure_def]
        rw [if_pos (by decide)]
      have hshort' : handle_neighbor_reply_tc w
          { skb with data := insert_vlan_tag skb.data t0 t1 c0 c1 } =
          some ⟨w, { skb with data := insert_vlan_tag skb.data t0 t1 c0 c1 }, TC_ACT_OK⟩ := by
        unfold handle_neighbor_reply_tc parse_eth_tc
        rw [if_neg (by simp only [ETH_HLEN, hlen]; omega)]
        rcases hvl with hv | hv
        · simp only [hv, Option.bind_eq_bind, Option.some_bind, Option.pure_def, true_or,
            if_true]
          rw [if_pos (by simp only [ETH_HLEN, hlen]; omega)]
          simp only [Option.some_bind]
          rw [if_pos (by decide)]
        · simp only [hv, Option.bind_eq_bind, Option.some_bind, Option.pure_def, or_true,
            if_true]
          rw [if_pos (by simp only [ETH_HLEN, hlen]; omega)]
          simp only [Option.some_bind]
          rw [if_pos (by decide)]
      rw [hshort, hshort']; rfl
  · intro skb h12 h16
    rcases h16 with h16 | h16
    · have hr := handle_neighbor_reply_tc_closed w skb ETH_P_8021Q 18
        (Or.inr ⟨h12, h16, rfl⟩)
      rw [if_neg (by decide), if_neg (by decide)] at hr
      exact hr
    · have hr := handle_neighbor_reply_tc_closed w skb ETH_P_8021AD 18
        (Or.inr ⟨h12, h16, rfl⟩)
      rw [if_neg (by decide), if_neg (by decide)] at hr
      exact hr

/-- Concrete instances: the gratuitous ARP reply for 10.0.0.5 behind one
802.1Q tag emits the same binding as the untagged frame; behind two stacked
tags it emits nothing. -/
theorem vlan_single_unwrap_witness :
    (12 ≤ ex_arp_gratuitous.data.length ∧
      load16be ex_arp_gratuitous.data 12 ≠ some ETH_P_8021Q ∧
      load16be ex_arp_gratuitous.data 12 ≠ some ETH_P_8021AD ∧
      (handle_neighbor_reply_tc ex_world
          { ex_arp_gratuitous with
            data := insert_vlan_tag ex_arp_gratuitous.data 0x81 0x00 0x00 0x64 }).map
          (fun r => (r.world, r.ret)) =
        (handle_neighbor_reply_tc ex_world ex_arp_gratuitous).map
          (fun r => (r.world, r.ret)) ∧
      (handle_neighbor_reply_tc ex_world
          { ex_arp_gratuitous with
            data := insert_vlan_tag ex_arp_gratuitous.data 0x81 0x00 0x00 0x64 }).map
          (fun r => r.world.neighbor_ringbuf.records) =
        some [{ ifindex := 3, family := 4,
                mac := ⟨[0xaa, 0xbb, 0xcc, 0xdd, 0xee, 0xff], rfl⟩,
                ip := ⟨[10, 0, 0, 5, 0, 0, 0, 0, 0, 0, 0, 0, 0, 0, 0, 0], rfl⟩ }]) ∧
    (load16be ex_arp_double_tagged.data 12 = some ETH_P_8021AD ∧
      load16be ex_arp_double_tagged.data 16 = some ETH_P_8021Q ∧
      load16be ex_arp_double_tagged.data 20 = some ETH_P_ARP ∧
      handle_neighbor_reply_tc ex_world ex_arp_double_tagged =
        some ⟨ex_world, ex_arp_double_tagged, TC_ACT_OK⟩) :=
  ⟨⟨by decide, by decide, by decide,
      (vlan_single_unwrap ex_world).1 ex_arp_gratuitous 0x81 0x00 0x00 0x64
        (by decide) (by decide) (by decide) (Or.inl ⟨rfl, rfl⟩),
      by decide⟩,
    ⟨by decide, by decide, by decide,
      (vlan_single_unwrap ex_world).2 ex_arp_double_tagged
        (Or.inr (by decide)) (Or.inl (by decide))⟩⟩

/-! ## Short and invalid packets -/

theorem handle_short (w : World) (skb : sk_buff) (h : skb.data.length < 14) :
    handle_neighbor_reply_tc w skb = some ⟨w, skb, TC_ACT_OK⟩ := by
  unfold handle_neighbor_reply_tc parse_eth_tc
  rw [if_pos (by simp only [ETH_HLEN]; omega)]
  simp only [Option.bind_eq_bind, Option.some_bind, Option.pure_def]
  rw [if_pos (by decide)]

theorem handle_vlan_short (w : World) (skb : sk_buff)
    (hv : load16be skb.data 12 = some ETH_P_8021Q ∨
      load16be skb.data 12 = some ETH_P_8021AD)
    (h : skb.data.length < 18) :
    handle_neighbor_reply_tc w skb = some ⟨w, skb, TC_ACT_OK⟩ := by
  have h14 : 14 ≤ skb.data.length := by
    rcases hv with hv | hv <;> exact load16be_length hv
  unfold handle_neighbor_reply_tc parse_eth_tc
  rw [if_neg (by simp only [ETH_HLEN]; omega)]
  rcases hv with hv | hv
  · simp only [hv, Option.bind_eq_bind, Option.some_bind, Option.pure_def, true_or,
      if_true]
    rw [if_pos (by simp only [ETH_HLEN]; omega)]
    simp only [Option.some_bind]
    rw [if_pos (by decide)]
  · simp only [hv, Option.bind_eq_bind, Option.some_bind, Option.pure_def, or_true,
      if_true]
    rw [if_pos (by simp only [ETH_HLEN]; omega)]
    simp only [Option.some_bind]
    rw [if_pos (by decide)]

theorem handle_na_short (w : World) (skb : sk_buff) (off : Nat)
    (h : skb.data.length < off + 40 + 8 + 16) : handle_na w skb off = some w := by
  unfold handle_na
  by_cases hl : off + 40 > skb.data.length
  · rw [if_pos hl]
  · rw [if_neg hl]
    obtain ⟨nh, hnh⟩ := load8_some skb.data (off + 6) (by omega)
    simp only [hnh, Option.bind_eq_bind, Option.some_bind, Option.pure_def]
    by_cases h58 : nh.val ≠ IPPROTO_ICMPV6
    · rw [if_pos h58]
    · rw [if_neg h58]
      by_cases hl2 : off + 40 + 8 > skb.data.length
      · rw [if_pos hl2]
      · rw [if_neg hl2]
        obtain ⟨ty, hty⟩ := load8_some skb.data (off + 40) (by omega)
        simp only [hty, Option.some_bind]
        by_cases h136 : ty.val ≠ 136
        · rw [if_pos h136]
        · rw [if_neg h136, if_pos (by omega)]

/-- C13: for every packet shorter than an Ethernet header (fewer than 14
octets) both programs leave the packet unchanged and return `TC_ACT_OK`,
`tc_redir` recording HeaderParseError without a FIB query and the extractor
emitting no event; and the extractor emits no event (the kernel state is
unchanged) whenever the buffer is too short for a header it must read (the
4-octet VLAN header of a tagged frame, the 28-octet ARP payload, the IPv6
header + ICMPv6 header + 16-octet target address), or when a complete ARP
packet has hardware length other than 6, protocol length other than 4, or an
operation other than 1 and 2. -/
theorem short_or_invalid_no_event (k : Kernel) (w : World) (skb : sk_buff) :
    (skb.data.length < 14 →
      (∃ r, tc_redir k w skb = some r ∧ r.ret = TC_ACT_OK ∧ r.skb = skb ∧
        r.world.ebpf_ret_stats_map =
          w.ebpf_ret_stats_map.record EBPF_ERPARSHDR skb.data.length ∧
        r.world.fib_queries = w.fib_queries ∧ r.world.redirect = w.redirect) ∧
      handle_neighbor_reply_tc w skb = some ⟨w, skb, TC_ACT_OK⟩) ∧
    ((load16be skb.data 12 = some ETH_P_8021Q ∨
        load16be skb.data 12 = some ETH_P_8021AD) →
      skb.data.length < 14 + 4 →
      handle_neighbor_reply_tc w skb = some ⟨w, skb, TC_ACT_OK⟩) ∧
    (∀ off, eth_payload skb.data ETH_P_ARP off →
      skb.data.length < off + 28 →
      handle_neighbor_reply_tc w skb = some ⟨w, skb, TC_ACT_OK⟩) ∧
    (∀ off, eth_payload skb.data ETH_P_IPV6 off →
      skb.data.length < off + 40 + 8 + 16 →
      handle_neighbor_reply_tc w skb = some ⟨w, skb, TC_ACT_OK⟩) ∧
    (∀ (off oper : Nat) (hl pl : Byte), eth_payload skb.data ETH_P_ARP off →
      off + 28 ≤ skb.data.length →
      load8 skb.data (off + 4) = some hl →
      load8 skb.data (off + 5) = some pl →
      load16be skb.data (off + 6) = some oper →
      (hl ≠ 6 ∨ pl ≠ 4 ∨ (oper ≠ 1 ∧ oper ≠ 2)) →
      handle_neighbor_reply_tc w skb = some ⟨w, skb, TC_ACT_OK⟩) := by
  refine ⟨fun h => ⟨?_, handle_short w skb h⟩, fun hv h => handle_vlan_short w skb hv h,
    ?_, ?_, ?_⟩
  · have hq : fib_query w skb = none := by
      rcases fib_query_spec w skb with ⟨-, hq⟩ | ⟨hc, -⟩
      · exact hq
      · simp only [ETH_HLEN] at hc
        rcases hc with ⟨-, hl⟩ | ⟨-, hl⟩ <;> omega
    refine ⟨_, tc_redir_no_query k w skb hq, rfl, rfl, ?_, ?_, ?_⟩ <;>
    rw [ebpf_record_ret_stats_eq _ _ _ _ (by decide : EBPF_ERPARSHDR < EBPF_RES_MAX)]
  · intro off hf hlen
    have hr := handle_neighbor_reply_tc_closed w skb ETH_P_ARP off hf
    rw [if_pos rfl] at hr
    have ha : handle_arp w skb off = some w := by
      unfold handle_arp
      rw [if_pos (by omega)]
    rw [ha] at hr
    exact hr
  · intro off hf hlen
    have hr := handle_neighbor_reply_tc_closed w skb ETH_P_IPV6 off hf
    rw [if_neg (by decide), if_pos rfl, handle_na_short w skb off hlen] at hr
    exact hr
  · intro off oper hl pl hf hlen hhl hpl hoper hbad
    obtain ⟨sha, hsha, -⟩ := load_some skb.data (off + 8) 6 (by omega)
    obtain ⟨spa, hspa, -⟩ := load_some skb.data (off + 14) 4 (by omega)
    obtain ⟨tha, htha, -⟩ := load_some skb.data (off + 18) 6 (by omega)
    obtain ⟨tpa, htpa, -⟩ := load_some skb.data (off + 24) 4 (by omega)
    have hr := handle_neighbor_reply_tc_closed w skb ETH_P_ARP off hf
    rw [if_pos rfl, handle_arp_closed w skb off oper hl pl sha tha spa tpa hhl hpl hoper
      hsha hspa htha htpa] at hr
    have hw : (if hl ≠ 6 ∨ pl ≠ 4 then w
        else if oper ≠ 1 ∧ oper ≠ 2 then w
        else if spa = tpa then
          emit_event w skb.ifindex 4 (if oper = 1 then sha else tha)
            ((Bytes.zero 16).poke spa)
        else if oper = 2 then
          emit_event w skb.ifindex 4 sha ((Bytes.zero 16).poke spa)
        else w) = w := by
      by_cases h1 : hl ≠ 6 ∨ pl ≠ 4
      · rw [if_pos h1]
      · rw [if_neg h1]
        have h2 : oper ≠ 1 ∧ oper ≠ 2 := by
          rcases hbad with h | h | h
          · exact absurd (Or.inl h) h1
          · exact absurd (Or.inr h) h1
          · exact h
        rw [if_pos h2]
    rw [hw] at hr
    exact hr

/-- Concrete instances: a 10-octet runt, a frame cut inside its VLAN tag, an
ARP reply cut inside its payload, a Neighbor Advertisement cut inside its
target address, and a complete ARP packet with operation 3. -/
theorem short_or_invalid_no_event_witness :
    (ex_runt.data.length < 14 ∧
      (∃ r, tc_redir (ex_kernel 0 true) ex_world ex_runt = some r ∧
        r.ret = TC_ACT_OK ∧ r.skb = ex_runt ∧
        r.world.ebpf_ret_stats_map =
          ex_world.ebpf_ret_stats_map.record EBPF_ERPARSHDR ex_runt.data.length ∧
        r.world.fib_queries = ex_world.fib_queries ∧
        r.world.redirect = ex_world.redirect) ∧
      handle_neighbor_reply_tc ex_world ex_runt = some ⟨ex_world, ex_runt, TC_ACT_OK⟩) ∧
    (load16be ex_vlan_cut.data 12 = some ETH_P_8021Q ∧
      ex_vlan_cut.data.length < 14 + 4 ∧
      handle_neighbor_reply_tc ex_world ex_vlan_cut =
        some ⟨ex_world, ex_vlan_cut, TC_ACT_OK⟩) ∧
    (eth_payload ex_arp_cut.data ETH_P_ARP 14 ∧
      ex_arp_cut.data.length < 14 + 28 ∧
      handle_neighbor_reply_tc ex_world ex_arp_cut =
        some ⟨ex_world, ex_arp_cut, TC_ACT_OK⟩) ∧
    (eth_payload ex_na_cut.data ETH_P_IPV6 14 ∧
      ex_na_cut.data.length < 14 + 40 + 8 + 16 ∧
      handle_neighbor_reply_tc ex_world ex_na_cut =
        some ⟨ex_world, ex_na_cut, TC_ACT_OK⟩) ∧
    (eth_payload ex_arp_oper3.data ETH_P_ARP 14 ∧
      14 + 28 ≤ ex_arp_oper3.data.length ∧
      load8 ex_arp_oper3.data (14 + 4) = some 6 ∧
      load8 ex_arp_oper3.data (14 + 5) = some 4 ∧
      load16be ex_arp_oper3.data (14 + 6) = some 3 ∧
      handle_neighbor_reply_tc ex_world ex_arp_oper3 =
        some ⟨ex_world, ex_arp_oper3, TC_ACT_OK⟩) :=
  ⟨⟨by decide,
      (short_or_invalid_no_event (ex_kernel 0 true) ex_world ex_runt).1 (by decide)⟩,
    ⟨by decide, by decide,
      (short_or_invalid_no_event (ex_kernel 0 true) ex_world ex_vlan_cut).2.1
        (Or.inl (by decide)) (by decide)⟩,
    ⟨Or.inl (by decide), by decide,
      (short_or_invalid_no_event (ex_kernel 0 true) ex_world ex_arp_cut).2.2.1 14
        (Or.inl (by decide)) (by decide)⟩,
    ⟨Or.inl (by decide), by decide,
      (short_or_invalid_no_event (ex_kernel 0 true) ex_world ex_na_cut).2.2.2.1 14
        (Or.inl (by decide)) (by decide)⟩,
    ⟨Or.inl (by decide), by decide, by decide, by decide, by decide,
      (short_or_invalid_no_event (ex_kernel 0 true) ex_world ex_arp_oper3).2.2.2.2
        14 3 6 4 (Or.inl (by decide)) (by decide) (by decide) (by decide) (by decide)
        (Or.inr (Or.inr (by decide)))⟩⟩

/-! ## The query -/

theorem poke_zero_val_gen {n m : Nat} (src : Bytes m) (h : m ≤ n) :
    ((Bytes.zero n).poke src).val = src.val ++ List.replicate (n - m) 0 := by
  have hs := src.property
  simp only [Bytes.poke, Bytes.zero, List.drop_replicate]
  exact List.take_of_length_le (by simp; omega)

/-- The whole query of an IPv4 packet. -/
theorem fib_query_v4_eq (w : World) (skb : sk_buff) (q : bpf_fib_lookup)
    (hproto : skb.protocol = bpf_constant_htons ETH_P_IP)
    (hq : fib_query w skb = some q) :
    ∃ (tos : Bytes 1) (pr : Byte) (sa da : Bytes 4),
      tos.val = (skb.data.drop 15).take 1 ∧ skb.data[23]? = some pr ∧
      sa.val = (skb.data.drop 26).take 4 ∧ da.val = (skb.data.drop 30).take 4 ∧
      q = { bpf_fib_lookup.zero with
        family := AF_INET, flowinfo := (Bytes.zero 4).poke tos, l4_protocol := pr.val,
        sport := 0, dport := 0, tot_len := 0,
        ipv6_src := (Bytes.zero 16).poke sa, ipv6_dst := (Bytes.zero 16).poke da,
        ifindex := bpf_get_interface w skb.ingress_ifindex } := by
  unfold fib_query tc_redir_parse at hq
  rw [if_pos hproto] at hq
  rcases fill_fib_params_v4_spec skb bpf_fib_lookup.zero with
    ⟨-, he⟩ | ⟨-, tos, pr, sa, da, htos, hpr, hsa, hda, he⟩
  · rw [he] at hq; simp at hq
  · rw [he] at hq
    simp only [if_true, Option.some.injEq] at hq
    exact ⟨tos, pr, sa, da, htos, hpr, hsa, hda, hq.symm⟩

/-- The whole query of an IPv6 packet. -/
theorem fib_query_v6_eq (w : World) (skb : sk_buff) (q : bpf_fib_lookup)
    (hproto : skb.protocol = bpf_constant_htons ETH_P_IPV6)
    (hq : fib_query w skb = some q) :
    ∃ (pr : Byte) (sa da : Bytes 16),
      skb.data[20]? = some pr ∧
      sa.val = (skb.data.drop 22).take 16 ∧ da.val = (skb.data.drop 38).take 16 ∧
      q = { bpf_fib_lookup.zero with
        family := AF_INET6, flowinfo := Bytes.zero 4, l4_protocol := pr.val,
        sport := 0, dport := 0, tot_len := 0, ipv6_src := sa, ipv6_dst := da,
        ifindex := bpf_get_interface w skb.ingress_ifindex } := by
  have hne : bpf_constant_htons ETH_P_IPV6 ≠ bpf_constant_htons ETH_P_IP := by decide
  unfold fib_query tc_redir_parse at hq
  rw [if_neg (by rw [hproto]; exact hne), if_pos hproto] at hq
  rcases fill_fib_params_v6_spec skb bpf_fib_lookup.zero with
    ⟨-, he⟩ | ⟨-, pr, sa, da, hpr, hsa, hda, he⟩
  · rw [he] at hq; simp at hq
  · rw [he] at hq
    simp only [if_true, Option.some.injEq] at hq
    exact ⟨pr, sa, da, hpr, hsa, hda, hq.symm⟩

/-- C14 (amended): for every IPv4 or IPv6 packet that parses, the query built
by `fill_fib_params_v4` / `fill_fib_params_v6` has both port fields equal to
zero and the matching address family; for IPv4 its ToS octet (the first octet
of the ToS / flow-info field, the rest zero), its L4 protocol and its source
and destination addresses (4 octets each, the rest of the 16-octet fields
zero) are copied from the IPv4 header; for IPv6 its L4 protocol (next header)
and its 16-octet source and destination addresses are copied from the IPv6
header, and its flow info is zero whatever the header carries. -/
theorem fib_query_fields (w : World) (skb : sk_buff) (q : bpf_fib_lookup)
    (hq : fib_query w skb = some q) :
    q.sport = 0 ∧ q.dport = 0 ∧
    ((skb.protocol = bpf_constant_htons ETH_P_IP ∧
        q.family = AF_INET ∧
        q.flowinfo.val = (skb.data.drop 15).take 1 ++ List.replicate 3 0 ∧
        (skb.data[23]?).map Fin.val = some q.l4_protocol ∧
        q.ipv6_src.val = (skb.data.drop 26).take 4 ++ List.replicate 12 0 ∧
        q.ipv6_dst.val = (skb.data.drop 30).take 4 ++ List.replicate 12 0) ∨
     (skb.protocol = bpf_constant_htons ETH_P_IPV6 ∧
        q.family = AF_INET6 ∧
        q.flowinfo.val = List.replicate 4 0 ∧
        (skb.data[20]?).map Fin.val = some q.l4_protocol ∧
        q.ipv6_src.val = (skb.data.drop 22).take 16 ∧
        q.ipv6_dst.val = (skb.data.drop 38).take 16)) := by
  rcases fib_query_spec w skb with ⟨-, he⟩ | ⟨hc, -⟩
  · rw [he] at hq; cases hq
  · rcases hc with ⟨hp, -⟩ | ⟨hp, -⟩
    · obtain ⟨tos, pr, sa, da, htos, hpr, hsa, hda, rfl⟩ := fib_query_v4_eq w skb q hp hq
      refine ⟨rfl, rfl, Or.inl ⟨hp, rfl, ?_, ?_, ?_, ?_⟩⟩
      · show ((Bytes.zero 4).poke tos).val = _
        rw [poke_zero_val_gen tos (by omega), htos]
      · rw [hpr]; rfl
      · show ((Bytes.zero 16).poke sa).val = _
        rw [poke_zero_val_gen sa (by omega), hsa]
      · show ((Bytes.zero 16).poke da).val = _
        rw [poke_zero_val_gen da (by omega), hda]
    · obtain ⟨pr, sa, da, hpr, hsa, hda, rfl⟩ := fib_query_v6_eq w skb q hp hq
      refine ⟨rfl, rfl, Or.inr ⟨hp, rfl, rfl, ?_, hsa, hda⟩⟩
      rw [hpr]; rfl

/-- Concrete instances: the example IPv4 frame and the example IPv6 frame. -/
theorem fib_query_fields_witness :
    (fib_query ex_world ex_ipv4 = some ex_query4 ∧
      ex_query4.sport = 0 ∧ ex_query4.dport = 0 ∧
      ((ex_ipv4.protocol = bpf_constant_htons ETH_P_IP ∧
          ex_query4.family = AF_INET ∧
          ex_query4.flowinfo.val = (ex_ipv4.data.drop 15).take 1 ++ List.replicate 3 0 ∧
          (ex_ipv4.data[23]?).map Fin.val = some ex_query4.l4_protocol ∧
          ex_query4.ipv6_src.val =
            (ex_ipv4.data.drop 26).take 4 ++ List.replicate 12 0 ∧
          ex_query4.ipv6_dst.val =
            (ex_ipv4.data.drop 30).take 4 ++ List.replicate 12 0) ∨
       (ex_ipv4.protocol = bpf_constant_htons ETH_P_IPV6 ∧
          ex_query4.family = AF_INET6 ∧
          ex_query4.flowinfo.val = List.replicate 4 0 ∧
          (ex_ipv4.data[20]?).map Fin.val = some ex_query4.l4_protocol ∧
          ex_query4.ipv6_src.val = (ex_ipv4.data.drop 22).take 16 ∧
          ex_query4.ipv6_dst.val = (ex_ipv4.data.drop 38).take 16))) ∧
    (fib_query ex_world ex_ipv6 = some ex_query6 ∧
      ex_query6.sport = 0 ∧ ex_query6.dport = 0 ∧
      ((ex_ipv6.protocol = bpf_constant_htons ETH_P_IP ∧
          ex_query6.family = AF_INET ∧
          ex_query6.flowinfo.val = (ex_ipv6.data.drop 15).take 1 ++ List.replicate 3 0 ∧
          (ex_ipv6.data[23]?).map Fin.val = some ex_query6.l4_protocol ∧
          ex_query6.ipv6_src.val =
            (ex_ipv6.data.drop 26).take 4 ++ List.replicate 12 0 ∧
          ex_query6.ipv6_dst.val =
            (ex_ipv6.data.drop 30).take 4 ++ List.replicate 12 0) ∨
       (ex_ipv6.protocol = bpf_constant_htons ETH_P_IPV6 ∧
          ex_query6.family = AF_INET6 ∧
          ex_query6.flowinfo.val = List.replicate 4 0 ∧
          (ex_ipv6.data[20]?).map Fin.val = some ex_query6.l4_protocol ∧
          ex_query6.ipv6_src.val = (ex_ipv6.data.drop 22).take 16 ∧
          ex_query6.ipv6_dst.val = (ex_ipv6.data.drop 38).take 16))) :=
  ⟨⟨by decide, fib_query_fields ex_world ex_ipv4 ex_query4 (by decide)⟩,
    ⟨by decide, fib_query_fields ex_world ex_ipv6 ex_query6 (by decide)⟩⟩

/-- The flow info is not copied for IPv6: the example IPv6 frame carries flow
information 00:0a:bc:de in its header, the query built for it has flow info
00:00:00:00. -/
theorem fib_query_v6_flowinfo_not_copied :
    ex_ipv6.protocol = bpf_constant_htons ETH_P_IPV6 ∧
    fib_query ex_world ex_ipv6 = some ex_query6 ∧
    ip6_flowinfo ex_ipv6.data = some ⟨[0x00, 0x0a, 0xbc, 0xde], rfl⟩ ∧
    ex_query6.flowinfo.val = [0, 0, 0, 0] ∧
    some ex_query6.flowinfo ≠ ip6_flowinfo ex_ipv6.data := by
  decide

/-! ## The exits of the forwarding engine -/

/-- The five exits of `tc_redir` on a packet that parses, with everything
each of them leaves behind. -/
theorem tc_redir_exits (k : Kernel) (w : World) (skb : sk_buff) (q : bpf_fib_lookup)
    (hq : fib_query w skb = some q) :
    ∃ r, tc_redir k w skb = some r ∧
      r.world.lookup_port = w.lookup_port ∧
      r.world.neighbor_ringbuf = w.neighbor_ringbuf ∧
      r.world.fib_queries = w.fib_queries ++ [q] ∧
      r.world.ebpf_fib_lkup_stats_map =
        (if ((k.fib q).1 % 2 ^ 32).toNat ≥ BPF_FIB_LKUP_RET_MAX then
          w.ebpf_fib_lkup_stats_map
        else w.ebpf_fib_lkup_stats_map.record ((k.fib q).1 % 2 ^ 32).toNat
          skb.data.length) ∧
      r.skb.protocol = skb.protocol ∧
      r.skb.ingress_ifindex = skb.ingress_ifindex ∧
      r.skb.ifindex = skb.ifindex ∧
      (((k.fib q).1 = BPF_FIB_LKUP_RET_NOT_FWDED ∨ (k.fib q).1 < 0) ∧
          r.ret = TC_ACT_OK ∧ r.skb.data = skb.data ∧
          r.world.redirect = w.redirect ∧
          r.world.ebpf_ret_stats_map =
            w.ebpf_ret_stats_map.record EBPF_NOT_FWD skb.data.length ∨
       ¬ ((k.fib q).1 = BPF_FIB_LKUP_RET_NOT_FWDED ∨ (k.fib q).1 < 0) ∧
          k.make_writable = false ∧
          r.ret = TC_ACT_SHOT ∧ r.skb.data = skb.data ∧
          r.world.redirect = w.redirect ∧
          r.world.ebpf_ret_stats_map =
            w.ebpf_ret_stats_map.record EBPF_ERSTORMAC skb.data.length ∨
       ¬ ((k.fib q).1 = BPF_FIB_LKUP_RET_NOT_FWDED ∨ (k.fib q).1 < 0) ∧
          k.make_writable = true ∧ (k.fib q).1 = BPF_FIB_LKUP_RET_SUCCESS ∧
          r.ret = TC_ACT_REDIRECT ∧
          r.skb.data = (k.fib q).2.dmac.val ++ (k.fib q).2.smac.val ++ skb.data.drop 12 ∧
          r.world.redirect = some (Redirect.dev (k.fib q).2.ifindex) ∧
          r.world.ebpf_ret_stats_map =
            w.ebpf_ret_stats_map.record EBPF_ROUTE skb.data.length ∨
       ¬ ((k.fib q).1 = BPF_FIB_LKUP_RET_NOT_FWDED ∨ (k.fib q).1 < 0) ∧
          k.make_writable = true ∧ (k.fib q).1 = BPF_FIB_LKUP_RET_NO_NEIGH ∧
          r.ret = TC_ACT_REDIRECT ∧
          r.skb.data = List.replicate 12 0 ++ skb.data.drop 12 ∧
          r.world.redirect = some (Redirect.neigh (k.fib q).2.ifindex
            { nh_family := (k.fib q).2.family, ipv6_nh := (k.fib q).2.ipv6_dst }) ∧
          r.world.ebpf_ret_stats_map =
            w.ebpf_ret_stats_map.record EBPF_ROUTENN skb.data.length ∨
       ¬ ((k.fib q).1 = BPF_FIB_LKUP_RET_NOT_FWDED ∨ (k.fib q).1 < 0) ∧
          k.make_writable = true ∧ (k.fib q).1 ≠ BPF_FIB_LKUP_RET_SUCCESS ∧
          (k.fib q).1 ≠ BPF_FIB_LKUP_RET_NO_NEIGH ∧
          r.ret = TC_ACT_SHOT ∧
          r.skb.data = List.replicate 12 0 ++ skb.data.drop 12 ∧
          r.world.redirect = w.redirect ∧
          r.world.ebpf_ret_stats_map =
            w.ebpf_ret_stats_map.record EBPF_LAST_EXIT skb.data.length) := by
  have hr := tc_redir_closed k w skb q hq
  by_cases h1 : (k.fib q).1 = BPF_FIB_LKUP_RET_NOT_FWDED ∨ (k.fib q).1 < 0
  · simp only [if_pos h1] at hr
    exact ⟨_, hr, rfl, rfl, rfl, rfl, rfl, rfl, rfl, Or.inl ⟨h1, rfl, rfl, rfl, rfl⟩⟩
  · simp only [if_neg h1] at hr
    rcases hw : k.make_writable with _ | _
    · simp only [hw, if_true] at hr
      exact ⟨_, hr, rfl, rfl, rfl, rfl, rfl, rfl, rfl,
        Or.inr (Or.inl ⟨h1, rfl, rfl, rfl, rfl, rfl⟩)⟩
    · simp only [hw, Bool.true_eq_false, if_false] at hr
      by_cases hs : (k.fib q).1 = BPF_FIB_LKUP_RET_SUCCESS
      · simp only [if_pos hs] at hr
        exact ⟨_, hr, rfl, rfl, rfl, rfl, rfl, rfl, rfl,
          Or.inr (Or.inr (Or.inl ⟨h1, rfl, hs, rfl, rfl, rfl, rfl⟩))⟩
      · simp only [if_neg hs] at hr
        by_cases hn : (k.fib q).1 = BPF_FIB_LKUP_RET_NO_NEIGH
        · simp only [if_pos hn] at hr
          exact ⟨_, hr, rfl, rfl, rfl, rfl, rfl, rfl, rfl,
            Or.inr (Or.inr (Or.inr (Or.inl ⟨h1, rfl, hn, rfl, rfl, rfl, rfl⟩)))⟩
        · simp only [if_neg hn] at hr
          exact ⟨_, hr, rfl, rfl, rfl, rfl, rfl, rfl, rfl,
            Or.inr (Or.inr (Or.inr (Or.inr ⟨h1, rfl, hs, hn, rfl, rfl, rfl, rfl⟩)))⟩

/-- The exit of `tc_redir` on a packet that does not parse. -/
theorem tc_redir_rejected (k : Kernel) (w : World) (skb : sk_buff)
    (hq : fib_query w skb = none) :
    tc_redir k w skb = some
      ⟨{ w with ebpf_ret_stats_map :=
          w.ebpf_ret_stats_map.record EBPF_ERPARSHDR skb.data.length }, skb, TC_ACT_OK⟩ := by
  rw [tc_redir_no_query k w skb hq,
    ebpf_record_ret_stats_eq _ _ _ _ (by decide : EBPF_ERPARSHDR < EBPF_RES_MAX)]

theorem fib_query_ifindex (w : World) (skb : sk_buff) (q : bpf_fib_lookup)
    (hq : fib_query w skb = some q) :
    q.ifindex = bpf_get_interface w skb.ingress_ifindex := by
  unfold fib_query at hq
  rcases hp : tc_redir_parse skb bpf_fib_lookup.zero with _ | ⟨ret, fp⟩
  · rw [hp] at hq; cases hq
  · rw [hp] at hq
    simp only at hq
    by_cases h0 : ret = 0
    · rw [if_pos h0] at hq
      cases hq
      rfl
    · rw [if_neg h0] at hq
      cases hq

theorem lookup_none_of_absent (l : List (Nat × Nat)) (i : Nat)
    (h : ∀ v, (i, v) ∉ l) : l.lookup i = none := by
  induction l with
  | nil => rfl
  | cons hd tl ih =>
    obtain ⟨a, b⟩ := hd
    have hne : i ≠ a := by
      intro e
      exact h b (by rw [e]; exact List.mem_cons_self _ _)
    have hbeq : (i == a) = false := by simpa using hne
    rw [List.lookup, hbeq]
    exact ih (fun v hv => h v (List.mem_cons_of_mem _ hv))

/-- C15: for every ingress interface id and every state of the remap table,
the interface id placed in the query handed to the FIB is the table's value
for the ingress id when the table has that key, and the ingress id itself
when the key is absent; and `tc_redir` never writes the remap table: the
table after the run is the table before it, on every path. -/
theorem remap_identity_default (k : Kernel) (w : World) (skb : sk_buff) :
    ∃ r, tc_redir k w skb = some r ∧
      r.world.lookup_port = w.lookup_port ∧
      ∀ q, fib_query w skb = some q →
        r.world.fib_queries = w.fib_queries ++ [q] ∧
        (∀ v, w.lookup_port.lookup skb.ingress_ifindex = some v → q.ifindex = v) ∧
        (w.lookup_port.lookup skb.ingress_ifindex = none →
          q.ifindex = skb.ingress_ifindex) ∧
        ((∀ v, (skb.ingress_ifindex, v) ∉ w.lookup_port) →
          q.ifindex = skb.ingress_ifindex) := by
  rcases hq : fib_query w skb with _ | q
  · exact ⟨_, tc_redir_rejected k w skb hq, rfl, fun q h => by cases h⟩
  · obtain ⟨r, hr, hlp, -, hfq, -⟩ := tc_redir_exits k w skb q hq
    refine ⟨r, hr, hlp, ?_⟩
    intro q' hq'
    cases hq'
    have hi := fib_query_ifindex w skb q hq
    unfold bpf_get_interface at hi
    refine ⟨hfq, ?_, ?_, ?_⟩
    · intro v hv
      rw [hv] at hi
      exact hi
    · intro hv
      rw [hv] at hi
      exact hi
    · intro hv
      rw [lookup_none_of_absent _ _ hv] at hi
      exact hi

/-- Concrete instances: the example frame received on interface 3, which the
table maps to 9, and the same frame received on interface 4, which the table
does not list. -/
theorem remap_identity_default_witness :
    (∃ r, tc_redir (ex_kernel 0 true) ex_world ex_ipv4 = some r ∧
      r.world.lookup_port = ex_world.lookup_port ∧
      ∀ q, fib_query ex_world ex_ipv4 = some q →
        r.world.fib_queries = ex_world.fib_queries ++ [q] ∧
        (∀ v, ex_world.lookup_port.lookup ex_ipv4.ingress_ifindex = some v →
          q.ifindex = v) ∧
        (ex_world.lookup_port.lookup ex_ipv4.ingress_ifindex = none →
          q.ifindex = ex_ipv4.ingress_ifindex) ∧
        ((∀ v, (ex_ipv4.ingress_ifindex, v) ∉ ex_world.lookup_port) →
          q.ifindex = ex_ipv4.ingress_ifindex)) ∧
    ex_world.lookup_port.lookup ex_ipv4.ingress_ifindex = some 9 ∧
    (fib_query ex_world ex_ipv4).map (fun q => q.ifindex) = some 9 ∧
    ex_world.lookup_port.lookup ex_ipv4_if4.ingress_ifindex = none ∧
    (fib_query ex_world ex_ipv4_if4).map (fun q => q.ifindex) = some 4 :=
  ⟨remap_identity_default (ex_kernel 0 true) ex_world ex_ipv4,
    by decide, by decide, by decide, by decide⟩

/-! ## A second pass -/

theorem load8_tail (d d2 : List Byte) (hd : d2.drop 12 = d.drop 12) (x : Nat)
    (hx : 12 ≤ x) : load8 d2 x = load8 d x := by
  unfold load8
  have h1 : d2[x]? = (d2.drop 12)[x - 12]? := by
    rw [List.getElem?_drop]; congr 1; omega
  have h2 : d[x]? = (d.drop 12)[x - 12]? := by
    rw [List.getElem?_drop]; congr 1; omega
  rw [h1, h2, hd]

theorem load_tail (d d2 : List Byte) (hl : d2.length = d.length)
    (hd : d2.drop 12 = d.drop 12) (x n : Nat) (hx : 12 ≤ x) :
    load d2 x n = load d x n := by
  have hdx : d2.drop x = d.drop x := by
    have e1 : d2.drop x = (d2.drop 12).drop (x - 12) := by
      rw [List.drop_drop]; congr 1; omega
    have e2 : d.drop x = (d.drop 12).drop (x - 12) := by
      rw [List.drop_drop]; congr 1; omega
    rw [e1, e2, hd]
  unfold load
  by_cases h : x + n ≤ d.length
  · rw [dif_pos h, dif_pos (by omega)]
    simp only [hdx]
  · rw [dif_neg h, dif_neg (by omega)]

theorem sk_buff_ext (a b : sk_buff) (h1 : a.data = b.data)
    (h2 : a.protocol = b.protocol) (h3 : a.ingress_ifindex = b.ingress_ifindex)
    (h4 : a.ifindex = b.ifindex) : a = b := by
  cases a; cases b; simp_all

/-- The query does not depend on the first 12 octets of the packet: packets
with the same metadata, the same length and the same octets from offset 12 on
get the same query under the same remap table. -/
theorem fib_query_tail (w w2 : World) (skb skb2 : sk_buff)
    (hw : w2.lookup_port = w.lookup_port)
    (hp : skb2.protocol = skb.protocol)
    (hi : skb2.ingress_ifindex = skb.ingress_ifindex)
    (hl : skb2.data.length = skb.data.length)
    (hd : skb2.data.drop 12 = skb.data.drop 12) :
    fib_query w2 skb2 = fib_query w skb := by
  have a1 := load_tail skb.data skb2.data hl hd (ETH_HLEN + 1) 1 (by decide)
  have a9 := load8_tail skb.data skb2.data hd (ETH_HLEN + 9) (by decide)
  have a12 := load_tail skb.data skb2.data hl hd (ETH_HLEN + 12) 4 (by decide)
  have a16 := load_tail skb.data skb2.data hl hd (ETH_HLEN + 16) 4 (by decide)
  have b6 := load8_tail skb.data skb2.data hd (ETH_HLEN + 6) (by decide)
  have b8 := load_tail skb.data skb2.data hl hd (ETH_HLEN + 8) 16 (by decide)
  have b24 := load_tail skb.data skb2.data hl hd (ETH_HLEN + 24) 16 (by decide)
  unfold fib_query tc_redir_parse fill_fib_params_v4 fill_fib_params_v6 bpf_get_interface
  simp only [hw, hp, hi, hl, a1, a9, a12, a16, b6, b8, b24]

/-- C16 (amended): idempotence of the Success rewrite.  For every packet that
parses (query `q`), every FIB function that answers `q` with Success and is
the same in both runs, and the clearing store having the same outcome in the
second run as in the first, running `tc_redir` on the packet produced by a
first run, with the same metadata and the same remap table, submits the same
query `q`, returns the same code, and leaves the packet as the first run
produced it.  With the store succeeding in both runs, both return
`TC_ACT_REDIRECT` with the resolved interface as target and the packet
carries the resolved addresses; with the store failing in both runs, both
return `TC_ACT_SHOT` without a redirect and the packet is the one received.
The query is the same because it does not depend on the first 12 octets of
the packet. -/
theorem tc_redir_idempotent (k k2 : Kernel) (w w2 : World) (skb : sk_buff)
    (q fp : bpf_fib_lookup)
    (hq : fib_query w skb = some q)
    (hfib : k.fib q = (BPF_FIB_LKUP_RET_SUCCESS, fp))
    (hk2 : k2.fib = k.fib)
    (hstore : k2.make_writable = k.make_writable)
    (hw2 : w2.lookup_port = w.lookup_port) :
    ∃ r1 r2, tc_redir k w skb = some r1 ∧ tc_redir k2 w2 r1.skb = some r2 ∧
      fib_query w2 r1.skb = some q ∧
      r2.world.fib_queries = w2.fib_queries ++ [q] ∧
      r2.ret = r1.ret ∧
      r2.skb = r1.skb ∧
      (k.make_writable = true →
        r1.ret = TC_ACT_REDIRECT ∧
        r1.skb.data = fp.dmac.val ++ fp.smac.val ++ skb.data.drop 12 ∧
        r1.world.redirect = some (Redirect.dev fp.ifindex) ∧
        r2.world.redirect = some (Redirect.dev fp.ifindex)) ∧
      (k.make_writable = false →
        r1.ret = TC_ACT_SHOT ∧
        r1.skb = skb ∧
        r1.world.redirect = w.redirect ∧
        r2.world.redirect = w2.redirect) ∧
      (∀ skb2 : sk_buff, skb2.protocol = skb.protocol →
        skb2.ingress_ifindex = skb.ingress_ifindex →
        skb2.data.length = skb.data.length →
        skb2.data.drop 12 = skb.data.drop 12 →
        fib_query w2 skb2 = some q) := by
  have htail : ∀ skb2 : sk_buff, skb2.protocol = skb.protocol →
      skb2.ingress_ifindex = skb.ingress_ifindex →
      skb2.data.length = skb.data.length →
      skb2.data.drop 12 = skb.data.drop 12 →
      fib_query w2 skb2 = some q := by
    intro skb2 hp hi hl hd
    rw [fib_query_tail w w2 skb skb2 hw2 hp hi hl hd, hq]
  have hlen := fib_query_length w skb q hq
  simp only [ETH_HLEN] at hlen
  have h1 := fp.dmac.property
  have h2 := fp.smac.property
  have hs : (k.fib q).1 = BPF_FIB_LKUP_RET_SUCCESS := by rw [hfib]
  have hnf : ¬ ((k.fib q).1 = BPF_FIB_LKUP_RET_NOT_FWDED ∨ (k.fib q).1 < 0) := by
    rw [hs]; decide
  have hnn : (k.fib q).1 ≠ BPF_FIB_LKUP_RET_NO_NEIGH := by rw [hs]; decide
  have hfp : (k.fib q).2 = fp := by rw [hfib]
  obtain ⟨r1, hr1, -, -, -, -, hp1, hi1, hx1, hc1⟩ := tc_redir_exits k w skb q hq
  rw [hfp] at hc1
  rcases hc1 with ⟨h, -⟩ | ⟨-, hw, hret1, hd1, hrd1, -⟩ | ⟨-, hw, -, hret1, hd1, hrd1, -⟩ |
      ⟨-, -, h, -⟩ | ⟨-, -, h, -⟩
  · exact absurd h hnf
  · have hq2 : fib_query w2 r1.skb = some q := htail r1.skb hp1 hi1 (by rw [hd1]) (by rw [hd1])
    obtain ⟨r2, hr2, -, -, hfq2, -, hp2, hi2, hx2, hc2⟩ := tc_redir_exits k2 w2 r1.skb q hq2
    rw [hk2, hstore] at hc2
    rcases hc2 with ⟨h, -⟩ | ⟨-, -, hret2, hd2, hrd2, -⟩ | ⟨-, hw', -⟩ | ⟨-, hw', -⟩ |
        ⟨-, hw', -⟩
    · exact absurd h hnf
    · refine ⟨r1, r2, hr1, hr2, hq2, hfq2, ?_, sk_buff_ext _ _ hd2 hp2 hi2 hx2, ?_, ?_, htail⟩
      · rw [hret1, hret2]
      · intro h
        rw [hw] at h
        cases h
      · intro _
        exact ⟨hret1, sk_buff_ext _ _ hd1 hp1 hi1 hx1, hrd1, hrd2⟩
    · rw [hw] at hw'; cases hw'
    · rw [hw] at hw'; cases hw'
    · rw [hw] at hw'; cases hw'
  · have hd : r1.skb.data.drop 12 = skb.data.drop 12 := by
      rw [hd1, List.drop_append_of_le_length (by simp [h1, h2]),
        List.drop_of_length_le (by simp [h1, h2])]
      rfl
    have hl : r1.skb.data.length = skb.data.length := by
      rw [hd1]
      simp only [List.length_append, List.length_drop, h1, h2]; omega
    have hq2 : fib_query w2 r1.skb = some q := htail r1.skb hp1 hi1 hl hd
    obtain ⟨r2, hr2, -, -, hfq2, -, hp2, hi2, hx2, hc2⟩ := tc_redir_exits k2 w2 r1.skb q hq2
    rw [hk2, hstore, hfp] at hc2
    rcases hc2 with ⟨h, -⟩ | ⟨-, hw', -⟩ | ⟨-, -, -, hret2, hd2, hrd2, -⟩ | ⟨-, -, h, -⟩ |
        ⟨-, -, h, -⟩
    · exact absurd h hnf
    · rw [hw] at hw'; cases hw'
    · rw [hd, ← hd1] at hd2
      refine ⟨r1, r2, hr1, hr2, hq2, hfq2, ?_, sk_buff_ext _ _ hd2 hp2 hi2 hx2, ?_, ?_, htail⟩
      · rw [hret1, hret2]
      · intro _
        exact ⟨hret1, hd1, hrd1, hrd2⟩
      · intro h
        rw [hw] at h
        cases h
    · exact absurd h hnn
    · exact absurd hs h
  · exact absurd h hnn
  · exact absurd hs h

/-- Concrete instance: the example IPv4 frame run twice, the FIB answering
Success and the store succeeding in both runs, the second run starting from
what the first left behind. -/
theorem tc_redir_idempotent_witness :
    fib_query ex_world ex_ipv4 = some ex_query4 ∧
    (ex_kernel 0 true).fib ex_query4 = (BPF_FIB_LKUP_RET_SUCCESS, ex_reply) ∧
    (ex_kernel 0 true).fib = (ex_kernel 0 true).fib ∧
    (ex_kernel 0 true).make_writable = (ex_kernel 0 true).make_writable ∧
    (∃ r1 r2, tc_redir (ex_kernel 0 true) ex_world ex_ipv4 = some r1 ∧
      tc_redir (ex_kernel 0 true) ex_world r1.skb = some r2 ∧
      fib_query ex_world r1.skb = some ex_query4 ∧
      r2.world.fib_queries = ex_world.fib_queries ++ [ex_query4] ∧
      r2.ret = r1.ret ∧
      r2.skb = r1.skb ∧
      ((ex_kernel 0 true).make_writable = true →
        r1.ret = TC_ACT_REDIRECT ∧
        r1.skb.data = ex_reply.dmac.val ++ ex_reply.smac.val ++ ex_ipv4.data.drop 12 ∧
        r1.world.redirect = some (Redirect.dev ex_reply.ifindex) ∧
        r2.world.redirect = some (Redirect.dev ex_reply.ifindex)) ∧
      ((ex_kernel 0 true).make_writable = false →
        r1.ret = TC_ACT_SHOT ∧
        r1.skb = ex_ipv4 ∧
        r1.world.redirect = ex_world.redirect ∧
        r2.world.redirect = ex_world.redirect) ∧
      (∀ skb2 : sk_buff, skb2.protocol = ex_ipv4.protocol →
        skb2.ingress_ifindex = ex_ipv4.ingress_ifindex →
        skb2.data.length = ex_ipv4.data.length →
        skb2.data.drop 12 = ex_ipv4.data.drop 12 →
        fib_query ex_world skb2 = some ex_query4)) ∧
    (tc_redir (ex_kernel 0 true) ex_world ex_ipv4).bind
        (fun r1 => (tc_redir (ex_kernel 0 true) r1.world r1.skb).map
          (fun r2 => (r2.skb, r2.ret, r2.world.redirect))) =
      (tc_redir (ex_kernel 0 true) ex_world ex_ipv4).map
        (fun r1 => (r1.skb, r1.ret, r1.world.redirect)) :=
  ⟨by decide, rfl, rfl, rfl,
    tc_redir_idempotent (ex_kernel 0 true) (ex_kernel 0 true) ex_world ex_world ex_ipv4
      ex_query4 ex_reply (by decide) rfl rfl rfl rfl,
    by decide⟩

/-- Without the store behaving alike in both runs the second run does not
repeat the first, although the FIB function, the metadata and the remap
table are the same.  On the example IPv4 frame with the FIB answering
Success: when the store succeeds in the first run and fails in the second,
the first run redirects to interface 5 and the second, submitting the same
query, drops the packet without a redirect; when the store fails in the first
run and succeeds in the second, the first run drops the packet as received
and the second redirects it and rewrites its addresses, so the packet is not
left as the first run produced it. -/
theorem tc_redir_second_pass_store_differs :
    (ex_kernel 0 false).fib = (ex_kernel 0 true).fib ∧
    fib_query ex_world ex_ipv4 = some ex_query4 ∧
    (ex_kernel 0 true).fib ex_query4 = (BPF_FIB_LKUP_RET_SUCCESS, ex_reply) ∧
    (∃ r1 r2, tc_redir (ex_kernel 0 true) ex_world ex_ipv4 = some r1 ∧
      tc_redir (ex_kernel 0 false) ex_world r1.skb = some r2 ∧
      r1.skb.protocol = ex_ipv4.protocol ∧
      r1.skb.ingress_ifindex = ex_ipv4.ingress_ifindex ∧
      fib_query ex_world r1.skb = some ex_query4 ∧
      r1.ret = TC_ACT_REDIRECT ∧
      r1.world.redirect = some (Redirect.dev 5) ∧
      r2.ret = TC_ACT_SHOT ∧
      r2.ret ≠ r1.ret ∧
      r2.world.redirect = none ∧
      r2.world.ebpf_ret_stats_map =
        ex_world.ebpf_ret_stats_map.record EBPF_ERSTORMAC ex_ipv4.data.length) ∧
    (∃ r1 r2, tc_redir (ex_kernel 0 false) ex_world ex_ipv4 = some r1 ∧
      tc_redir (ex_kernel 0 true) ex_world r1.skb = some r2 ∧
      fib_query ex_world r1.skb = some ex_query4 ∧
      r1.ret = TC_ACT_SHOT ∧
      r1.world.redirect = none ∧
      r1.skb = ex_ipv4 ∧
      r2.ret = TC_ACT_REDIRECT ∧
      r2.ret ≠ r1.ret ∧
      r2.world.redirect = some (Redirect.dev 5) ∧
      r2.skb ≠ r1.skb) := by
  refine ⟨rfl, by decide, rfl, ⟨_, _, rfl, rfl, ?_⟩, ⟨_, _, rfl, rfl, ?_⟩⟩
  · decide
  · decide

/-! ## Counters -/

/-- Recording into slot `x` of a statistics map: that slot, and only that
slot, is counted up (64-bit counters). -/
theorem StatsMap.record_slots {n : Nat} (m : StatsMap n) (x len : Nat) (hx : x < n) :
    (∃ old, m.val[x]? = some old ∧
      (m.record x len).val[x]? =
        some ⟨(old.rx_packets + 1) % 2 ^ 64, (old.rx_bytes + len) % 2 ^ 64⟩) ∧
    (∀ j, j ≠ x → (m.record x len).val[j]? = m.val[j]?) := by
  constructor
  · have hlt : x < m.val.length := by rw [m.property]; exact hx
    refine ⟨m.val[x], List.getElem?_eq_getElem hlt, ?_⟩
    rw [StatsMap.record_get, if_pos rfl, List.getElem?_eq_getElem hlt]
    rfl
  · intro j hj
    rw [StatsMap.record_get, if_neg hj]

theorem u32_of_small (c : Nat) (h : c < 2 ^ 31) : (((c : Int)) % 2 ^ 32).toNat = c := by
  have : ((c : Int)) % 2 ^ 32 = (c : Int) := Int.emod_eq_of_lt (by omega) (by omega)
  rw [this]
  exact Int.toNat_natCast c

theorem u32_of_negative (r : Int) (h0 : r < 0) (h1 : -2 ^ 31 ≤ r) :
    2 ^ 31 ≤ (r % 2 ^ 32).toNat := by
  have h : r % 2 ^ 32 = r + 2 ^ 32 := by
    rw [← Int.add_mul_emod_self (a := r) (b := 1) (c := 2 ^ 32), Int.one_mul]
    exact Int.emod_eq_of_lt (by omega) (by omega)
  rw [h]
  omega

/-- C17: for every `tc_redir` invocation that reaches the FIB lookup (query
`q`) with a result code `r` (a C `int`): when 0 <= r < N (N =
`BPF_FIB_LKUP_RET_FRAG_NEEDED + 1`) the FIB-result counter of slot r, and only
that slot, grows by one packet and by the packet length in octets (64-bit
counters); when r is negative or r >= N no FIB-result counter changes, and
the dispatch goes on as for any other code: a negative code is NotForwarded
(`TC_ACT_OK`, packet unchanged), a code >= N is dropped like every other
unrecognised code (LastExit, or StoreMacError when the clearing store
fails). -/
theorem fib_result_counter (k : Kernel) (w : World) (skb : sk_buff)
    (q : bpf_fib_lookup)
    (hq : fib_query w skb = some q)
    (hint : -2 ^ 31 ≤ (k.fib q).1 ∧ (k.fib q).1 < 2 ^ 31) :
    ∃ r, tc_redir k w skb = some r ∧
      (∀ c : Nat, (k.fib q).1 = (c : Int) → c < BPF_FIB_LKUP_RET_MAX →
        (∃ old, w.ebpf_fib_lkup_stats_map.val[c]? = some old ∧
          r.world.ebpf_fib_lkup_stats_map.val[c]? =
            some ⟨(old.rx_packets + 1) % 2 ^ 64,
              (old.rx_bytes + skb.data.length) % 2 ^ 64⟩) ∧
        (∀ j, j ≠ c →
          r.world.ebpf_fib_lkup_stats_map.val[j]? =
            w.ebpf_fib_lkup_stats_map.val[j]?)) ∧
      ((k.fib q).1 < 0 ∨ (BPF_FIB_LKUP_RET_MAX : Int) ≤ (k.fib q).1 →
        r.world.ebpf_fib_lkup_stats_map = w.ebpf_fib_lkup_stats_map) ∧
      ((k.fib q).1 < 0 →
        r.ret = TC_ACT_OK ∧ r.skb = skb ∧
        r.world.ebpf_ret_stats_map =
          w.ebpf_ret_stats_map.record EBPF_NOT_FWD skb.data.length) ∧
      ((BPF_FIB_LKUP_RET_MAX : Int) ≤ (k.fib q).1 →
        r.ret = TC_ACT_SHOT ∧ r.world.redirect = w.redirect ∧
        r.world.ebpf_ret_stats_map =
          w.ebpf_ret_stats_map.record
            (if k.make_writable = true then EBPF_LAST_EXIT else EBPF_ERSTORMAC)
            skb.data.length) := by
  obtain ⟨hlo, hhi⟩ := hint
  obtain ⟨r, hr, -, -, -, hfm, hp, hi, hx, hc⟩ := tc_redir_exits k w skb q hq
  refine ⟨r, hr, ?_, ?_, ?_, ?_⟩
  · intro c hcode hcN
    have hcN' : c < 9 := hcN
    have hu : ((k.fib q).1 % 2 ^ 32).toNat = c := by
      rw [hcode]; exact u32_of_small c (by omega)
    rw [hfm, hu, if_neg (by omega)]
    exact StatsMap.record_slots _ c skb.data.length hcN
  · intro hout
    have hge : ((k.fib q).1 % 2 ^ 32).toNat ≥ BPF_FIB_LKUP_RET_MAX := by
      show 9 ≤ _
      rcases hout with h | h
      · have := u32_of_negative _ h hlo
        omega
      · have h9 : (9 : Int) ≤ (k.fib q).1 := h
        obtain ⟨c, hc'⟩ := Int.eq_ofNat_of_zero_le (show (0 : Int) ≤ (k.fib q).1 by omega)
        rw [hc', u32_of_small c (by omega)]
        omega
    rw [hfm, if_pos hge]
  · intro hneg
    rcases hc with ⟨-, hret, hd, -, hst⟩ | ⟨h, -⟩ | ⟨h, -⟩ | ⟨h, -⟩ | ⟨h, -⟩
    · exact ⟨hret, sk_buff_ext _ _ hd hp hi hx, hst⟩
    all_goals exact absurd (Or.inr hneg) h
  · intro hge
    have h9 : (9 : Int) ≤ (k.fib q).1 := hge
    have hnf : ¬ ((k.fib q).1 = BPF_FIB_LKUP_RET_NOT_FWDED ∨ (k.fib q).1 < 0) := by
      rintro (h | h)
      · rw [h] at h9; exact absurd h9 (by decide)
      · omega
    rcases hc with ⟨h, -⟩ | ⟨-, hw, hret, -, hrd, hst⟩ | ⟨-, -, h, -⟩ | ⟨-, -, h, -⟩ |
        ⟨-, hw, -, -, hret, -, hrd, hst⟩
    · exact absurd h hnf
    · rw [hw]; exact ⟨hret, hrd, hst⟩
    · rw [h] at h9; exact absurd h9 (by decide)
    · rw [h] at h9; exact absurd h9 (by decide)
    · rw [hw]; exact ⟨hret, hrd, hst⟩

/-- Concrete instances: the example IPv4 frame with the FIB answering 0
(slot 0 is counted up by one packet and 34 octets), 9 (no slot changes, the
packet is dropped with LastExit) and -22 (no slot changes, NotForwarded). -/
theorem fib_result_counter_witness :
    fib_query ex_world ex_ipv4 = some ex_query4 ∧
    (-2 ^ 31 ≤ ((ex_kernel 0 true).fib ex_query4).1 ∧
      ((ex_kernel 0 true).fib ex_query4).1 < 2 ^ 31) ∧
    (∃ r, tc_redir (ex_kernel 0 true) ex_world ex_ipv4 = some r ∧
      (∀ c : Nat, ((ex_kernel 0 true).fib ex_query4).1 = (c : Int) →
        c < BPF_FIB_LKUP_RET_MAX →
        (∃ old, ex_world.ebpf_fib_lkup_stats_map.val[c]? = some old ∧
          r.world.ebpf_fib_lkup_stats_map.val[c]? =
            some ⟨(old.rx_packets + 1) % 2 ^ 64,
              (old.rx_bytes + ex_ipv4.data.length) % 2 ^ 64⟩) ∧
        (∀ j, j ≠ c →
          r.world.ebpf_fib_lkup_stats_map.val[j]? =
            ex_world.ebpf_fib_lkup_stats_map.val[j]?)) ∧
      (((ex_kernel 0 true).fib ex_query4).1 < 0 ∨
          (BPF_FIB_LKUP_RET_MAX : Int) ≤ ((ex_kernel 0 true).fib ex_query4).1 →
        r.world.ebpf_fib_lkup_stats_map = ex_world.ebpf_fib_lkup_stats_map) ∧
      (((ex_kernel 0 true).fib ex_query4).1 < 0 →
        r.ret = TC_ACT_OK ∧ r.skb = ex_ipv4 ∧
        r.world.ebpf_ret_stats_map =
          ex_world.ebpf_ret_stats_map.record EBPF_NOT_FWD ex_ipv4.data.length) ∧
      ((BPF_FIB_LKUP_RET_MAX : Int) ≤ ((ex_kernel 0 true).fib ex_query4).1 →
        r.ret = TC_ACT_SHOT ∧ r.world.redirect = ex_world.redirect ∧
        r.world.ebpf_ret_stats_map =
          ex_world.ebpf_ret_stats_map.record
            (if (ex_kernel 0 true).make_writable = true then EBPF_LAST_EXIT
              else EBPF_ERSTORMAC)
            ex_ipv4.data.length)) ∧
    (tc_redir (ex_kernel 0 true) ex_world ex_ipv4).map
        (fun r => r.world.ebpf_fib_lkup_stats_map.val) =
      some (⟨1, 34⟩ :: List.replicate 8 ⟨0, 0⟩) ∧
    (tc_redir (ex_kernel 9 true) ex_world ex_ipv4).map
        (fun r => (r.world.ebpf_fib_lkup_stats_map, r.ret, r.world.ebpf_ret_stats_map)) =
      some (ex_world.ebpf_fib_lkup_stats_map, TC_ACT_SHOT,
        ex_world.ebpf_ret_stats_map.record EBPF_LAST_EXIT 34) ∧
    (tc_redir (ex_kernel (-22) true) ex_world ex_ipv4).map
        (fun r => (r.world.ebpf_fib_lkup_stats_map, r.ret, r.world.ebpf_ret_stats_map)) =
      some (ex_world.ebpf_fib_lkup_stats_map, TC_ACT_OK,
        ex_world.ebpf_ret_stats_map.record EBPF_NOT_FWD 34) :=
  ⟨by decide, by decide,
    fib_result_counter (ex_kernel 0 true) ex_world ex_ipv4 ex_query4 (by decide)
      (by decide),
    by decide, by decide, by decide⟩

/-! ## The bound of the option scan -/

/-- C18: the option scan of a Neighbor Advertisement (EtherType IPv6,
possibly behind one VLAN tag, header at `off`) is bounded by 6 iterations.
When the first `j` options are well-formed (length unit 1..32, entirely
inside the buffer) and of types other than 2: if `j` is 6 or more,
`handle_neighbor_reply_tc` emits no event whatever follows, a valid Target
Link-Layer Address option as seventh or later option included; if `j` is less
than 6 and the next option is a valid Target Link-Layer Address option, it
performs exactly one `emit_event` carrying that option's 6-octet address and
the advertised target address. -/
theorem na_option_scan_bound (w : World) (skb : sk_buff) (off : Nat)
    (ip : Bytes 16) (j pos : Nat)
    (hframe : eth_payload skb.data ETH_P_IPV6 off)
    (hnext : load8 skb.data (off + 6) = some 58)
    (htype : load8 skb.data (off + 40) = some 136)
    (hip : load skb.data (off + 48) 16 = some ip)
    (hskip : skip_options skb.data j (off + 64) = some pos) :
    (NA_MAX_OPTS ≤ j →
      handle_neighbor_reply_tc w skb = some ⟨w, skb, TC_ACT_OK⟩) ∧
    (j < NA_MAX_OPTS →
      ∀ (u : Byte) (mac : Bytes 6),
        load8 skb.data pos = some 2 →
        load8 skb.data (pos + 1) = some u →
        1 ≤ u.val → u.val ≤ 32 →
        pos + u.val * 8 ≤ skb.data.length →
        load skb.data (pos + 2) 6 = some mac →
        ∃ r : Exit, handle_neighbor_reply_tc w skb = some r ∧
          r.ret = TC_ACT_OK ∧ r.skb = skb ∧
          r.world = emit_event w skb.ifindex 6 mac ip ∧
          (w.neighbor_ringbuf.free ≠ 0 →
            r.world.neighbor_ringbuf.records = w.neighbor_ringbuf.records ++
              [{ ifindex := skb.ifindex, family := 6, mac := mac, ip := ip }])) := by
  have hr := handle_neighbor_reply_tc_closed w skb ETH_P_IPV6 off hframe
  rw [if_neg (by decide), if_pos rfl, handle_na_closed w skb off ip hnext htype hip] at hr
  constructor
  · intro hj
    obtain ⟨p6, hp6⟩ := skip_options_prefix skb.data (j - NA_MAX_OPTS) NA_MAX_OPTS
      (off + 64) pos (by rw [show NA_MAX_OPTS + (j - NA_MAX_OPTS) = j from by omega]; exact hskip)
    have h := na_options_skip skb ip w 0 NA_MAX_OPTS (off + 64) p6 hp6
    rw [Nat.add_zero] at h
    rw [h] at hr
    exact hr
  · intro hj u mac hty hun hu1 hu32 hin hmac
    have hn : NA_MAX_OPTS = j + ((NA_MAX_OPTS - j - 1) + 1) := by omega
    have hstep := na_options_step skb ip (NA_MAX_OPTS - j - 1) w pos 2 u hty hun hu1 hu32 hin
    rw [if_pos (by decide), hmac] at hstep
    rw [hn, na_options_skip skb ip w _ j (off + 64) pos hskip, hstep] at hr
    exact ⟨_, hr, rfl, rfl, rfl, fun hf => emit_event_records w _ _ _ _ hf⟩

set_option maxRecDepth 8192 in
/-- Concrete instances: with six options of type 1 in front, a valid Target
Link-Layer Address option as the seventh is not reached and nothing is
emitted; with five in front, the sixth option is honoured. -/
theorem na_option_scan_bound_witness :
    (eth_payload ex_na_seventh.data ETH_P_IPV6 14 ∧
      load8 ex_na_seventh.data (14 + 6) = some 58 ∧
      load8 ex_na_seventh.data (14 + 40) = some 136 ∧
      load ex_na_seventh.data (14 + 48) 16 = some ex_fe80_1 ∧
      skip_options ex_na_seventh.data 6 (14 + 64) = some 126 ∧
      load ex_na_seventh.data 126 8 = some ⟨ex_opt_tlla, rfl⟩ ∧
      ex_na_seventh.data.length = 126 + 8 ∧
      handle_neighbor_reply_tc ex_world ex_na_seventh =
        some ⟨ex_world, ex_na_seventh, TC_ACT_OK⟩) ∧
    (skip_options ex_na_sixth.data 5 (14 + 64) = some 118 ∧
      load8 ex_na_sixth.data 118 = some 2 ∧
      load8 ex_na_sixth.data (118 + 1) = some 1 ∧
      118 + (1 : Byte).val * 8 ≤ ex_na_sixth.data.length ∧
      load ex_na_sixth.data (118 + 2) 6 =
        some ⟨[0xaa, 0xaa, 0xaa, 0xaa, 0xaa, 0xaa], rfl⟩ ∧
      (∃ r : Exit, handle_neighbor_reply_tc ex_world ex_na_sixth = some r ∧
        r.ret = TC_ACT_OK ∧ r.skb = ex_na_sixth ∧
        r.world = emit_event ex_world ex_na_sixth.ifindex 6
          ⟨[0xaa, 0xaa, 0xaa, 0xaa, 0xaa, 0xaa], rfl⟩ ex_fe80_1 ∧
        (ex_world.neighbor_ringbuf.free ≠ 0 →
          r.world.neighbor_ringbuf.records = ex_world.neighbor_ringbuf.records ++
            [{ ifindex := ex_na_sixth.ifindex, family := 6,
               mac := ⟨[0xaa, 0xaa, 0xaa, 0xaa, 0xaa, 0xaa], rfl⟩,
               ip := ex_fe80_1 }])) ∧
      (handle_neighbor_reply_tc ex_world ex_na_sixth).map
          (fun r => r.world.neighbor_ringbuf.records) =
        some [{ ifindex := 3, family := 6,
                mac := ⟨[0xaa, 0xaa, 0xaa, 0xaa, 0xaa, 0xaa], rfl⟩,
                ip := ex_fe80_1 }]) :=
  ⟨⟨Or.inl (by decide), by decide, by decide, by decide, by decide, by decide,
      by decide,
      (na_option_scan_bound ex_world ex_na_seventh 14 ex_fe80_1 6 126
        (Or.inl (by decide)) (by decide) (by decide) (by decide) (by decide)).1
        (by decide)⟩,
    ⟨by decide, by decide, by decide, by decide, by decide,
      (na_option_scan_bound ex_world ex_na_sixth 14 ex_fe80_1 5 118
        (Or.inl (by decide)) (by decide) (by decide) (by decide) (by decide)).2
        (by decide) 1 ⟨[0xaa, 0xaa, 0xaa, 0xaa, 0xaa, 0xaa], rfl⟩
        (by decide) (by decide) (by decide) (by decide) (by decide) (by decide),
      by decide⟩⟩

/-! ## The frame of the forwarding engine -/

/-- C19: on every path of `tc_redir`, for every packet, kernel state and
answer of the kernel, the packet length is unchanged and every octet at
offset 12 or higher equals the input octet; only the 12 address octets can
differ from the input, and they differ only on paths that passed the
NotForwarded check (and on which the clearing store succeeded). -/
theorem tc_redir_frame (k : Kernel) (w : World) (skb : sk_buff) :
    ∃ r, tc_redir k w skb = some r ∧
      r.skb.data.length = skb.data.length ∧
      r.skb.data.drop 12 = skb.data.drop 12 ∧
      (∀ i, 12 ≤ i → r.skb.data[i]? = skb.data[i]?) ∧
      r.skb.protocol = skb.protocol ∧
      r.skb.ingress_ifindex = skb.ingress_ifindex ∧
      r.skb.ifindex = skb.ifindex ∧
      (r.skb.data ≠ skb.data →
        ∃ q, fib_query w skb = some q ∧
          ¬ ((k.fib q).1 = BPF_FIB_LKUP_RET_NOT_FWDED ∨ (k.fib q).1 < 0) ∧
          k.make_writable = true) := by
  have key : ∀ d' : List Byte, d'.length = skb.data.length →
      d'.drop 12 = skb.data.drop 12 → ∀ i, 12 ≤ i → d'[i]? = skb.data[i]? := by
    intro d' _ hd i hi
    exact load8_tail skb.data d' hd i hi
  obtain hq | ⟨q, hq⟩ : fib_query w skb = none ∨ ∃ q, fib_query w skb = some q := by
    cases fib_query w skb
    · exact Or.inl rfl
    · exact Or.inr ⟨_, rfl⟩
  · exact ⟨_, tc_redir_rejected k w skb hq, rfl, rfl, fun _ _ => rfl, rfl, rfl, rfl,
      fun h => absurd rfl h⟩
  · have hlen := fib_query_length w skb q hq
    simp only [ETH_HLEN] at hlen
    have h1 := (k.fib q).2.dmac.property
    have h2 := (k.fib q).2.smac.property
    obtain ⟨r, hr, -, -, -, -, hp, hi, hx, hc⟩ := tc_redir_exits k w skb q hq
    have hsame : r.skb.data = skb.data →
        r.skb.data.length = skb.data.length ∧
        r.skb.data.drop 12 = skb.data.drop 12 ∧
        (∀ i, 12 ≤ i → r.skb.data[i]? = skb.data[i]?) ∧
        r.skb.protocol = skb.protocol ∧
        r.skb.ingress_ifindex = skb.ingress_ifindex ∧
        r.skb.ifindex = skb.ifindex ∧
        (r.skb.data ≠ skb.data →
          ∃ q, fib_query w skb = some q ∧
            ¬ ((k.fib q).1 = BPF_FIB_LKUP_RET_NOT_FWDED ∨ (k.fib q).1 < 0) ∧
            k.make_writable = true) := by
      intro hd
      exact ⟨by rw [hd], by rw [hd], fun i _ => by rw [hd], hp, hi, hx,
        fun h => absurd hd h⟩
    have hrew : ∀ d' : List Byte, r.skb.data = d' → d'.length = skb.data.length →
        d'.drop 12 = skb.data.drop 12 →
        ¬ ((k.fib q).1 = BPF_FIB_LKUP_RET_NOT_FWDED ∨ (k.fib q).1 < 0) →
        k.make_writable = true →
        r.skb.data.length = skb.data.length ∧
        r.skb.data.drop 12 = skb.data.drop 12 ∧
        (∀ i, 12 ≤ i → r.skb.data[i]? = skb.data[i]?) ∧
        r.skb.protocol = skb.protocol ∧
        r.skb.ingress_ifindex = skb.ingress_ifindex ∧
        r.skb.ifindex = skb.ifindex ∧
        (r.skb.data ≠ skb.data →
          ∃ q, fib_query w skb = some q ∧
            ¬ ((k.fib q).1 = BPF_FIB_LKUP_RET_NOT_FWDED ∨ (k.fib q).1 < 0) ∧
            k.make_writable = true) := by
      intro d' hd hl hdr hnf hw
      rw [hd]
      exact ⟨hl, hdr, key d' hl hdr, hp, hi, hx, fun _ => ⟨q, hq, hnf, hw⟩⟩
    have hz : (List.replicate 12 (0 : Byte) ++ skb.data.drop 12).drop 12 =
        skb.data.drop 12 := by
      rw [List.drop_append_of_le_length (by simp), List.drop_of_length_le (by simp)]
      rfl
    have hm : ((k.fib q).2.dmac.val ++ (k.fib q).2.smac.val ++ skb.data.drop 12).drop 12 =
        skb.data.drop 12 := by
      rw [List.drop_append_of_le_length (by simp [h1, h2]),
        List.drop_of_length_le (by simp [h1, h2])]
      rfl
    have hml : ((k.fib q).2.dmac.val ++ (k.fib q).2.smac.val ++
        skb.data.drop 12).length = skb.data.length := by
      simp only [List.length_append, List.length_drop, h1, h2]; omega
    refine ⟨r, hr, ?_⟩
    rcases hc with ⟨-, -, hd, -⟩ | ⟨-, -, -, hd, -⟩ | ⟨hnf, hw, -, -, hd, -⟩ |
        ⟨hnf, hw, -, -, hd, -⟩ | ⟨hnf, hw, -, -, -, hd, -⟩
    · exact hsame hd
    · exact hsame hd
    · exact hrew _ hd hml hm hnf hw
    · exact hrew _ hd (cleared_length _ (by omega)) hz hnf hw
    · exact hrew _ hd (cleared_length _ (by omega)) hz hnf hw

/-- C20: every `tc_redir` invocation counts up exactly one of the seven
outcome counters (Route, RouteNoNeighbor, HeaderParseError, NotForwarded,
StoreMacError, SizeExceeded, LastExit), by one packet and by the packet
length in octets (64-bit counters), leaves the other six unchanged, and the
counter that was counted up goes with the disposition: HeaderParseError and
NotForwarded with `TC_ACT_OK`, StoreMacError, SizeExceeded and LastExit with
`TC_ACT_SHOT`, both without a redirect, Route and RouteNoNeighbor with
`TC_ACT_REDIRECT` and a registered redirect. -/
theorem outcome_counter (k : Kernel) (w : World) (skb : sk_buff) :
    ∃ r x, tc_redir k w skb = some r ∧ x < EBPF_RES_MAX ∧
      (∃ old, w.ebpf_ret_stats_map.val[x]? = some old ∧
        r.world.ebpf_ret_stats_map.val[x]? =
          some ⟨(old.rx_packets + 1) % 2 ^ 64,
            (old.rx_bytes + skb.data.length) % 2 ^ 64⟩ ∧
        r.world.ebpf_ret_stats_map.val[x]? ≠ some old) ∧
      (∀ j, j ≠ x →
        r.world.ebpf_ret_stats_map.val[j]? = w.ebpf_ret_stats_map.val[j]?) ∧
      (((x = EBPF_ERPARSHDR ∨ x = EBPF_NOT_FWD) ∧
          r.ret = TC_ACT_OK ∧ r.world.redirect = w.redirect) ∨
       ((x = EBPF_ERSTORMAC ∨ x = EBPF_SIZE_EXC ∨ x = EBPF_LAST_EXIT) ∧
          r.ret = TC_ACT_SHOT ∧ r.world.redirect = w.redirect) ∨
       ((x = EBPF_ROUTE ∨ x = EBPF_ROUTENN) ∧
          r.ret = TC_ACT_REDIRECT ∧ ∃ t, r.world.redirect = some t)) := by
  have slots : ∀ (m' : StatsMap EBPF_RES_MAX) (x : Nat), x < EBPF_RES_MAX →
      m' = w.ebpf_ret_stats_map.record x skb.data.length →
      (∃ old, w.ebpf_ret_stats_map.val[x]? = some old ∧
        m'.val[x]? =
          some ⟨(old.rx_packets + 1) % 2 ^ 64,
            (old.rx_bytes + skb.data.length) % 2 ^ 64⟩ ∧
        m'.val[x]? ≠ some old) ∧
      (∀ j, j ≠ x → m'.val[j]? = w.ebpf_ret_stats_map.val[j]?) := by
    intro m' x hx hm
    obtain ⟨⟨old, ho, hn⟩, hrest⟩ :=
      StatsMap.record_slots w.ebpf_ret_stats_map x skb.data.length hx
    rw [hm]
    refine ⟨⟨old, ho, hn, ?_⟩, hrest⟩
    rw [hn]
    intro h
    exact datarec_count_ne old skb.data.length (Option.some.inj h)
  obtain hq | ⟨q, hq⟩ : fib_query w skb = none ∨ ∃ q, fib_query w skb = some q := by
    cases fib_query w skb
    · exact Or.inl rfl
    · exact Or.inr ⟨_, rfl⟩
  · obtain ⟨h1, h2⟩ := slots _ EBPF_ERPARSHDR (by decide) rfl
    exact ⟨_, EBPF_ERPARSHDR, tc_redir_rejected k w skb hq, by decide, h1, h2,
      Or.inl ⟨Or.inl rfl, rfl, rfl⟩⟩
  · obtain ⟨r, hr, -, -, -, -, -, -, -, hc⟩ := tc_redir_exits k w skb q hq
    rcases hc with ⟨-, hret, -, hrd, hst⟩ | ⟨-, -, hret, -, hrd, hst⟩ |
        ⟨-, -, -, hret, -, hrd, hst⟩ | ⟨-, -, -, hret, -, hrd, hst⟩ |
        ⟨-, -, -, -, hret, -, hrd, hst⟩
    · obtain ⟨h1, h2⟩ := slots _ EBPF_NOT_FWD (by decide) hst
      exact ⟨r, EBPF_NOT_FWD, hr, by decide, h1, h2, Or.inl ⟨Or.inr rfl, hret, hrd⟩⟩
    · obtain ⟨h1, h2⟩ := slots _ EBPF_ERSTORMAC (by decide) hst
      exact ⟨r, EBPF_ERSTORMAC, hr, by decide, h1, h2,
        Or.inr (Or.inl ⟨Or.inl rfl, hret, hrd⟩)⟩
    · obtain ⟨h1, h2⟩ := slots _ EBPF_ROUTE (by decide) hst
      exact ⟨r, EBPF_ROUTE, hr, by decide, h1, h2,
        Or.inr (Or.inr ⟨Or.inl rfl, hret, _, hrd⟩)⟩
    · obtain ⟨h1, h2⟩ := slots _ EBPF_ROUTENN (by decide) hst
      exact ⟨r, EBPF_ROUTENN, hr, by decide, h1, h2,
        Or.inr (Or.inr ⟨Or.inr rfl, hret, _, hrd⟩)⟩
    · obtain ⟨h1, h2⟩ := slots _ EBPF_LAST_EXIT (by decide) hst
      exact ⟨r, EBPF_LAST_EXIT, hr, by decide, h1, h2,
        Or.inr (Or.inl ⟨Or.inr (Or.inr rfl), hret, hrd⟩)⟩

/-! ## The bounds re-check after the lookup -/

/-- The helper `bpf_skb_store_bytes` never changes the packet length. -/
theorem bpf_skb_store_bytes_length (k : Kernel) (skb : sk_buff) (offset : Nat)
    (src : List Byte) :
    (bpf_skb_store_bytes k skb offset src).2.data.length = skb.data.length := by
  unfold bpf_skb_store_bytes
  by_cases h : k.make_writable = true ∧ offset + src.length ≤ skb.data.length
  · rw [if_pos h]
    simp only [List.length_append, List.length_take, List.length_drop]
    omega
  · rw [if_neg h]

/-- The helper `bpf_skb_store_bytes` succeeds only when the written range is
inside the packet. -/
theorem bpf_skb_store_bytes_ok (k : Kernel) (skb : sk_buff) (offset : Nat)
    (src : List Byte) (h : ¬ (bpf_skb_store_bytes k skb offset src).1 < 0) :
    k.make_writable = true ∧ offset + src.length ≤ skb.data.length := by
  unfold bpf_skb_store_bytes at h
  by_cases hc : k.make_writable = true ∧ offset + src.length ≤ skb.data.length
  · exact hc
  · rw [if_neg hc] at h
    exact absurd (by decide : ((-14 : Int) < 0)) h

/-- The bounds re-check of the Success branch is live code: handed a buffer
shorter than the Ethernet header, the branch records SizeExceeded and drops
the packet without rewriting it. -/
theorem tc_redir_dispatch_short (w : World) (skb : sk_buff) (fib_params : bpf_fib_lookup)
    (h : skb.data.length < ETH_HLEN) :
    tc_redir_dispatch w skb BPF_FIB_LKUP_RET_SUCCESS fib_params = some
      ⟨{ w with ebpf_ret_stats_map :=
          w.ebpf_ret_stats_map.record EBPF_SIZE_EXC skb.data.length }, skb, TC_ACT_SHOT⟩ := by
  unfold tc_redir_dispatch
  rw [if_pos rfl, if_pos h]
  simp only [ebpf_record_ret_stats_eq _ _ _ _ (by decide : EBPF_SIZE_EXC < EBPF_RES_MAX)]

/-- C21: the SizeExceeded outcome is unreachable.  The store helper succeeds
only when its range is inside the packet (for the 12-octet store at offset 0:
only on buffers of at least 12 octets) and never changes the packet length.
On every `tc_redir` invocation the recorded outcome is one of the other six,
and the SizeExceeded counter is left as it was.  On every invocation that
reaches the Success branch (the packet parses to a query `q`, the FIB answers
Success, the clearing store does not fail) the packet has at least 34 octets,
the packet handed to the branch has the same length, so the Ethernet-header
bounds re-check passes, and the rewrite is performed: destination and source
address are overwritten with the resolved ones, Route is recorded and the
packet is redirected to the resolved interface. -/
theorem size_exceeded_unreachable (k : Kernel) (w : World) (skb : sk_buff) :
    (∀ (s : sk_buff) (src : List Byte),
      (bpf_skb_store_bytes k s 0 src).2.data.length = s.data.length ∧
      (¬ (bpf_skb_store_bytes k s 0 src).1 < 0 → src.length ≤ s.data.length)) ∧
    (∃ r x, tc_redir k w skb = some r ∧ x < EBPF_RES_MAX ∧ x ≠ EBPF_SIZE_EXC ∧
      r.world.ebpf_ret_stats_map = w.ebpf_ret_stats_map.record x skb.data.length ∧
      r.world.ebpf_ret_stats_map ≠
        w.ebpf_ret_stats_map.record EBPF_SIZE_EXC skb.data.length ∧
      r.world.ebpf_ret_stats_map.val[EBPF_SIZE_EXC]? =
        w.ebpf_ret_stats_map.val[EBPF_SIZE_EXC]?) ∧
    (∀ q, fib_query w skb = some q →
      (k.fib q).1 = BPF_FIB_LKUP_RET_SUCCESS →
      ¬ (bpf_skb_store_bytes k skb 0 (Bytes.zero (ETH_ALEN * 2)).val).1 < 0 →
      34 ≤ skb.data.length ∧
      (bpf_skb_store_bytes k skb 0 (Bytes.zero (ETH_ALEN * 2)).val).2.data.length =
        skb.data.length ∧
      ¬ (ETH_HLEN >
        (bpf_skb_store_bytes k skb 0 (Bytes.zero (ETH_ALEN * 2)).val).2.data.length) ∧
      tc_redir k w skb =
        tc_redir_dispatch
          (ebpf_record_fib_lkup (k.bpf_fib_lookup w q).1 skb ((k.fib q).1 % 2 ^ 32).toNat)
          (bpf_skb_store_bytes k skb 0 (Bytes.zero (ETH_ALEN * 2)).val).2
          (k.fib q).1 (k.fib q).2 ∧
      ∃ r, tc_redir k w skb = some r ∧
        r.ret = TC_ACT_REDIRECT ∧
        r.skb.data = (k.fib q).2.dmac.val ++ (k.fib q).2.smac.val ++ skb.data.drop 12 ∧
        r.world.ebpf_ret_stats_map =
          w.ebpf_ret_stats_map.record EBPF_ROUTE skb.data.length ∧
        r.world.redirect = some (Redirect.dev (k.fib q).2.ifindex)) := by
  have other : ∀ (m' : StatsMap EBPF_RES_MAX) (x : Nat), x < EBPF_RES_MAX →
      x ≠ EBPF_SIZE_EXC →
      m' = w.ebpf_ret_stats_map.record x skb.data.length →
      m' ≠ w.ebpf_ret_stats_map.record EBPF_SIZE_EXC skb.data.length ∧
      m'.val[EBPF_SIZE_EXC]? = w.ebpf_ret_stats_map.val[EBPF_SIZE_EXC]? := by
    intro m' x hx hne hm
    rw [hm]
    constructor
    · intro h
      exact hne (StatsMap.record_inj _ _ _ _ hx h)
    · rw [StatsMap.record_get, if_neg (fun e => hne e.symm)]
  refine ⟨?_, ?_, ?_⟩
  · intro s src
    refine ⟨bpf_skb_store_bytes_length k s 0 src, fun h => ?_⟩
    have := (bpf_skb_store_bytes_ok k s 0 src h).2
    omega
  · obtain hq | ⟨q, hq⟩ : fib_query w skb = none ∨ ∃ q, fib_query w skb = some q := by
      cases fib_query w skb
      · exact Or.inl rfl
      · exact Or.inr ⟨_, rfl⟩
    · obtain ⟨h1, h2⟩ := other _ EBPF_ERPARSHDR (by decide) (by decide) rfl
      exact ⟨_, EBPF_ERPARSHDR, tc_redir_rejected k w skb hq, by decide, by decide,
        rfl, h1, h2⟩
    · obtain ⟨r, hr, -, -, -, -, -, -, -, hc⟩ := tc_redir_exits k w skb q hq
      rcases hc with ⟨-, -, -, -, hst⟩ | ⟨-, -, -, -, -, hst⟩ |
          ⟨-, -, -, -, -, -, hst⟩ | ⟨-, -, -, -, -, -, hst⟩ |
          ⟨-, -, -, -, -, -, -, hst⟩
      · obtain ⟨h1, h2⟩ := other _ EBPF_NOT_FWD (by decide) (by decide) hst
        exact ⟨r, EBPF_NOT_FWD, hr, by decide, by decide, hst, h1, h2⟩
      · obtain ⟨h1, h2⟩ := other _ EBPF_ERSTORMAC (by decide) (by decide) hst
        exact ⟨r, EBPF_ERSTORMAC, hr, by decide, by decide, hst, h1, h2⟩
      · obtain ⟨h1, h2⟩ := other _ EBPF_ROUTE (by decide) (by decide) hst
        exact ⟨r, EBPF_ROUTE, hr, by decide, by decide, hst, h1, h2⟩
      · obtain ⟨h1, h2⟩ := other _ EBPF_ROUTENN (by decide) (by decide) hst
        exact ⟨r, EBPF_ROUTENN, hr, by decide, by decide, hst, h1, h2⟩
      · obtain ⟨h1, h2⟩ := other _ EBPF_LAST_EXIT (by decide) (by decide) hst
        exact ⟨r, EBPF_LAST_EXIT, hr, by decide, by decide, hst, h1, h2⟩
  · intro q hq hfib hstore
    have hlen := fib_query_length w skb q hq
    simp only [ETH_HLEN] at hlen
    have hl := bpf_skb_store_bytes_length k skb 0 (Bytes.zero (ETH_ALEN * 2)).val
    have hnf : ¬ ((k.fib q).1 = BPF_FIB_LKUP_RET_NOT_FWDED ∨ (k.fib q).1 < 0) := by
      rw [hfib]
      decide
    refine ⟨by omega, hl, ?_, ?_, ?_⟩
    · rw [hl]
      simp only [ETH_HLEN]
      omega
    · rw [tc_redir_query k w skb q hq]
      simp only [if_neg hnf, if_neg hstore]
    · obtain ⟨r, hr, -, -, -, -, -, -, -, hc⟩ := tc_redir_exits k w skb q hq
      rcases hc with ⟨h1, -⟩ | ⟨-, hw, -⟩ | ⟨-, -, -, hret, hd, hrd, hst⟩ |
          ⟨-, -, hn, -⟩ | ⟨-, -, hs, -⟩
      · exact absurd h1 hnf
      · rw [store_zero_fail k skb hw] at hstore
        exact absurd (by decide : ((-14 : Int) < 0)) hstore
      · exact ⟨r, hr, hret, hd, hst, hrd⟩
      · rw [hfib] at hn
        exact absurd hn (by decide)
      · exact absurd hfib hs

/-- Concrete instance: the example IPv4 frame (34 octets), the FIB answering
Success, the clearing store succeeding: Route is the recorded outcome, the
SizeExceeded counter stays 0 and the addresses are rewritten. -/
theorem size_exceeded_unreachable_witness :
    fib_query ex_world ex_ipv4 = some ex_query4 ∧
    ((ex_kernel 0 true).fib ex_query4).1 = BPF_FIB_LKUP_RET_SUCCESS ∧
    ¬ (bpf_skb_store_bytes (ex_kernel 0 true) ex_ipv4 0
        (Bytes.zero (ETH_ALEN * 2)).val).1 < 0 ∧
    (34 ≤ ex_ipv4.data.length ∧
      (bpf_skb_store_bytes (ex_kernel 0 true) ex_ipv4 0
        (Bytes.zero (ETH_ALEN * 2)).val).2.data.length = ex_ipv4.data.length ∧
      ¬ (ETH_HLEN >
        (bpf_skb_store_bytes (ex_kernel 0 true) ex_ipv4 0
          (Bytes.zero (ETH_ALEN * 2)).val).2.data.length) ∧
      tc_redir (ex_kernel 0 true) ex_world ex_ipv4 =
        tc_redir_dispatch
          (ebpf_record_fib_lkup ((ex_kernel 0 true).bpf_fib_lookup ex_world ex_query4).1
            ex_ipv4 ((((ex_kernel 0 true).fib ex_query4).1 % 2 ^ 32).toNat))
          (bpf_skb_store_bytes (ex_kernel 0 true) ex_ipv4 0
            (Bytes.zero (ETH_ALEN * 2)).val).2
          ((ex_kernel 0 true).fib ex_query4).1 ((ex_kernel 0 true).fib ex_query4).2 ∧
      ∃ r, tc_redir (ex_kernel 0 true) ex_world ex_ipv4 = some r ∧
        r.ret = TC_ACT_REDIRECT ∧
        r.skb.data = ((ex_kernel 0 true).fib ex_query4).2.dmac.val ++
          ((ex_kernel 0 true).fib ex_query4).2.smac.val ++ ex_ipv4.data.drop 12 ∧
        r.world.ebpf_ret_stats_map =
          ex_world.ebpf_ret_stats_map.record EBPF_ROUTE ex_ipv4.data.length ∧
        r.world.redirect =
          some (Redirect.dev ((ex_kernel 0 true).fib ex_query4).2.ifindex)) ∧
    (tc_redir (ex_kernel 0 true) ex_world ex_ipv4).map
        (fun r => r.world.ebpf_ret_stats_map.val[EBPF_SIZE_EXC]?) =
      some (some ⟨0, 0⟩) ∧
    (tc_redir (ex_kernel 0 true) ex_world ex_ipv4).map
        (fun r => r.world.ebpf_ret_stats_map.val[EBPF_ROUTE]?) =
      some (some ⟨1, 34⟩) :=
  ⟨by decide, by decide, by decide,
    (size_exceeded_unreachable (ex_kernel 0 true) ex_world ex_ipv4).2.2 ex_query4
      (by decide) (by decide) (by decide),
    by decide, by decide⟩

end NwopBpf
